import Mathlib

/-!
# Cataclysm-DDA `src/creature.cpp`: effect engine and damage resolution

A shallow embedding of the status-effect engine, the core damage function, the
projectile entry point and the hostile-target selection of `Creature`, with the
properties of the specification stated and proved over it.

Conventions of the embedding

* C++ `int` is `Int`; integer division is `Int.tdiv` (truncation toward zero).
* `std::map<K, V>` is an association list `List (K × V)`; `find` returns the
  value of the first entry under a key, `erase` drops every entry under a key,
  assignment through `operator[]` overwrites the first entry under the key or
  appends a new one.  On lists without repeated keys (the only ones a
  `std::map` can hold) these are the operations of `std::map`.
* Messages (`add_msg`, `debugmsg`, the memorial log) do not touch the
  simulation state and are left out.
* Virtual member functions that the concrete creature types override are taken
  from a record of type `Virtuals`; hooks that mutate state owned by the
  concrete type are recorded in the creature's `calls` trace.
-/

namespace Cataclysm

/-! ## Data model -/

/-- Modelled from the spec: `enum body_part` is declared in `bodypart.h`; the
regions are the ones `creature.cpp` names (eyes, head, torso, left/right arm,
left/right leg) and `num_bp`, the "no body part" value used as a wildcard. -/
inductive body_part
  | bp_torso
  | bp_head
  | bp_eyes
  | bp_arm_l
  | bp_arm_r
  | bp_leg_l
  | bp_leg_r
  | num_bp
  deriving DecidableEq, Repr

/-- Identifier of an effect type (`string_id<effect_type>`). -/
abbrev efftype_id := String

/-- Modelled from the spec: the immutable effect-type definition of `effect.h`,
with the fields `creature.cpp` reads through the accessors of `effect`. -/
structure effect_type where
  id : efftype_id
  max_intensity : Int := 1
  max_duration : Int := 0
  dur_add_perc : Int := 100
  int_add_val : Int := 0
  int_dur_factor : Int := 0
  main_parts_only : Bool := false
  blocks_effects : List efftype_id := []
  removes_effects : List efftype_id := []
  resist_effects : List efftype_id := []
  resist_traits : List String := []
  deriving DecidableEq, Repr

/-- Modelled from the spec: an effect instance (`class effect` of `effect.h`):
the type it references, remaining duration, the body part it is anchored to,
the permanence flag, the intensity and the turn it was applied. -/
structure effect where
  eff_type : effect_type
  duration : Int
  bp : body_part
  permanent : Bool
  intensity : Int
  start_turn : Int
  deriving DecidableEq, Repr

namespace effect

def get_id (e : effect) : efftype_id := e.eff_type.id
def get_duration (e : effect) : Int := e.duration
def get_max_duration (e : effect) : Int := e.eff_type.max_duration
def set_duration (e : effect) (dur : Int) : effect := { e with duration := dur }
def mod_duration (e : effect) (dur : Int) : effect := { e with duration := e.duration + dur }
def is_permanent (e : effect) : Bool := e.permanent
def pause_effect (e : effect) : effect := { e with permanent := true }
def get_intensity (e : effect) : Int := e.intensity
def get_max_intensity (e : effect) : Int := e.eff_type.max_intensity
def set_intensity (e : effect) (nintensity : Int) : effect := { e with intensity := nintensity }
def mod_intensity (e : effect) (nintensity : Int) : effect :=
  { e with intensity := e.intensity + nintensity }
def get_dur_add_perc (e : effect) : Int := e.eff_type.dur_add_perc
def get_int_add_val (e : effect) : Int := e.eff_type.int_add_val
def get_int_dur_factor (e : effect) : Int := e.eff_type.int_dur_factor
def get_blocks_effects (e : effect) : List efftype_id := e.eff_type.blocks_effects
def get_removes_effects (e : effect) : List efftype_id := e.eff_type.removes_effects
def get_resist_effects (e : effect) : List efftype_id := e.eff_type.resist_effects
def get_resist_traits (e : effect) : List String := e.eff_type.resist_traits

/-- Modelled from the spec: `effect::decay` is defined in `effect.cpp`.  The
decay step "reduces remaining duration by one turn unless the instance is
permanent" and "appends itself to the pending-removal list if duration reaches
zero"; an instance whose duration is zero or below after the step is the one
that has reached zero.  The decay messages are player-only text. -/
def decay (e : effect) (rem_ids : List efftype_id) (rem_bps : List body_part)
    (_turn : Int) (_player : Bool) : effect × List efftype_id × List body_part :=
  let e1 := if !e.is_permanent then { e with duration := e.duration - 1 } else e
  if e1.duration ≤ 0 then
    (e1, rem_ids ++ [e1.get_id], rem_bps ++ [e1.bp])
  else
    (e1, rem_ids, rem_bps)

end effect

/-! ## Numbers, random draws and damage data -/

/-- The C++ types `float` and `double`, as fractions `num / den` of integers that
are compared by cross-multiplication.  A zero denominator stands for the
infinity of the sign of `num`; rounding and NaN are not represented. -/
structure double where
  num : Int
  den : Nat := 1
  deriving DecidableEq, Repr

namespace double

/-- Conversion of an `int`. -/
def of_int (n : Int) : double := { num := n, den := 1 }

instance : OfNat double n := ⟨of_int (Int.ofNat n)⟩

instance : Add double := ⟨fun a b => { num := a.num * b.den + b.num * a.den, den := a.den * b.den }⟩

instance : Mul double := ⟨fun a b => { num := a.num * b.num, den := a.den * b.den }⟩

instance : Sub double := ⟨fun a b => { num := a.num * b.den - b.num * a.den, den := a.den * b.den }⟩

instance : LE double := ⟨fun a b => a.num * b.den ≤ b.num * a.den⟩

instance : LT double := ⟨fun a b => a.num * b.den < b.num * a.den⟩

instance (a b : double) : Decidable (a ≤ b) :=
  inferInstanceAs (Decidable (a.num * b.den ≤ b.num * a.den))

instance (a b : double) : Decidable (a < b) :=
  inferInstanceAs (Decidable (a.num * b.den < b.num * a.den))

/-- Division of a floating-point value by an `int`. -/
def div_int (a : double) (n : Int) : double :=
  if 0 ≤ n then { num := a.num, den := a.den * n.toNat }
  else { num := -a.num, den := a.den * (-n).toNat }

/-- Conversion to `int`: truncation toward zero. -/
def to_int (a : double) : Int := Int.tdiv a.num a.den

/-- Embeds `std::max` and `std::min` on floating-point values. -/
def max (a b : double) : double := if a < b then b else a
def min (a b : double) : double := if b < a then b else a

end double

/-- The process-wide random generator, as the tape of raw draws it will hand out. -/
abbrev rng_tape := List Nat

/-- Modelled from the spec: `rng` of `rng.cpp`, a uniform integer between the two
bounds (in either order); the next raw draw picks the value. -/
def rng (val1 val2 : Int) (t : rng_tape) : Int × rng_tape :=
  let lo := Min.min val1 val2
  let hi := Max.max val1 val2
  (lo + Int.ofNat (t.headD 0) % (hi - lo + 1), t.tail)

/-- Modelled from the spec: `one_in(chance)` of `rng.cpp`, true with probability
one in `chance`. -/
def one_in (chance : Int) (t : rng_tape) : Bool × rng_tape :=
  if chance ≤ 1 then (true, t)
  else ((rng 0 (chance - 1) t).1 == 0, (rng 0 (chance - 1) t).2)

/-- Modelled from the spec: `dice(number, sides)` of `rng.cpp`, the sum of
`number` draws of `rng(1, sides)`. -/
def dice (number : Nat) (sides : Int) (t : rng_tape) : Int × rng_tape :=
  match number with
  | 0 => (0, t)
  | n + 1 => ((rng 1 sides t).1 + (dice n sides (rng 1 sides t).2).1,
      (dice n sides (rng 1 sides t).2).2)

/-- Modelled from the spec: `rng_float(lo, hi)` of `rng.cpp`, a uniform real
between the bounds; the next raw draw picks one of the 1001 points of the grid
of step `(hi - lo) / 1000`. -/
def rng_float (lo hi : double) (t : rng_tape) : double × rng_tape :=
  (lo + (hi + { num := -lo.num, den := lo.den }) *
      { num := Int.ofNat (t.headD 0 % 1001), den := 1000 }, t.tail)

/-- Modelled from the spec: `enum damage_type` of `damage.h`: the types
`deal_damage_handle_type` names and `DT_NULL`, `DT_TRUE`, `DT_BIOLOGICAL`, the
other types, which take its `default` branch. -/
inductive damage_type
  | DT_NULL
  | DT_TRUE
  | DT_BIOLOGICAL
  | DT_BASH
  | DT_CUT
  | DT_ACID
  | DT_STAB
  | DT_HEAT
  | DT_COLD
  | DT_ELECTRIC
  deriving DecidableEq, Repr

/-- Every damage type, in the order of the table of dealt damage. -/
def all_damage_types : List damage_type :=
  [damage_type.DT_NULL, damage_type.DT_TRUE, damage_type.DT_BIOLOGICAL, damage_type.DT_BASH,
   damage_type.DT_CUT, damage_type.DT_ACID, damage_type.DT_STAB, damage_type.DT_HEAT,
   damage_type.DT_COLD, damage_type.DT_ELECTRIC]

/-- Modelled from the spec: `struct damage_unit` of `damage.h`: a damage type, a
base amount and a multiplier (and the armor penetration fields, which only
armor absorption reads). -/
structure damage_unit where
  type : damage_type
  amount : double
  res_pen : Int := 0
  res_mult : double := 1
  damage_multiplier : double := 1
  deriving DecidableEq, Repr

/-- Modelled from the spec: `struct damage_instance` of `damage.h`: the ordered
damage units and the set of named effect tags. -/
structure damage_instance where
  damage_units : List damage_unit := []
  effects : List String := []
  deriving DecidableEq, Repr

namespace damage_instance

/-- Modelled from the spec: `damage_instance::mult_damage`, which applies a
multiplier to every unit. -/
def mult_damage (d : damage_instance) (multiplier : double) : damage_instance :=
  { d with damage_units := (d.damage_units.map
      (fun u => { u with damage_multiplier := u.damage_multiplier * multiplier })) }

/-- Modelled from the spec: `damage_instance::add_effect`, which adds a tag. -/
def add_effect (d : damage_instance) (effect : String) : damage_instance :=
  { d with effects := if d.effects.contains effect then d.effects else d.effects ++ [effect] }

/-- Modelled from the spec: `damage_instance::type_damage`, the summed amount of
the units of one type. -/
def type_damage (d : damage_instance) (dt : damage_type) : double :=
  (d.damage_units.filter (fun u => u.type = dt)).foldl (fun acc u => acc + u.amount) 0

end damage_instance

/-- Modelled from the spec: `struct dealt_damage_instance` of `damage.h`: the
damage dealt per damage type and the body part hit, which the callers of
`deal_damage` stamp on the record. -/
structure dealt_damage_instance where
  dealt_dams : damage_type → Int
  bp_hit : Option body_part := none

namespace dealt_damage_instance

/-- The default constructor: no damage of any type. -/
def empty : dealt_damage_instance := { dealt_dams := fun _ => 0 }

/-- Modelled from the spec: `dealt_damage_instance::total_damage`, the sum over
the damage types. -/
def total_damage (d : dealt_damage_instance) : Int :=
  (all_damage_types.map d.dealt_dams).sum

end dealt_damage_instance

/-! ## `std::map` as an association list -/

section assoc
variable {K V : Type} [DecidableEq K]

/-- Embeds `m.find(k)`: the value under `k`, `none` for `end()`. -/
def map_find : List (K × V) → K → Option V
  | [], _ => none
  | (k1, v) :: rest, k => if k1 = k then some v else map_find rest k

/-- Embeds `m.erase(k)`. -/
def map_erase (m : List (K × V)) (k : K) : List (K × V) :=
  m.filter (fun p => !decide (p.1 = k))

/-- Embeds the assignment `m[k] = v`. -/
def map_set : List (K × V) → K → V → List (K × V)
  | [], k, v => [(k, v)]
  | (k1, v1) :: rest, k, v =>
    if k1 = k then (k, v) :: rest else (k1, v1) :: map_set rest k v

end assoc

/-- The per-creature effect container `effects`: a map from effect type to a
map from body part to effect instance. -/
abbrev effects_map := List (efftype_id × List (body_part × effect))

/-- Read access `effects[eff_id]`: the inner map, empty when there is none. -/
def effects_at (m : effects_map) (eff_id : efftype_id) : List (body_part × effect) :=
  (map_find m eff_id).getD []

/-- A creature as other code refers to it (`Creature *`): its identity. -/
abbrev creature_id := Nat

/-- Hooks of the concrete creature type that `creature.cpp` calls for their
side effects; each call is appended to `Creature.calls`. -/
inductive hook_call
  | add_eff_effects (e : effect) (reduced : Bool)
  | absorb_hit (bp : body_part)
  | apply_damage (source : Option creature_id) (bp : body_part) (dam : Int)
  | on_dodge (source : Option creature_id) (difficulty : Int)
  | on_hit (source : Option creature_id) (bp : body_part)
  | block_hit (source : Option creature_id) (bp : body_part)
  | die
  deriving DecidableEq, Repr

/-- The state of a creature that `creature.cpp` reads and writes.  `hp` is the
value `get_hp()` reports; it is owned by the concrete type and changed only
through `apply_damage`.  The bonus fields are the ones of the stat ledger that
`mod_stat` reaches. -/
structure Creature where
  moves : Int := 0
  pain : Int := 0
  hp : Int := 0
  killer : Option creature_id := none
  fake : Bool := false
  effects : effects_map := []
  calls : List hook_call := []
  speed_bonus : Int := 0
  dodge_bonus : Int := 0
  block_bonus : Int := 0
  hit_bonus : Int := 0
  bash_bonus : Int := 0
  cut_bonus : Int := 0
  deriving DecidableEq, Repr

/-- Modelled from the spec: `struct tripoint`, a 3-D integer coordinate. -/
structure tripoint where
  x : Int := 0
  y : Int := 0
  z : Int := 0
  deriving DecidableEq, Repr

/-- Modelled from the spec: `enum m_size` of `mtype.h`, the creature sizes. -/
inductive m_size
  | MS_TINY
  | MS_SMALL
  | MS_MEDIUM
  | MS_LARGE
  | MS_HUGE
  deriving DecidableEq, Repr

/-- Modelled from the spec: the values of `Creature::Attitude`. -/
inductive Attitude
  | A_HOSTILE
  | A_NEUTRAL
  | A_FRIENDLY
  deriving DecidableEq, Repr

/-- What the target selection reads of another creature (a candidate, or the
player): identity, position, `power_rating()` and `attitude_to( g->u )`. -/
structure critter where
  id : creature_id := 0
  pos : tripoint := {}
  power_rating : double := 0
  attitude_to_u : Attitude := Attitude.A_NEUTRAL
  deriving DecidableEq, Repr

/-- A monster of `g->zombie(i)`: `friendly` is non-zero for monsters friendly to
the player. -/
structure monster where
  base : critter
  friendly : Int := 0
  deriving DecidableEq, Repr

/-- Modelled from the spec: the attitudes of an npc; `NPCATT_KILL` is the one of
an npc hostile to the player, `NPCATT_NULL` stands for every other. -/
inductive npc_attitude
  | NPCATT_NULL
  | NPCATT_KILL
  deriving DecidableEq, Repr

/-- An npc of `g->active_npc`. -/
structure npc where
  base : critter
  attitude : npc_attitude := npc_attitude.NPCATT_NULL
  deriving DecidableEq, Repr

/-- Process-wide data the creature code reads: the effect-type registry behind
`efftype_id::is_valid` and `efftype_id::obj`, `mutate_to_main_part` of
`bodypart.cpp`, `calendar::turn`, the player `g->u`, the monsters and npcs, and
the map queries `veh_at` (vehicle and part at a point), `vehicle::is_inside`,
`vehicle::get_points`, `coord_to_angle` and `rl_dist`.  The last field is
`std::pow( int, double )` of the C++ library. -/
structure Game where
  effect_types : efftype_id → Option effect_type
  mutate_to_main_part : body_part → body_part
  turn : Int := 0
  u : critter := {}
  zombies : List monster := []
  active_npc : List npc := []
  veh_at : tripoint → Option (Nat × Int) := fun _ => none
  veh_is_inside : Nat → Int → Bool := fun _ _ => false
  veh_points : Nat → List tripoint := fun _ => []
  coord_to_angle : Int → Int → Int → Int → Int := fun _ _ _ _ => 0
  rl_dist : tripoint → tripoint → Int :=
    fun a b => Max.max (Max.max (Int.natAbs (a.x - b.x)) (Int.natAbs (a.y - b.y)))
      (Int.natAbs (a.z - b.z))
  pow : Int → double → double := fun _ _ => 1

/-- Virtual member functions of `Creature` that the concrete creature types
define, read by the code of `creature.cpp`.  `self_id` is the identity of the
creature (`this`), `pos` its position. -/
structure Virtuals where
  self_id : creature_id := 0
  pos : tripoint := {}
  is_player : Bool := false
  is_immune_effect : efftype_id → Bool := fun _ => false
  is_immune_damage : damage_type → Bool := fun _ => false
  has_trait : String → Bool := fun _ => false
  is_dead_state : Creature → Bool := fun c => decide (c.hp ≤ 0)
  absorb_hit : body_part → damage_instance → damage_instance := fun _ d => d
  dodge_roll : Creature → rng_tape → Int × rng_tape := fun _ t => (0, t)
  get_env_resist : body_part → Int := fun _ => 0
  get_material : String := "flesh"
  get_size : m_size := m_size.MS_MEDIUM
  sees : critter → Bool := fun _ => true
  is_on_ground : Bool := false
  get_hp_max : Int := 0
  block_hit : body_part → damage_instance → body_part × damage_instance := fun bp d => (bp, d)

/-! ## Effect engine -/

/-- Embeds `Creature::has_effect`. -/
def has_effect (c : Creature) (eff_id : efftype_id) (bp : body_part) : Bool :=
  if bp = body_part.num_bp then
    (map_find c.effects eff_id).isSome
  else
    match map_find c.effects eff_id with
    | some got_outer =>
      match map_find got_outer bp with
      | some _ => true
      | none => false
    | none => false

/-- Embeds `Creature::get_effect`; `none` stands for `effect::null_effect`. -/
def get_effect (c : Creature) (eff_id : efftype_id) (bp : body_part) : Option effect :=
  match map_find c.effects eff_id with
  | some got_outer => map_find got_outer bp
  | none => none

/-- Embeds `Creature::get_effect_dur`. -/
def get_effect_dur (c : Creature) (eff_id : efftype_id) (bp : body_part) : Int :=
  match get_effect c eff_id bp with
  | some eff => eff.get_duration
  | none => 0

/-- Embeds `Creature::get_effect_int`. -/
def get_effect_int (c : Creature) (eff_id : efftype_id) (bp : body_part) : Int :=
  match get_effect c eff_id bp with
  | some eff => eff.get_intensity
  | none => 0

/-- Embeds `Creature::resists_effect`. -/
def resists_effect (v : Virtuals) (c : Creature) (e : effect) : Bool :=
  e.get_resist_effects.any (fun i => has_effect c i body_part.num_bp) ||
    e.get_resist_traits.any (fun i => v.has_trait i)

/-- Embeds `Creature::add_eff_effects`: empty in `Creature`, overridden by the
concrete types; the call is recorded. -/
def add_eff_effects (c : Creature) (e : effect) (reduced : Bool) : Creature :=
  { c with calls := c.calls ++ [hook_call.add_eff_effects e reduced] }

/-- The statement `effects[eff_id][bp] = e`. -/
def effects_assign (m : effects_map) (eff_id : efftype_id) (bp : body_part) (e : effect) :
    effects_map :=
  map_set m eff_id (map_set (effects_at m eff_id) bp e)

/-- The two places of `add_effect` that bound the intensity by
`[1, max intensity]`: below 1 gives 1, else above the maximum gives the maximum. -/
def bound_intensity (e : effect) : effect :=
  if e.get_intensity < 1 then e.set_intensity 1
  else if e.get_intensity > e.get_max_intensity then e.set_intensity e.get_max_intensity
  else e

/-- The limit to the maximal duration in `add_effect`. -/
def bound_duration (e : effect) : effect :=
  if e.get_max_duration > 0 ∧ e.get_duration > e.get_max_duration then
    e.set_duration e.get_max_duration
  else e

/-- The block check of `add_effect`: some active effect, of any type and on any
body part, lists `eff_id` among the effects it blocks. -/
def is_blocked (m : effects_map) (eff_id : efftype_id) : Bool :=
  m.any (fun elem => elem.2.any (fun it => it.2.get_blocks_effects.any (fun b => b == eff_id)))

/-- The branch of `add_effect` for an instance `e` found at `(eff_id, bp)`. -/
def merge_effect (e : effect) (dur : Int) (intensity : Int) : effect :=
  let e := e.mod_duration (Int.tdiv (dur * e.get_dur_add_perc) 100)
  let e := bound_duration e
  let e := if e.is_permanent then e.pause_effect else e
  let e :=
    if intensity > 0 then e.set_intensity intensity
    else if e.get_int_add_val ≠ 0 then e.mod_intensity e.get_int_add_val
    else e
  bound_intensity e

/-- The construction of the new instance in `add_effect`, up to the store. -/
def new_effect (g : Game) (type : effect_type) (dur : Int) (bp : body_part)
    (permanent : Bool) (intensity : Int) : effect :=
  let e : effect :=
    { eff_type := type, duration := dur, bp := bp, permanent := permanent,
      intensity := intensity, start_turn := g.turn }
  let e := bound_duration e
  let e :=
    if e.get_int_dur_factor ≠ 0 then
      e.set_intensity (Int.tdiv e.get_duration e.get_int_dur_factor + 1)
    else e
  bound_intensity e

/-- The body part `add_effect` works on: the main part owning `bp` for types
restricted to main parts, `bp` itself otherwise. -/
def target_part (g : Game) (type : effect_type) (bp : body_part) : body_part :=
  if type.main_parts_only then g.mutate_to_main_part bp else bp

/-- Embeds `Creature::add_effect`. -/
def add_effect (g : Game) (v : Virtuals) (c : Creature) (eff_id : efftype_id) (dur : Int)
    (bp : body_part) (permanent : Bool) (intensity : Int) (force : Bool) : Creature :=
  if !force && v.is_immune_effect eff_id then c
  else
    match g.effect_types eff_id with
    | none => c
    | some type =>
      let bp := target_part g type bp
      match get_effect c eff_id bp with
      | some e =>
        { c with effects := effects_assign c.effects eff_id bp (merge_effect e dur intensity) }
      | none =>
        if is_blocked c.effects eff_id then c
        else
          let e := new_effect g type dur bp permanent intensity
          let c1 := { c with effects := effects_assign c.effects eff_id bp e }
          let reduced := resists_effect v c1 e
          add_eff_effects c1 e reduced

/-- Embeds `Creature::clear_effects`. -/
def clear_effects (c : Creature) : Creature :=
  { c with effects := [] }

/-- Embeds `Creature::remove_effect`: the returned flag and the creature afterwards. -/
def remove_effect (c : Creature) (eff_id : efftype_id) (bp : body_part) : Bool × Creature :=
  if !has_effect c eff_id bp then (false, c)
  else if bp = body_part.num_bp then
    (true, { c with effects := map_erase c.effects eff_id })
  else
    let m1 := map_set c.effects eff_id (map_erase (effects_at c.effects eff_id) bp)
    let m2 := if (effects_at m1 eff_id).isEmpty then map_erase m1 eff_id else m1
    (true, { c with effects := m2 })

/-- The inner loop of `process_effects` over the instances of one effect type:
each instance contributes the types it removes (with `num_bp`) and is decayed
in place. -/
def process_bodyparts (turn : Int) (player : Bool) :
    List (body_part × effect) → List efftype_id → List body_part →
    List (body_part × effect) × List efftype_id × List body_part
  | [], rem_ids, rem_bps => ([], rem_ids, rem_bps)
  | (bp, e) :: rest, rem_ids, rem_bps =>
    let rem_ids1 := rem_ids ++ e.get_removes_effects
    let rem_bps1 := rem_bps ++ e.get_removes_effects.map (fun _ => body_part.num_bp)
    let r := e.decay rem_ids1 rem_bps1 turn player
    let r2 := process_bodyparts turn player rest r.2.1 r.2.2
    ((bp, r.1) :: r2.1, r2.2.1, r2.2.2)

/-- The outer loop of `process_effects` over the effect types. -/
def process_types (turn : Int) (player : Bool) :
    effects_map → List efftype_id → List body_part →
    effects_map × List efftype_id × List body_part
  | [], rem_ids, rem_bps => ([], rem_ids, rem_bps)
  | (id, bodyparts) :: rest, rem_ids, rem_bps =>
    let r := process_bodyparts turn player bodyparts rem_ids rem_bps
    let r2 := process_types turn player rest r.2.1 r.2.2
    ((id, r.1) :: r2.1, r2.2.1, r2.2.2)

/-- The final loop of `process_effects`: `remove_effect(rem_ids[i], rem_bps[i])`
for every index. -/
def remove_all (c : Creature) : List (efftype_id × body_part) → Creature
  | [] => c
  | (id, bp) :: rest => remove_all (remove_effect c id bp).2 rest

/-- Embeds `Creature::process_effects`. -/
def process_effects (g : Game) (v : Virtuals) (c : Creature) : Creature :=
  let r := process_types g.turn v.is_player c.effects [] []
  remove_all { c with effects := r.1 } (r.2.1.zip r.2.2)

/-! ## Damage resolution -/

def effect_blind : efftype_id := "blind"
def effect_bounced : efftype_id := "bounced"
def effect_downed : efftype_id := "downed"
def effect_onfire : efftype_id := "onfire"
def effect_sap : efftype_id := "sap"
def effect_sleep : efftype_id := "sleep"
def effect_stunned : efftype_id := "stunned"
def effect_zapped : efftype_id := "zapped"
def effect_lying_down : efftype_id := "lying_down"

/-- Embeds `Creature::mod_pain`. -/
def mod_pain (c : Creature) (npain : Int) : Creature :=
  let pain := c.pain + npain
  { c with pain := if pain < 0 then 0 else pain }

/-- Embeds `Creature::mod_moves`. -/
def mod_moves (c : Creature) (nmoves : Int) : Creature :=
  { c with moves := c.moves + nmoves }

/-- Embeds `get_hp()`: the hit points the concrete type reports. -/
def get_hp (c : Creature) : Int := c.hp

/-- The call `absorb_hit( bp, d )`: armor absorption, owned by the concrete type,
rewrites the damage instance; the call is recorded. -/
def absorb_hit (v : Virtuals) (c : Creature) (bp : body_part) (d : damage_instance) :
    Creature × damage_instance :=
  ({ c with calls := c.calls ++ [hook_call.absorb_hit bp] }, v.absorb_hit bp d)

/-- Modelled from the spec: `apply_damage` is pure virtual in `Creature`; it is
the external hit-point mutator, which lowers the hit points by the amount it is
passed.  The call is recorded with its arguments. -/
def apply_damage (c : Creature) (source : Option creature_id) (bp : body_part) (dam : Int) :
    Creature :=
  { c with hp := c.hp - dam, calls := c.calls ++ [hook_call.apply_damage source bp dam] }

/-- The new value of `pain` after `pain += (adjusted + sqrt(double(adjusted))) / 4`
for cut and stab damage: the sum is formed in floating point and truncated.  As
`adjusted + sqrt(adjusted)` lies between the integer `adjusted + isqrt(adjusted)`
and its successor, the truncated sum is computed on integers; a negative
`adjusted`, whose root is not a number, is given the root 0. -/
def add_root_pain (pain adjusted_damage : Int) : Int :=
  Int.tdiv (4 * pain + adjusted_damage + Int.ofNat (Nat.sqrt adjusted_damage.toNat)) 4

/-- Embeds `Creature::deal_damage_handle_type`: the creature, `damage`, `pain` and the
random tape afterwards. -/
def deal_damage_handle_type (g : Game) (v : Virtuals) (c : Creature) (du : damage_unit)
    (_bp : body_part) (damage pain : Int) (t : rng_tape) :
    Creature × Int × Int × rng_tape :=
  if v.is_immune_damage du.type then (c, damage, pain, t)
  else
    let adjusted_damage := (du.amount * du.damage_multiplier).to_int
    match du.type with
    | damage_type.DT_BASH =>
      let damage := damage + adjusted_damage
      let pain := pain + Int.tdiv adjusted_damage 4
      let r := rng 0 (damage * 2) t
      (mod_moves c (-r.1), damage, pain, r.2)
    | damage_type.DT_CUT =>
      (c, damage + adjusted_damage, add_root_pain pain adjusted_damage, t)
    | damage_type.DT_STAB =>
      (c, damage + adjusted_damage, add_root_pain pain adjusted_damage, t)
    | damage_type.DT_HEAT =>
      let damage := damage + adjusted_damage
      let pain := pain + Int.tdiv adjusted_damage 4
      let r := rng 0 100 t
      if r.1 < adjusted_damage then
        let r2 := rng 1 3 r.2
        (add_effect g v c effect_onfire r2.1 body_part.num_bp false 0 false, damage, pain, r2.2)
      else (c, damage, pain, r.2)
    | damage_type.DT_ELECTRIC =>
      (add_effect g v c effect_zapped (Max.max adjusted_damage 2) body_part.num_bp false 0 false,
        damage + adjusted_damage, pain + Int.tdiv adjusted_damage 4, t)
    | damage_type.DT_COLD =>
      (mod_moves c (-adjusted_damage * 80), damage + adjusted_damage,
        pain + Int.tdiv adjusted_damage 6, t)
    | damage_type.DT_ACID =>
      (c, damage + adjusted_damage, pain + Int.tdiv adjusted_damage 3, t)
    | _ =>
      (c, damage + adjusted_damage, pain + Int.tdiv adjusted_damage 4, t)

/-- The running values of the loop of `deal_damage` over the damage units. -/
structure damage_totals where
  self : Creature
  dealt_dams : damage_type → Int
  total_damage : Int
  total_pain : Int
  tape : rng_tape

/-- The loop of `deal_damage` that adds up the damage units dealt. -/
def deal_damage_units (g : Game) (v : Virtuals) (bp : body_part) :
    List damage_unit → damage_totals → damage_totals
  | [], s => s
  | it :: rest, s =>
    let r := deal_damage_handle_type g v s.self it bp 0 s.total_pain s.tape
    let cur_damage := r.2.1
    let s1 : damage_totals :=
      if cur_damage > 0 then
        { self := r.1,
          dealt_dams := fun dt => if dt = it.type then s.dealt_dams dt + cur_damage
            else s.dealt_dams dt,
          total_damage := s.total_damage + cur_damage,
          total_pain := r.2.2.1,
          tape := r.2.2.2 }
      else
        { self := r.1, dealt_dams := s.dealt_dams, total_damage := s.total_damage,
          total_pain := r.2.2.1, tape := r.2.2.2 }
    deal_damage_units g v bp rest s1

/-- What `deal_damage` leaves behind: the record it returns, the creature and the
random tape. -/
structure damage_result where
  dealt : dealt_damage_instance
  self : Creature
  tape : rng_tape

/-- Embeds `Creature::deal_damage`. -/
def deal_damage (g : Game) (v : Virtuals) (c : Creature) (source : Option creature_id)
    (bp : body_part) (dam : damage_instance) (t : rng_tape) : damage_result :=
  if v.is_dead_state c then
    { dealt := dealt_damage_instance.empty, self := c, tape := t }
  else
    let a := absorb_hit v c bp dam
    let s := deal_damage_units g v bp a.2.damage_units
      { self := a.1, dealt_dams := fun _ => 0, total_damage := 0, total_pain := 0, tape := t }
    let c1 := mod_pain s.self s.total_pain
    let total_damage :=
      if dam.effects.contains "NOGIB" then Min.min s.total_damage (get_hp c1 + 1)
      else s.total_damage
    let c2 := apply_damage c1 source bp total_damage
    { dealt := { dealt_dams := s.dealt_dams }, self := c2, tape := s.tape }

/-! ## Stat ledger, killer and melee entry point -/

/-- Embeds `Creature::mod_speed_bonus`. -/
def mod_speed_bonus (c : Creature) (nspeed : Int) : Creature :=
  { c with speed_bonus := c.speed_bonus + nspeed }

/-- Embeds `Creature::mod_dodge_bonus`. -/
def mod_dodge_bonus (c : Creature) (ndodge : Int) : Creature :=
  { c with dodge_bonus := c.dodge_bonus + ndodge }

/-- Embeds `Creature::mod_block_bonus`. -/
def mod_block_bonus (c : Creature) (nblock : Int) : Creature :=
  { c with block_bonus := c.block_bonus + nblock }

/-- Embeds `Creature::mod_hit_bonus`. -/
def mod_hit_bonus (c : Creature) (nhit : Int) : Creature :=
  { c with hit_bonus := c.hit_bonus + nhit }

/-- Embeds `Creature::mod_bash_bonus`. -/
def mod_bash_bonus (c : Creature) (nbash : Int) : Creature :=
  { c with bash_bonus := c.bash_bonus + nbash }

/-- Embeds `Creature::mod_cut_bonus`. -/
def mod_cut_bonus (c : Creature) (ncut : Int) : Creature :=
  { c with cut_bonus := c.cut_bonus + ncut }

/-- Embeds `Creature::mod_stat`; an unknown stat only prints a message. -/
def mod_stat (c : Creature) (stat : String) (modifier : Int) : Creature :=
  if stat = "speed" then mod_speed_bonus c modifier
  else if stat = "dodge" then mod_dodge_bonus c modifier
  else if stat = "block" then mod_block_bonus c modifier
  else if stat = "hit" then mod_hit_bonus c modifier
  else if stat = "bash" then mod_bash_bonus c modifier
  else if stat = "cut" then mod_cut_bonus c modifier
  else if stat = "pain" then mod_pain c modifier
  else if stat = "moves" then mod_moves c modifier
  else c

/-- Another creature as `set_killer` and the melee entry point read it through a
`Creature *`: its identity, `is_fake()`, `is_hallucination()`, `get_melee()` and
`get_size()`. -/
structure creature_ref where
  id : creature_id := 0
  is_fake : Bool := false
  is_hallucination : Bool := false
  melee : Int := 0
  size : m_size := m_size.MS_MEDIUM
  deriving DecidableEq, Repr

/-- Embeds `Creature::get_killer`. -/
def get_killer (c : Creature) : Option creature_id := c.killer

/-- Embeds `Creature::set_killer`; `none` is the null pointer. -/
def set_killer (c : Creature) (killer : Option creature_ref) : Creature :=
  match killer with
  | some k =>
    if !k.is_fake && c.killer.isNone then { c with killer := some k.id } else c
  | none => c

/-- A run of `set_killer` calls, one after the other. -/
def set_killers (c : Creature) : List (Option creature_ref) → Creature
  | [] => c
  | k :: rest => set_killers (set_killer c k) rest

/-- The call `on_dodge( source, difficulty )`, a hook of the concrete type; the
call is recorded. -/
def on_dodge (c : Creature) (source : creature_ref) (difficulty : Int) : Creature :=
  { c with calls := c.calls ++ [hook_call.on_dodge (some source.id) difficulty] }

/-- What `deal_melee_attack` leaves behind: the hit spread it returns, the
creature and the random tape. -/
structure melee_attack_result where
  hit_spread : Int
  self : Creature
  tape : rng_tape
  deriving DecidableEq, Repr

/-- Embeds `Creature::deal_melee_attack`. -/
def deal_melee_attack (v : Virtuals) (c : Creature) (source : creature_ref) (hitroll : Int)
    (t : rng_tape) : melee_attack_result :=
  let dodge := v.dodge_roll c t
  let hit_spread := hitroll - dodge.1
  let c1 :=
    if hit_spread ≤ 0 ∧ !source.is_hallucination then on_dodge c source source.melee
    else c
  { hit_spread := hit_spread, self := c1, tape := dodge.2 }

/-- Embeds `Creature::add_env_effect`: the returned flag, the creature and the random tape
afterwards.  The strength dice are rolled before the resistance dice. -/
def add_env_effect (g : Game) (v : Virtuals) (c : Creature) (eff_id : efftype_id)
    (vector : body_part) (strength : Int) (dur : Int) (bp : body_part) (permanent : Bool)
    (intensity : Int) (force : Bool) (t : rng_tape) : Bool × Creature × rng_tape :=
  if !force && v.is_immune_effect eff_id then (false, c, t)
  else
    let r1 := dice strength.toNat 3 t
    let r2 := dice (v.get_env_resist vector).toNat 3 r1.2
    if r1.1 > r2.1 then
      (true, add_effect g v c eff_id dur bp permanent intensity true, r2.2)
    else (false, c, r2.2)

/-- Embeds `Creature::check_dead_state`: `die( nullptr )` is a hook of the concrete type. -/
def check_dead_state (v : Virtuals) (c : Creature) : Creature :=
  if v.is_dead_state c then { c with calls := c.calls ++ [hook_call.die] } else c

/-- Modelled from the spec: `struct projectile` of `projectile.h`: the impact
damage, the speed and the set of ammo effect tags. -/
structure projectile where
  impact : damage_instance := {}
  speed : Int := 0
  proj_effects : List String := []
  deriving DecidableEq, Repr

/-- Modelled from the spec: `struct dealt_projectile_attack` of `projectile.h`:
the projectile, the creature hit (if any), the damage dealt and how far the
shot missed. -/
structure dealt_projectile_attack where
  proj : projectile
  hit_critter : Option creature_id := none
  dealt_dam : dealt_damage_instance := dealt_damage_instance.empty
  missed_by : double

/-- The materials the ammo effects of `deal_projectile_attack` treat as
flammable, and as flesh. -/
def is_flammable (target_material : String) : Bool :=
  target_material == "veggy" || target_material == "cotton" || target_material == "wool" ||
    target_material == "paper" || target_material == "wood"

def is_fleshy (target_material : String) : Bool :=
  target_material == "flesh" || target_material == "iflesh"

/-- The body part `deal_projectile_attack` draws before headshots are considered. -/
def projectile_body_part (hit_value : double) (t : rng_tape) : body_part × rng_tape :=
  if hit_value ≤ { num := 4, den := 10 } then (body_part.bp_torso, t)
  else
    let o4 := one_in 4 t
    let o2 := one_in 2 o4.2
    if o4.1 then
      (if o2.1 then body_part.bp_leg_l else body_part.bp_leg_r, o2.2)
    else
      (if o2.1 then body_part.bp_arm_l else body_part.bp_arm_r, o2.2)

/-- The damage multiplier `deal_projectile_attack` draws from `goodhit`, with the
flag of a headshot. -/
def projectile_damage_mult (goodhit : double) (t : rng_tape) : double × Bool × rng_tape :=
  if goodhit < { num := 1, den := 10 } then
    let r := rng_float { num := 245, den := 100 } { num := 335, den := 100 } t
    ((1 : double) * r.1, true, r.2)
  else if goodhit < { num := 2, den := 10 } then
    let r := rng_float { num := 175, den := 100 } { num := 23, den := 10 } t
    ((1 : double) * r.1, false, r.2)
  else if goodhit < { num := 4, den := 10 } then
    let r := rng_float 1 { num := 15, den := 10 } t
    ((1 : double) * r.1, false, r.2)
  else if goodhit < { num := 6, den := 10 } then
    let r := rng_float { num := 5, den := 10 } 1 t
    ((1 : double) * r.1, false, r.2)
  else if goodhit < { num := 8, den := 10 } then
    let r := rng_float 0 { num := 25, den := 100 } t
    ((1 : double) * r.1, false, r.2)
  else ((1 : double) * 0, false, t)

/-- The ignition by FLAME, INCENDIARY and IGNITE ammo in `deal_projectile_attack`. -/
def projectile_ignite (g : Game) (v : Virtuals) (c : Creature) (proj_effects : List String)
    (t : rng_tape) : Creature × rng_tape :=
  let target_material := v.get_material
  let onfire := fun (c : Creature) (r : Int × rng_tape) =>
    (add_effect g v c effect_onfire r.1 body_part.num_bp false 0 false, r.2)
  if proj_effects.contains "FLAME" then
    if is_flammable target_material then onfire c (rng 8 20 t)
    else if is_fleshy target_material then onfire c (rng 5 10 t)
    else (c, t)
  else if proj_effects.contains "INCENDIARY" then
    if is_flammable target_material then onfire c (rng 2 6 t)
    else if is_fleshy target_material && (one_in 4 t).1 then onfire c (rng 1 4 (one_in 4 t).2)
    else if is_fleshy target_material then (c, (one_in 4 t).2)
    else (c, t)
  else if proj_effects.contains "IGNITE" then
    if is_flammable target_material then onfire c (rng 6 6 t)
    else if is_fleshy target_material then onfire c (rng 10 10 t)
    else (c, t)
  else (c, t)

/-- The stun by beanbag ammo in `deal_projectile_attack`. -/
def projectile_stun (g : Game) (v : Virtuals) (c : Creature) (proj_effects : List String)
    (t : rng_tape) : Creature × rng_tape :=
  let stun_strength : Int := if proj_effects.contains "BEANBAG" then 4 else 0
  let stun_strength : Int := if proj_effects.contains "LARGE_BEANBAG" then 16 else stun_strength
  if stun_strength > 0 then
    let stun_strength : Int :=
      match v.get_size with
      | m_size.MS_TINY => stun_strength * 4
      | m_size.MS_SMALL => stun_strength * 2
      | m_size.MS_MEDIUM => stun_strength
      | m_size.MS_LARGE => Int.tdiv stun_strength 2
      | m_size.MS_HUGE => Int.tdiv stun_strength 4
    let r := rng (Int.tdiv stun_strength 2) stun_strength t
    (add_effect g v c effect_stunned r.1 body_part.num_bp false 0 false, r.2)
  else (c, t)

/-- What `deal_projectile_attack` leaves behind: the creature, the attack record
and the random tape. -/
structure projectile_result where
  self : Creature
  attack : dealt_projectile_attack
  tape : rng_tape

/-- Embeds `Creature::deal_projectile_attack`.  The calls of `add_effect` and
`add_env_effect` take the default arguments of their declarations (`num_bp`, not
permanent, not forced; intensity 0 and 1). -/
def deal_projectile_attack (g : Game) (v : Virtuals) (c : Creature)
    (source : Option creature_id) (attack : dealt_projectile_attack) (t : rng_tape) :
    projectile_result :=
  let missed_by := attack.missed_by
  if missed_by ≥ 1 then { self := c, attack := attack, tape := t }
  else
    let proj := attack.proj
    let proj_effects := proj.proj_effects
    let avoid := v.dodge_roll c t
    let avoid_roll := avoid.1
    let diff := dice 10 proj.speed avoid.2
    let diff_roll := diff.1
    let dodge_rescaled := (double.of_int avoid_roll).div_int diff_roll
    let goodhit := missed_by + double.max 0 (double.min 1 dodge_rescaled)
    if goodhit ≥ 1 then
      { self := c, attack := { attack with missed_by := 1 }, tape := diff.2 }
    else
      let c1 :=
        if proj_effects.contains "BOUNCE" then
          add_effect g v c effect_bounced 1 body_part.num_bp false 0 false
        else c
      let hv := rng_float { num := -5, den := 10 } { num := 5, den := 10 } diff.2
      let hit_value := missed_by + hv.1
      let part := projectile_body_part hit_value hv.2
      let dm := projectile_damage_mult goodhit part.2
      let bp_hit := if dm.2.1 then body_part.bp_head else part.1
      let impact := proj.impact
      let impact := if proj_effects.contains "NOGIB" then impact.add_effect "NOGIB" else impact
      let damage_mult :=
        if (0 : double) < dm.1 ∧ proj_effects.contains "NO_DAMAGE_SCALING" then (1 : double)
        else dm.1
      let impact := impact.mult_damage damage_mult
      let dd := deal_damage g v c1 source bp_hit impact dm.2.2
      let dealt_dam : dealt_damage_instance := { dd.dealt with bp_hit := some bp_hit }
      let ig := projectile_ignite g v dd.self proj_effects dd.tape
      let bl :=
        if bp_hit = body_part.bp_head ∧ proj_effects.contains "BLINDS_EYES" then
          let r := rng 3 10 ig.2
          let e := add_env_effect g v ig.1 effect_blind body_part.bp_eyes 5 r.1
            body_part.num_bp false 1 false r.2
          (e.2.1, e.2.2)
        else ig
      let sap :=
        if proj_effects.contains "APPLY_SAP" then
          add_effect g v bl.1 effect_sap dealt_dam.total_damage body_part.num_bp false 0 false
        else bl.1
      let st := projectile_stun g v sap proj_effects bl.2
      let c2 := check_dead_state v st.1
      { self := c2,
        attack := { proj := proj, hit_critter := some v.self_id, dealt_dam := dealt_dam,
                    missed_by := goodhit },
        tape := st.2 }

/-! ## Body-part targeting and the melee hit -/

/-- The integer value of a creature size (`MS_TINY` is 0, `MS_HUGE` is 4). -/
def m_size.to_int : m_size → Int
  | m_size.MS_TINY => 0
  | m_size.MS_SMALL => 1
  | m_size.MS_MEDIUM => 2
  | m_size.MS_LARGE => 3
  | m_size.MS_HUGE => 4

/-- The table `default_hit_weights` for a size difference of -1 (attacker
smaller), 0 or 1 (attacker larger), as the `std::map` lists it: in the order of
the body parts. -/
def default_hit_weights (szdif : Int) : List (body_part × double) :=
  if szdif = -1 then
    [(body_part.bp_torso, 20), (body_part.bp_head, 0), (body_part.bp_eyes, 0),
     (body_part.bp_arm_l, 15), (body_part.bp_arm_r, 15),
     (body_part.bp_leg_l, 25), (body_part.bp_leg_r, 25)]
  else if szdif = 0 then
    [(body_part.bp_torso, { num := 3333, den := 100 }),
     (body_part.bp_head, { num := 233, den := 100 }),
     (body_part.bp_eyes, { num := 33, den := 100 }),
     (body_part.bp_arm_l, 20), (body_part.bp_arm_r, 20),
     (body_part.bp_leg_l, 12), (body_part.bp_leg_r, 12)]
  else
    [(body_part.bp_torso, { num := 3657, den := 100 }),
     (body_part.bp_head, { num := 571, den := 100 }),
     (body_part.bp_eyes, { num := 57, den := 100 }),
     (body_part.bp_arm_l, { num := 2286, den := 100 }),
     (body_part.bp_arm_r, { num := 2286, den := 100 }),
     (body_part.bp_leg_l, { num := 571, den := 100 }),
     (body_part.bp_leg_r, { num := 571, den := 100 })]

/-- The update `hit_weights[bp] = f( hit_weights[bp] )` of one weight. -/
def weight_update (ws : List (body_part × double)) (bp : body_part) (f : double → double) :
    List (body_part × double) :=
  map_set ws bp (f ((map_find ws bp).getD 0))

/-- The size difference of `select_body_part`, brought into -1, 0, 1. -/
def size_difference (v : Virtuals) (source : creature_ref) : Int :=
  let szdif := source.size.to_int - v.get_size.to_int
  if szdif < -1 then -1 else if szdif > 1 then 1 else szdif

/-- The weights `select_body_part` draws from: the table of the size difference,
the bonus for a target on the ground, and for a hit roll other than 0 the
scaling by powers of the hit roll. -/
def hit_weights (g : Game) (v : Virtuals) (source : creature_ref) (hit_roll : Int) :
    List (body_part × double) :=
  let ws := default_hit_weights (size_difference v source)
  let ws :=
    if v.is_on_ground then
      weight_update (weight_update ws body_part.bp_eyes (fun w => w + 1)) body_part.bp_head
        (fun w => w + 5)
    else ws
  if hit_roll ≠ 0 then
    let ws := weight_update ws body_part.bp_eyes
      (fun w => w * g.pow hit_roll { num := 115, den := 100 })
    let ws := weight_update ws body_part.bp_head
      (fun w => w * g.pow hit_roll { num := 135, den := 100 })
    let ws := weight_update ws body_part.bp_torso (fun w => w * g.pow hit_roll 1)
    let ws := weight_update ws body_part.bp_arm_l
      (fun w => w * g.pow hit_roll { num := 95, den := 100 })
    let ws := weight_update ws body_part.bp_arm_r
      (fun w => w * g.pow hit_roll { num := 95, den := 100 })
    let ws := weight_update ws body_part.bp_leg_l
      (fun w => w * g.pow hit_roll { num := 975, den := 1000 })
    weight_update ws body_part.bp_leg_r
      (fun w => w * g.pow hit_roll { num := 975, den := 1000 })
  else ws

/-- The sum `totalWeight` of the weights. -/
def total_weight (ws : List (body_part × double)) : double :=
  ws.foldl (fun acc hit_weight => acc + hit_weight.2) 0

/-- The last loop of `select_body_part`: the weights are taken off the roll one
after the other until it is not positive; the torso is the part when that never
happens. -/
def select_from : List (body_part × double) → double → body_part
  | [], _ => body_part.bp_torso
  | (bp, w) :: rest, roll => if roll - w ≤ 0 then bp else select_from rest (roll - w)

/-- Embeds `Creature::select_body_part`: the part selected and the random tape
afterwards. -/
def select_body_part (g : Game) (v : Virtuals) (source : creature_ref) (hit_roll : Int)
    (t : rng_tape) : body_part × rng_tape :=
  let ws := hit_weights g v source hit_roll
  let roll := rng_float 0 (total_weight ws) t
  (select_from ws roll.1, roll.2)

/-- The call `block_hit( source, bp_hit, d )`, a hook of the concrete type that may
change the body part and lower the damage; the call is recorded. -/
def block_hit (v : Virtuals) (c : Creature) (source : creature_ref) (bp_hit : body_part)
    (d : damage_instance) : Creature × body_part × damage_instance :=
  ({ c with calls := c.calls ++ [hook_call.block_hit (some source.id) bp_hit] },
    v.block_hit bp_hit d)

/-- The call `on_hit( source, bp_hit )`, a hook of the concrete type; the call is
recorded. -/
def on_hit (c : Creature) (source : creature_ref) (bp_hit : body_part) : Creature :=
  { c with calls := c.calls ++ [hook_call.on_hit (some source.id) bp_hit] }

/-- The bashing crit of `deal_melee_hit`: one turn of "stunned". -/
def melee_stun (g : Game) (v : Virtuals) (c : Creature) (d : damage_instance)
    (hit_spread : Int) (critical_hit : Bool) : Creature :=
  if critical_hit && !v.is_immune_effect effect_stunned then
    if double.of_int v.get_hp_max <
        d.type_damage damage_type.DT_BASH * double.of_int hit_spread then
      add_effect g v c effect_stunned 1 body_part.num_bp false 0 false
    else c
  else c

/-- The value of `stab_moves` in `deal_melee_hit`: a draw between half of the stab
damage and one and a half times it, times 1.5 on a critical hit, as an `int`. -/
def melee_stab_moves (d : damage_instance) (critical_hit : Bool) (t : rng_tape) :
    Int × rng_tape :=
  let r := rng ((d.type_damage damage_type.DT_STAB).div_int 2).to_int
    (d.type_damage damage_type.DT_STAB * { num := 15, den := 10 }).to_int t
  (if critical_hit then (double.of_int r.1 * { num := 15, den := 10 }).to_int else r.1, r.2)

/-- The stabbing effects of `deal_melee_hit` for a value of `stab_moves`. -/
def melee_knockdown (g : Game) (v : Virtuals) (c : Creature) (stab_moves : Int) : Creature :=
  if stab_moves ≥ 150 ∧ !v.is_immune_effect effect_downed then
    mod_moves (add_effect g v c effect_downed 1 body_part.num_bp false 0 false)
      (Int.tdiv (-stab_moves) 2)
  else mod_moves c (-stab_moves)

/-- Embeds `Creature::deal_melee_hit`: the record left in `dealt_dam`, the creature
and the random tape. -/
def deal_melee_hit (g : Game) (v : Virtuals) (c : Creature) (source : creature_ref)
    (hit_spread : Int) (critical_hit : Bool) (dam : damage_instance) (t : rng_tape) :
    damage_result :=
  let sel := select_body_part g v source hit_spread t
  let blk := block_hit v c source sel.1 dam
  let bp_hit := blk.2.1
  let d := blk.2.2
  let c1 := melee_stun g v blk.1 d hit_spread critical_hit
  let stab := melee_stab_moves d critical_hit sel.2
  let c2 := melee_knockdown g v c1 stab.1
  let c3 := on_hit c2 source bp_hit
  let dd := deal_damage g v c3 (some source.id) bp_hit d stab.2
  { dealt := { dd.dealt with bp_hit := some bp_hit }, self := dd.self, tape := dd.tape }

/-! ## Hostile-target selection -/

/-- The integers `lo, lo + 1, ..., hi - 1` of a `for( x = lo; x < hi; x++ )` loop. -/
def int_range (lo hi : Int) : List Int :=
  (List.range (hi - lo).toNat).map (fun i => lo + Int.ofNat i)

/-- Embeds `overlaps_vehicle`: the loops visit the points of `pos`'s level with
`pos.x - area ≤ x < pos.x + area` and `pos.y - area ≤ y < pos.y + area`. -/
def overlaps_vehicle (veh_area : List tripoint) (pos : tripoint) (area : Int) : Bool :=
  (int_range (pos.x - area) (pos.x + area)).any (fun x =>
    (int_range (pos.y - area) (pos.y + area)).any (fun y =>
      decide (({ x := x, y := y, z := pos.z } : tripoint) ∈ veh_area)))

/-- The values `auto_find_hostile_target` fixes before it looks at the candidates. -/
structure iff_setup where
  pldist : Int
  in_veh : Option Nat
  iff_hangle : Int
  u_angle : Int
  self_area_iff : Bool
  area_iff : Bool
  angle_iff : Bool
  deriving DecidableEq, Repr

/-- The first part of `auto_find_hostile_target`, up to the list of targets. -/
def find_setup (g : Game) (v : Virtuals) (c : Creature) (range area : Int) : iff_setup :=
  let iff_dist := Int.tdiv ((range + area) * 3) 2 + 6
  let pldist := g.rl_dist v.pos g.u.pos
  let in_veh : Option Nat := if c.fake then (g.veh_at v.pos).map Prod.fst else none
  let near : Bool := decide (pldist < iff_dist) && v.sees g.u
  let u_in_veh : Bool :=
    match in_veh, g.veh_at g.u.pos with
    | some veh, some (veh_u, part) => decide (veh_u = veh) && g.veh_is_inside veh part
    | _, _ => false
  { pldist := pldist,
    in_veh := in_veh,
    iff_hangle :=
      if near && !u_in_veh && decide (pldist < 3) then (if pldist = 2 then 30 else 60)
      else 15 + area,
    u_angle := if near then g.coord_to_angle v.pos.x v.pos.y g.u.pos.x g.u.pos.y else 0,
    self_area_iff := decide (area > 0) && in_veh.isSome,
    area_iff := near && decide (area > 0),
    angle_iff := if near && u_in_veh then false else true }

/-- The list `targets` of `auto_find_hostile_target`: the monsters that are not
friendly, then the npcs whose attitude is `NPCATT_KILL`. -/
def find_targets (g : Game) : List critter :=
  (g.zombies.filter (fun m => decide (m.friendly = 0))).map (fun m => m.base) ++
    (g.active_npc.filter (fun p => decide (p.attitude = npc_attitude.NPCATT_KILL))).map
      (fun p => p.base)

/-- The running values of the loop of `auto_find_hostile_target`. -/
structure find_state where
  target : Option critter := none
  best_target_rating : double := { num := -1, den := 1 }
  boo_hoo : Int := 0
  deriving DecidableEq, Repr

/-- Priority bonus for hostile targets (`hostile_adj`). -/
def hostile_adj : double := 2

/-- The body of the loop of `auto_find_hostile_target` for the candidate `m`. -/
def find_consider (g : Game) (v : Virtuals) (range area : Int) (s : iff_setup)
    (st : find_state) (m : critter) : find_state :=
  if !v.sees m then st
  else
    let dist := g.rl_dist v.pos m.pos + 1
    if dist > range + 1 ∨ dist < area then st
    else
      let mon_rating := m.power_rating
      let target_rating := mon_rating.div_int dist
      if mon_rating + hostile_adj ≤ 0 then st
      else if s.in_veh ≠ none ∧ (g.veh_at m.pos).map Prod.fst = s.in_veh then st
      else if s.area_iff = true ∧ g.rl_dist g.u.pos m.pos ≤ area then
        { st with boo_hoo := st.boo_hoo + 1 }
      else
        let maybe_boo : Bool :=
          if s.angle_iff then
            let tangle := g.coord_to_angle v.pos.x v.pos.y m.pos.x m.pos.y
            let diff : Int := Int.natAbs (s.u_angle - tangle)
            decide ((diff + s.iff_hangle > 360 ∨ diff < s.iff_hangle) ∧
              Int.tdiv (dist * 3) 2 + 6 > s.pldist)
          else false
        if maybe_boo = false ∧ (mon_rating + hostile_adj).div_int dist ≤ st.best_target_rating
        then st
        else if m.attitude_to_u = Attitude.A_HOSTILE ∧ maybe_boo = true then
          { st with boo_hoo := st.boo_hoo + 1 }
        else
          let target_rating :=
            if m.attitude_to_u = Attitude.A_HOSTILE then (mon_rating + hostile_adj).div_int dist
            else target_rating
          if target_rating ≤ st.best_target_rating ∨ target_rating ≤ 0 then st
          else if s.self_area_iff = true ∧
              overlaps_vehicle ((s.in_veh.map g.veh_points).getD []) m.pos area = true then st
          else { target := some m, best_target_rating := target_rating, boo_hoo := st.boo_hoo }

/-- Embeds `Creature::auto_find_hostile_target`: the target returned and the value left
in `boo_hoo`. -/
def auto_find_hostile_target (g : Game) (v : Virtuals) (c : Creature) (range area : Int) :
    Option critter × Int :=
  let s := find_setup g v c range area
  let st := (find_targets g).foldl (find_consider g v range area s) {}
  (st.target, st.boo_hoo)

/-! ## Auxiliary definitions of the statements -/

/-- The keys of an effect container: every effect type with the body parts it has an
instance on. -/
def effect_keys (m : effects_map) : List (efftype_id × List body_part) :=
  m.map (fun p => (p.1, p.2.map Prod.fst))

/-- Keys of the outer level of an effect map are pairwise different. -/
def outer_nodup (m : effects_map) : Prop := (m.map Prod.fst).Nodup

/-- The instance `decay` leaves in place of `e`. -/
def decayed (turn : Int) (player : Bool) (e : effect) : effect :=
  (e.decay [] [] turn player).1

/-- The removals one instance contributes during the scan of `process_effects`:
the types it removes, with `num_bp`, then itself when its decay asks for it. -/
def pending_of (turn : Int) (player : Bool) (e : effect) : List (efftype_id × body_part) :=
  e.get_removes_effects.map (fun i => (i, body_part.num_bp)) ++
    (e.decay [] [] turn player).2.1.zip (e.decay [] [] turn player).2.2

/-- The removals pending after the scan of the whole effect map. -/
def pending (turn : Int) (player : Bool) (m : effects_map) : List (efftype_id × body_part) :=
  m.flatMap (fun p => p.2.flatMap (fun q => pending_of turn player q.2))

/-- The effect map after every instance has been decayed in place. -/
def decayed_map (turn : Int) (player : Bool) (m : effects_map) : effects_map :=
  m.map (fun p => (p.1, p.2.map (fun q => (q.1, decayed turn player q.2))))

/-- Representation invariant of the effect map: no effect type and, under one
type, no body part is keyed twice, and every instance is stored under its own
type identifier and body part. -/
def well_formed (m : effects_map) : Prop :=
  (m.map Prod.fst).Nodup ∧
    ∀ p ∈ m, (p.2.map Prod.fst).Nodup ∧ ∀ q ∈ p.2, q.2.get_id = p.1 ∧ q.2.bp = q.1

instance (m : effects_map) : Decidable (well_formed m) := by
  unfold well_formed
  infer_instance

/-- The amounts passed to `apply_damage`, in order, in a trace of hook calls. -/
def applied_damage (calls : List hook_call) : List Int :=
  calls.filterMap (fun k =>
    match k with
    | hook_call.apply_damage _ _ dam => some dam
    | _ => none)

/-- One operation of the effect engine on a creature: `add_effect`,
`add_env_effect`, `remove_effect`, `process_effects` or `clear_effects`, for any
arguments and any behaviour of the concrete creature type. -/
inductive effect_step (g : Game) : Creature → Creature → Prop
  | add_effect (v : Virtuals) (c : Creature) (eff_id : efftype_id) (dur : Int)
      (bp : body_part) (permanent : Bool) (intensity : Int) (force : Bool) :
      effect_step g c (Cataclysm.add_effect g v c eff_id dur bp permanent intensity force)
  | add_env_effect (v : Virtuals) (c : Creature) (eff_id : efftype_id) (vector : body_part)
      (strength dur : Int) (bp : body_part) (permanent : Bool) (intensity : Int)
      (force : Bool) (t : rng_tape) :
      effect_step g c
        (Cataclysm.add_env_effect g v c eff_id vector strength dur bp permanent intensity
          force t).2.1
  | remove_effect (c : Creature) (eff_id : efftype_id) (bp : body_part) :
      effect_step g c (Cataclysm.remove_effect c eff_id bp).2
  | process_effects (v : Virtuals) (c : Creature) :
      effect_step g c (Cataclysm.process_effects g v c)
  | clear_effects (c : Creature) : effect_step g c (Cataclysm.clear_effects c)

/-- The creature states reached from an empty effect map by operations of the
effect engine. -/
inductive effect_reachable (g : Game) : Creature → Prop
  | init (c : Creature) (h : c.effects = []) : effect_reachable g c
  | step (c c1 : Creature) (hc : effect_reachable g c) (hs : effect_step g c c1) :
      effect_reachable g c1

/-- No effect type of the map is keyed twice or has an empty map of body parts,
and under one type no body part is keyed twice. -/
def tidy (m : effects_map) : Prop :=
  (m.map Prod.fst).Nodup ∧ ∀ p ∈ m, (p.2.map Prod.fst).Nodup ∧ p.2 ≠ []

instance (m : effects_map) : Decidable (tidy m) := by
  unfold tidy
  infer_instance

/-- An instance is stored in the effect map under the key `(eff_id, bp)`. -/
def holds_instance (m : effects_map) (eff_id : efftype_id) (bp : body_part) : Prop :=
  ∃ inner e, (eff_id, inner) ∈ m ∧ (bp, e) ∈ inner


/-- The keys `(type, body part)` of the instances an effect map stores, one entry
for each stored instance. -/
def instance_keys (m : effects_map) : List (efftype_id × body_part) :=
  m.flatMap (fun p => p.2.map (fun q => (p.1, q.1)))


/-- The value of a fraction as a rational number. -/
def double.toRat (a : double) : ℚ := (a.num : ℚ) / (a.den : ℚ)

/-- The offset distance `dist` of a candidate in `auto_find_hostile_target`. -/
def target_dist (g : Game) (v : Virtuals) (m : critter) : Int :=
  g.rl_dist v.pos m.pos + 1

/-- The flag `maybe_boo` of a candidate: the angle check applies and the player is
in the cone towards the candidate and not too far behind it. -/
def maybe_boo (g : Game) (v : Virtuals) (s : iff_setup) (m : critter) : Bool :=
  if s.angle_iff then
    decide ((((Int.natAbs (s.u_angle - g.coord_to_angle v.pos.x v.pos.y m.pos.x m.pos.y) : Nat)
        : Int) + s.iff_hangle > 360 ∨
      ((Int.natAbs (s.u_angle - g.coord_to_angle v.pos.x v.pos.y m.pos.x m.pos.y) : Nat)
        : Int) < s.iff_hangle) ∧
      Int.tdiv (target_dist g v m * 3) 2 + 6 > s.pldist)
  else false

/-- The first four checks of the loop of `auto_find_hostile_target`: the candidate
is seen, its offset distance lies in `[area, range + 1]`, its power rating with
the hostile bonus is positive, and it is not on the vehicle `in_veh`. -/
def passes_filters (g : Game) (v : Virtuals) (range area : Int) (s : iff_setup)
    (m : critter) : Prop :=
  v.sees m = true ∧
  ¬ (target_dist g v m > range + 1 ∨ target_dist g v m < area) ∧
  ¬ (m.power_rating + hostile_adj ≤ 0) ∧
  ¬ (s.in_veh ≠ none ∧ (g.veh_at m.pos).map Prod.fst = s.in_veh)

instance (g : Game) (v : Virtuals) (range area : Int) (s : iff_setup) (m : critter) :
    Decidable (passes_filters g v range area s m) := by
  unfold passes_filters
  infer_instance

/-- The two places of the loop of `auto_find_hostile_target` that skip a candidate
for the safety of the player: the player is within the area of effect, or the
candidate is hostile and `maybe_boo` is set. -/
def friendly_fire (g : Game) (v : Virtuals) (area : Int) (s : iff_setup) (m : critter) :
    Prop :=
  (s.area_iff = true ∧ g.rl_dist g.u.pos m.pos ≤ area) ∨
  (m.attitude_to_u = Attitude.A_HOSTILE ∧ maybe_boo g v s m = true)

instance (g : Game) (v : Virtuals) (area : Int) (s : iff_setup) (m : critter) :
    Decidable (friendly_fire g v area s m) := by
  unfold friendly_fire
  infer_instance

/-- The candidates for which the loop of `auto_find_hostile_target` has a
`boo_hoo++` on its path: they pass the first four checks and are skipped for the
safety of the player. -/
def boo_counted (g : Game) (v : Virtuals) (range area : Int) (s : iff_setup)
    (m : critter) : Bool :=
  decide (passes_filters g v range area s m ∧ friendly_fire g v area s m)

/-- The rating `target_rating` a candidate has at the last comparison of the loop:
its power rating over the offset distance, with the hostile bonus added to the
power rating of a hostile candidate. -/
def final_rating (g : Game) (v : Virtuals) (m : critter) : double :=
  if m.attitude_to_u = Attitude.A_HOSTILE then
    (m.power_rating + hostile_adj).div_int (target_dist g v m)
  else m.power_rating.div_int (target_dist g v m)

/-- The candidates no check of the loop of `auto_find_hostile_target` other than
the comparison of ratings skips: they pass the first four checks, are not
skipped for the safety of the player, and their area of effect does not overlap
the vehicle `in_veh`. -/
def passes_checks (g : Game) (v : Virtuals) (range area : Int) (s : iff_setup)
    (m : critter) : Prop :=
  passes_filters g v range area s m ∧ ¬ friendly_fire g v area s m ∧
  ¬ (s.self_area_iff = true ∧
    overlaps_vehicle ((s.in_veh.map g.veh_points).getD []) m.pos area = true)

instance (g : Game) (v : Virtuals) (range area : Int) (s : iff_setup) (m : critter) :
    Decidable (passes_checks g v range area s m) := by
  unfold passes_checks
  infer_instance

/-- The state of the loop of `auto_find_hostile_target` after the candidates
`done`: no target yet, a best rating below 0 and no positive rating among the
candidates that pass the checks; or the target is a candidate `m` of `done` that
passes the checks, with a positive rating that is the best rating, above the
ratings of such candidates before `m` and not below those after it. -/
def best_so_far (g : Game) (v : Virtuals) (range area : Int) (s : iff_setup)
    (done : List critter) (st : find_state) : Prop :=
  0 < st.best_target_rating.den ∧
  ((st.target = none ∧ st.best_target_rating.toRat < 0 ∧
      ∀ x ∈ done, passes_checks g v range area s x → (final_rating g v x).toRat ≤ 0) ∨
    ∃ m p1 p2, done = p1 ++ m :: p2 ∧ st.target = some m ∧
      st.best_target_rating = final_rating g v m ∧ passes_checks g v range area s m ∧
      0 < (final_rating g v m).toRat ∧
      (∀ x ∈ p1, passes_checks g v range area s x →
        (final_rating g v x).toRat < (final_rating g v m).toRat) ∧
      (∀ x ∈ p2, passes_checks g v range area s x →
        (final_rating g v x).toRat ≤ (final_rating g v m).toRat))

/-! ### Concrete data for the witnesses -/

/-- An effect type with three intensity levels whose reapplication adds half of
the requested duration. -/
def burn_type : effect_type := { id := "burn", max_intensity := 3, dur_add_perc := 50 }

/-- An effect type whose maximal intensity is 0. -/
def flat_type : effect_type := { id := "flat", max_intensity := 0 }

/-- A registry holding `burn_type` and `flat_type`. -/
def demo_game : Game :=
  { effect_types := fun i =>
      if i = "burn" then some burn_type else if i = "flat" then some flat_type else none,
    mutate_to_main_part := fun b => if b = body_part.bp_eyes then body_part.bp_head else b }

/-- A creature type without immunities. -/
def plain_virtuals : Virtuals := {}

/-- A creature type innately immune to every effect. -/
def immune_virtuals : Virtuals := { is_immune_effect := fun _ => true }

/-- An instance of `burn_type` on `num_bp` with 10 turns left. -/
def burn_10 : effect :=
  { eff_type := burn_type, duration := 10, bp := body_part.num_bp, permanent := false,
    intensity := 1, start_turn := 0 }

/-- A creature holding `burn_10`. -/
def burning : Creature := { hp := 10, effects := [("burn", [(body_part.num_bp, burn_10)])] }

/-- A single bash unit of amount 12 and multiplier 1, without tags. -/
def bash_12 : damage_instance :=
  { damage_units := [{ type := damage_type.DT_BASH, amount := double.of_int 12 }] }

/-- A permanent instance of `burn_type` on the head with 5 turns left. -/
def burn_permanent : effect :=
  { eff_type := burn_type, duration := 5, bp := body_part.bp_head, permanent := true,
    intensity := 1, start_turn := 0 }

/-- An instance of `burn_type` on the torso in its last turn. -/
def burn_last : effect :=
  { eff_type := burn_type, duration := 1, bp := body_part.bp_torso, permanent := false,
    intensity := 1, start_turn := 0 }

/-- A creature holding `burn_permanent` and `burn_last`. -/
def smouldering : Creature :=
  { hp := 10,
    effects := [("burn", [(body_part.bp_head, burn_permanent), (body_part.bp_torso, burn_last)])] }

/-- A creature without hit points. -/
def corpse : Creature := { hp := 0, pain := 4 }

/-- The bash unit of `bash_12` with the NOGIB tag. -/
def bash_12_nogib : damage_instance :=
  { damage_units := [{ type := damage_type.DT_BASH, amount := double.of_int 12 }],
    effects := ["NOGIB"] }

/-- A shot that missed by 1.2. -/
def wide_shot : dealt_projectile_attack :=
  { proj := { impact := bash_12, speed := 100 }, missed_by := { num := 12, den := 10 } }

/-- A stand-in for `coord_to_angle` on the points the examples use: 0 to the east, 180 to the
west, 90 and -90 along the other axis. -/
def demo_angle (x y tx ty : Int) : Int :=
  if ty = y then (if tx < x then 180 else 0) else if ty > y then 90 else -90

/-- One hostile monster 3 tiles west of the origin, the player next to it. -/
def lone_zombie : critter :=
  { id := 7, pos := { x := -3, y := 0, z := 0 }, power_rating := 1,
    attitude_to_u := Attitude.A_HOSTILE }

/-- A game with `lone_zombie` as the only monster and the player one tile from it. -/
def demo_field : Game :=
  { effect_types := fun _ => none,
    mutate_to_main_part := fun b => b,
    u := { id := 0, pos := { x := -3, y := 1, z := 0 } },
    zombies := [{ base := lone_zombie, friendly := 0 }],
    coord_to_angle := demo_angle }

/-- A turret at the origin that sees everything. -/
def sharp_turret : Virtuals := { self_id := 1, pos := { x := 0, y := 0, z := 0 } }

/-- A turret at the origin that sees everything but the player. -/
def blind_turret : Virtuals :=
  { self_id := 1, pos := { x := 0, y := 0, z := 0 }, sees := fun x => decide (x.id ≠ 0) }

/-- An effect type restricted to main body parts. -/
def ache_type : effect_type := { id := "ache", max_intensity := 3, main_parts_only := true }

/-- An effect type that blocks "ache". -/
def numb_type : effect_type := { id := "numb", blocks_effects := ["ache"] }

/-- An effect type whose intensity follows the duration, one level per 5 turns,
with at most 20 turns. -/
def chill_type : effect_type :=
  { id := "chill", max_intensity := 3, max_duration := 20, int_dur_factor := 5 }

/-- A registry holding `ache_type`, `numb_type` and `chill_type`; the eyes belong
to the head. -/
def ward_game : Game :=
  { effect_types := fun i =>
      if i = "ache" then some ache_type else if i = "numb" then some numb_type
      else if i = "chill" then some chill_type else none,
    mutate_to_main_part := fun b => if b = body_part.bp_eyes then body_part.bp_head else b }

/-- An instance of `ache_type` on the head with 10 turns left. -/
def ache_head : effect :=
  { eff_type := ache_type, duration := 10, bp := body_part.bp_head, permanent := false,
    intensity := 1, start_turn := 0 }

/-- An instance of `numb_type` on the whole body with 10 turns left. -/
def numb_whole : effect :=
  { eff_type := numb_type, duration := 10, bp := body_part.num_bp, permanent := false,
    intensity := 1, start_turn := 0 }

/-- A creature holding only `numb_whole`. -/
def numbed : Creature := { hp := 10, effects := [("numb", [(body_part.num_bp, numb_whole)])] }

/-- A creature holding `ache_head` and `numb_whole`. -/
def aching_numbed : Creature :=
  { hp := 10,
    effects := [("ache", [(body_part.bp_head, ache_head)]),
                ("numb", [(body_part.num_bp, numb_whole)])] }

/-- A creature type that always rolls a dodge of 5. -/
def dodger_virtuals : Virtuals := { dodge_roll := fun _ t => (5, t) }

/-- An attacker with identity 9 and melee skill 2. -/
def brawler : creature_ref := { id := 9, melee := 2 }

/-- A fake creature with identity 4 (a turret). -/
def fake_ref : creature_ref := { id := 4, is_fake := true }

/-- A creature type innately immune to electric damage. -/
def grounded_virtuals : Virtuals :=
  { is_immune_damage := fun dt => decide (dt = damage_type.DT_ELECTRIC) }

/-- An electric unit of amount 8. -/
def zap_8 : damage_unit := { type := damage_type.DT_ELECTRIC, amount := double.of_int 8 }

/-- A cold unit of amount 2. -/
def frost_2 : damage_unit := { type := damage_type.DT_COLD, amount := double.of_int 2 }

/-- A shot that missed by 0.5. -/
def near_shot : dealt_projectile_attack :=
  { proj := { impact := bash_12, speed := 1, proj_effects := ["BOUNCE"] },
    missed_by := { num := 5, den := 10 } }

/-- A creature type whose dodge roll is always 100. -/
def nimble_virtuals : Virtuals := { dodge_roll := fun _ t => (100, t) }

/-- One hostile monster 3 tiles east of the origin. -/
def east_zombie : critter :=
  { id := 8, pos := { x := 3, y := 0, z := 0 }, power_rating := 1,
    attitude_to_u := Attitude.A_HOSTILE }

/-- A game with `east_zombie` as the only monster and the player 3 tiles to the
west of the origin, on the other side. -/
def east_field : Game :=
  { effect_types := fun _ => none,
    mutate_to_main_part := fun b => b,
    u := { id := 0, pos := { x := -3, y := 1, z := 0 } },
    zombies := [{ base := east_zombie, friendly := 0 }],
    coord_to_angle := demo_angle }

/-- A stab of 200 points. -/
def stab_200 : damage_instance :=
  { damage_units := [{ type := damage_type.DT_STAB, amount := double.of_int 200 }] }


/-- One hostile monster 2 tiles south of the origin, of power rating 10. -/
def south_brute : critter :=
  { id := 9, pos := { x := 0, y := -2, z := 0 }, power_rating := 10,
    attitude_to_u := Attitude.A_HOSTILE }

/-- A neutral monster 2 tiles north of the origin, of power rating 8. -/
def north_stray : critter :=
  { id := 10, pos := { x := 0, y := 2, z := 0 }, power_rating := 8,
    attitude_to_u := Attitude.A_NEUTRAL }

/-- A game with the monsters `south_brute`, `east_zombie` and `north_stray`, in
this order, and the player 4 tiles east of the origin, behind `east_zombie`. -/
def pair_field : Game :=
  { effect_types := fun _ => none,
    mutate_to_main_part := fun b => b,
    u := { id := 0, pos := { x := 4, y := 0, z := 0 } },
    zombies := [{ base := south_brute, friendly := 0 }, { base := east_zombie, friendly := 0 },
      { base := north_stray, friendly := 0 }],
    coord_to_angle := demo_angle }

/-- The game `pair_field` with its monsters in the opposite order. -/
def pair_field_swapped : Game :=
  { pair_field with
    zombies := [{ base := north_stray, friendly := 0 }, { base := east_zombie, friendly := 0 },
      { base := south_brute, friendly := 0 }] }

/-- A creature lying on the ground. -/
def prone_virtuals : Virtuals := { is_on_ground := true }

/-! # Lemmas -/

section assoc_lemmas
variable {K V : Type} [DecidableEq K]

theorem map_find_set_self (m : List (K × V)) (k : K) (v : V) :
    map_find (map_set m k v) k = some v := by
  induction m with
  | nil => simp [map_set, map_find]
  | cons p rest ih =>
    obtain ⟨k1, v1⟩ := p
    by_cases h : k1 = k
    · simp [map_set, map_find, h]
    · simp [map_set, map_find, h, ih]

theorem map_find_set_ne (m : List (K × V)) (k k2 : K) (v : V) (h : k2 ≠ k) :
    map_find (map_set m k v) k2 = map_find m k2 := by
  induction m with
  | nil => simp [map_set, map_find, Ne.symm h]
  | cons p rest ih =>
    obtain ⟨k1, v1⟩ := p
    by_cases h1 : k1 = k
    · subst h1
      simp [map_set, map_find, Ne.symm h]
    · by_cases h2 : k1 = k2
      · subst h2
        simp [map_set, map_find, h1]
      · simp [map_set, map_find, h1, h2, ih]

theorem map_find_erase_self (m : List (K × V)) (k : K) :
    map_find (map_erase m k) k = none := by
  induction m with
  | nil => simp [map_erase, map_find]
  | cons p rest ih =>
    obtain ⟨k1, v1⟩ := p
    by_cases h : k1 = k
    · simpa [map_erase, h] using ih
    · simpa [map_erase, List.filter_cons, h, map_find] using ih

theorem map_find_erase_ne (m : List (K × V)) (k k2 : K) (h : k2 ≠ k) :
    map_find (map_erase m k) k2 = map_find m k2 := by
  induction m with
  | nil => simp [map_erase, map_find]
  | cons p rest ih =>
    obtain ⟨k1, v1⟩ := p
    by_cases h1 : k1 = k
    · subst h1
      have : ¬ k1 = k2 := fun e => h e.symm
      simpa [map_erase, map_find, this] using ih
    · by_cases h2 : k1 = k2
      · subst h2
        simp [map_erase, List.filter_cons, map_find, h1]
      · simpa [map_erase, List.filter_cons, map_find, h1, h2] using ih

theorem map_set_keys (m : List (K × V)) (k : K) (v : V) (h : (map_find m k).isSome = true) :
    (map_set m k v).map Prod.fst = m.map Prod.fst := by
  induction m with
  | nil => simp [map_find] at h
  | cons p rest ih =>
    obtain ⟨k1, v1⟩ := p
    by_cases h1 : k1 = k
    · simp [map_set, h1]
    · simp [map_find, h1] at h
      simp [map_set, h1, ih h]

end assoc_lemmas

theorem get_effect_assign (c : Creature) (m : effects_map) (eff_id : efftype_id)
    (bp : body_part) (e : effect) (h : c.effects = effects_assign m eff_id bp e) :
    get_effect c eff_id bp = some e := by
  simp [get_effect, h, effects_assign, map_find_set_self]

theorem bound_intensity_bounds (e : effect) (h : 1 ≤ e.get_max_intensity) :
    1 ≤ (bound_intensity e).get_intensity ∧
      (bound_intensity e).get_intensity ≤ (bound_intensity e).get_max_intensity := by
  unfold bound_intensity
  simp only [effect.get_intensity, effect.get_max_intensity, effect.set_intensity] at *
  split_ifs with h1 h2
  · exact ⟨le_refl _, h⟩
  · exact ⟨h, le_refl _⟩
  · constructor <;> omega

theorem effect_keys_assign (m : effects_map) (eff_id : efftype_id) (bp : body_part)
    (e e0 : effect) (h : get_effect { effects := m } eff_id bp = some e0) :
    effect_keys (effects_assign m eff_id bp e) = effect_keys m := by
  unfold get_effect at h
  simp only at h
  unfold effects_assign effects_at
  cases hf : map_find m eff_id with
  | none => simp [hf] at h
  | some inner =>
    simp only [hf] at h
    simp only [Option.getD_some]
    have hk : (map_set inner bp e).map Prod.fst = inner.map Prod.fst :=
      map_set_keys inner bp e (by simp [h])
    clear h
    induction m with
    | nil => simp [map_find] at hf
    | cons p rest ih =>
      obtain ⟨k1, v1⟩ := p
      by_cases h1 : k1 = eff_id
      · simp [map_find, h1] at hf
        subst hf
        simp [map_set, h1, effect_keys, hk]
      · simp [map_find, h1] at hf
        have := ih hf
        simp [effect_keys] at this
        simp [map_set, h1, effect_keys, this]

theorem add_effect_found (g : Game) (v : Virtuals) (c : Creature) (eff_id : efftype_id)
    (dur : Int) (bp : body_part) (permanent : Bool) (intensity : Int) (force : Bool)
    (type : effect_type) (e : effect)
    (htype : g.effect_types eff_id = some type)
    (himm : force = true ∨ v.is_immune_effect eff_id = false)
    (hfound : get_effect c eff_id (target_part g type bp) = some e) :
    add_effect g v c eff_id dur bp permanent intensity force =
      { c with effects := (effects_assign c.effects eff_id (target_part g type bp)
          (merge_effect e dur intensity)) } := by
  unfold add_effect
  have h1 : (!force && v.is_immune_effect eff_id) = false := by
    rcases himm with h | h <;> simp [h]
  simp [h1, htype, hfound]

theorem add_effect_fresh (g : Game) (v : Virtuals) (c : Creature) (eff_id : efftype_id)
    (dur : Int) (bp : body_part) (permanent : Bool) (intensity : Int) (force : Bool)
    (type : effect_type)
    (htype : g.effect_types eff_id = some type)
    (himm : force = true ∨ v.is_immune_effect eff_id = false)
    (hnone : get_effect c eff_id (target_part g type bp) = none)
    (hblock : is_blocked c.effects eff_id = false) :
    add_effect g v c eff_id dur bp permanent intensity force =
      add_eff_effects
        { c with effects := (effects_assign c.effects eff_id (target_part g type bp)
            (new_effect g type dur (target_part g type bp) permanent intensity)) }
        (new_effect g type dur (target_part g type bp) permanent intensity)
        (resists_effect v
          { c with effects := (effects_assign c.effects eff_id (target_part g type bp)
            (new_effect g type dur (target_part g type bp) permanent intensity)) }
          (new_effect g type dur (target_part g type bp) permanent intensity)) := by
  unfold add_effect
  have h1 : (!force && v.is_immune_effect eff_id) = false := by
    rcases himm with h | h <;> simp [h]
  simp [h1, htype, hnone, hblock]

theorem bound_duration_type (e : effect) : (bound_duration e).eff_type = e.eff_type := by
  unfold bound_duration
  split_ifs <;> rfl

theorem bound_duration_duration (e : effect) :
    (bound_duration e).duration =
      if 0 < e.get_max_duration ∧ e.get_max_duration < e.duration then e.get_max_duration
      else e.duration := by
  unfold bound_duration
  simp only [effect.get_duration, gt_iff_lt]
  split_ifs <;> rfl

theorem bound_intensity_type (e : effect) : (bound_intensity e).eff_type = e.eff_type := by
  unfold bound_intensity
  split_ifs <;> rfl

theorem bound_intensity_duration (e : effect) : (bound_intensity e).duration = e.duration := by
  unfold bound_intensity
  split_ifs <;> rfl

/-- The part of `merge_effect` between the duration limit and the intensity bound. -/
theorem merge_effect_eq (e : effect) (dur intensity : Int) :
    ∃ e2 : effect, merge_effect e dur intensity = bound_intensity e2 ∧
      e2.eff_type = e.eff_type ∧
      e2.duration =
        (bound_duration (e.mod_duration (Int.tdiv (dur * e.get_dur_add_perc) 100))).duration := by
  have hp : ∀ x : effect, (if x.is_permanent then x.pause_effect else x).eff_type = x.eff_type ∧
      (if x.is_permanent then x.pause_effect else x).duration = x.duration := by
    intro x; split_ifs <;> exact ⟨rfl, rfl⟩
  have hi : ∀ x : effect,
      (if intensity > 0 then x.set_intensity intensity
        else if x.get_int_add_val ≠ 0 then x.mod_intensity x.get_int_add_val else x).eff_type =
        x.eff_type ∧
      (if intensity > 0 then x.set_intensity intensity
        else if x.get_int_add_val ≠ 0 then x.mod_intensity x.get_int_add_val else x).duration =
        x.duration := by
    intro x; split_ifs <;> exact ⟨rfl, rfl⟩
  refine ⟨_, rfl, ?_, ?_⟩
  · rw [(hi _).1, (hp _).1, bound_duration_type]; rfl
  · rw [(hi _).2, (hp _).2]

theorem merge_effect_type (e : effect) (dur intensity : Int) :
    (merge_effect e dur intensity).eff_type = e.eff_type := by
  obtain ⟨e2, h1, h2, _⟩ := merge_effect_eq e dur intensity
  rw [h1, bound_intensity_type, h2]

theorem new_effect_type (g : Game) (type : effect_type) (dur : Int) (bp : body_part)
    (permanent : Bool) (intensity : Int) :
    (new_effect g type dur bp permanent intensity).eff_type = type := by
  unfold new_effect
  simp only [bound_intensity_type]
  split_ifs
  · simp only [effect.set_intensity, bound_duration_type]
  · simp only [bound_duration_type]

theorem merge_effect_duration (e : effect) (dur intensity : Int) :
    (merge_effect e dur intensity).duration =
      if 0 < e.get_max_duration ∧
          e.get_max_duration < e.duration + Int.tdiv (dur * e.get_dur_add_perc) 100 then
        e.get_max_duration
      else e.duration + Int.tdiv (dur * e.get_dur_add_perc) 100 := by
  obtain ⟨e2, h1, _, h3⟩ := merge_effect_eq e dur intensity
  rw [h1, bound_intensity_duration, h3, bound_duration_duration]
  rfl

theorem zip_map_const {α β : Type} (l : List α) (b : β) :
    l.zip (l.map (fun _ => b)) = l.map (fun i => (i, b)) := by
  induction l with
  | nil => rfl
  | cons a rest ih => simp only [List.map_cons, List.zip_cons_cons, ih]

theorem decay_spec (e : effect) (ids : List efftype_id) (bps : List body_part) (turn : Int)
    (player : Bool) (h : ids.length = bps.length) :
    (e.decay ids bps turn player).1 = decayed turn player e ∧
    (e.decay ids bps turn player).2.1.length = (e.decay ids bps turn player).2.2.length ∧
    (e.decay ids bps turn player).2.1.zip (e.decay ids bps turn player).2.2 =
      ids.zip bps ++ (e.decay [] [] turn player).2.1.zip (e.decay [] [] turn player).2.2 := by
  unfold decayed effect.decay
  simp only
  split_ifs <;> simp [h, List.zip_append]

theorem process_bodyparts_spec (turn : Int) (player : Bool) (l : List (body_part × effect)) :
    ∀ (ids : List efftype_id) (bps : List body_part), ids.length = bps.length →
    (process_bodyparts turn player l ids bps).1 =
        l.map (fun q => (q.1, decayed turn player q.2)) ∧
    (process_bodyparts turn player l ids bps).2.1.length =
        (process_bodyparts turn player l ids bps).2.2.length ∧
    (process_bodyparts turn player l ids bps).2.1.zip
        (process_bodyparts turn player l ids bps).2.2 =
      ids.zip bps ++ l.flatMap (fun q => pending_of turn player q.2) := by
  induction l with
  | nil => intro ids bps h; simp [process_bodyparts, h]
  | cons q rest ih =>
    intro ids bps h
    obtain ⟨bp, e⟩ := q
    have hlen : (ids ++ e.get_removes_effects).length =
        (bps ++ e.get_removes_effects.map (fun _ => body_part.num_bp)).length := by
      simp [h]
    have hd := decay_spec e _ _ turn player hlen
    have hr := ih _ _ hd.2.1
    generalize hdec : e.decay (ids ++ e.get_removes_effects)
      (bps ++ e.get_removes_effects.map (fun _ => body_part.num_bp)) turn player = d at hd hr
    generalize hpb : process_bodyparts turn player rest d.2.1 d.2.2 = pb at hr
    have hunf : process_bodyparts turn player ((bp, e) :: rest) ids bps =
        ((bp, d.1) :: pb.1, pb.2.1, pb.2.2) := by
      simp only [process_bodyparts, hdec, hpb]
    rw [hunf]
    refine ⟨?_, hr.2.1, ?_⟩
    · simp [hr.1, hd.1]
    · show pb.2.1.zip pb.2.2 = _
      rw [hr.2.2, hd.2.2, List.zip_append h, zip_map_const]
      simp [pending_of, List.append_assoc]

theorem process_types_spec (turn : Int) (player : Bool) (m : effects_map) :
    ∀ (ids : List efftype_id) (bps : List body_part), ids.length = bps.length →
    (process_types turn player m ids bps).1 = decayed_map turn player m ∧
    (process_types turn player m ids bps).2.1.length =
        (process_types turn player m ids bps).2.2.length ∧
    (process_types turn player m ids bps).2.1.zip (process_types turn player m ids bps).2.2 =
      ids.zip bps ++ pending turn player m := by
  induction m with
  | nil => intro ids bps h; simp [process_types, h, decayed_map, pending]
  | cons p rest ih =>
    intro ids bps h
    obtain ⟨id, bodyparts⟩ := p
    have hb := process_bodyparts_spec turn player bodyparts ids bps h
    generalize hgen : process_bodyparts turn player bodyparts ids bps = pb at hb
    have hr := ih _ _ hb.2.1
    generalize hpt : process_types turn player rest pb.2.1 pb.2.2 = pt at hr
    have hunf : process_types turn player ((id, bodyparts) :: rest) ids bps =
        ((id, pb.1) :: pt.1, pt.2.1, pt.2.2) := by
      simp only [process_types, hgen, hpt]
    rw [hunf]
    refine ⟨?_, hr.2.1, ?_⟩
    · simp [hr.1, hb.1, decayed_map]
    · show pt.2.1.zip pt.2.2 = _
      rw [hr.2.2, hb.2.2]
      simp [pending, List.append_assoc]

/-- The function `process_effects` decays every instance in place and then removes, in scan
order, everything the scan left pending. -/
theorem process_effects_eq (g : Game) (v : Virtuals) (c : Creature) :
    process_effects g v c =
      remove_all { c with effects := decayed_map g.turn v.is_player c.effects }
        (pending g.turn v.is_player c.effects) := by
  have h := process_types_spec g.turn v.is_player c.effects [] [] rfl
  unfold process_effects
  simp only [h.1, h.2.2, List.zip_nil_left, List.nil_append]

section assoc_mem
variable {K V : Type} [DecidableEq K]

theorem map_find_mem (m : List (K × V)) (k : K) (v : V) (h : map_find m k = some v) :
    (k, v) ∈ m := by
  induction m with
  | nil => simp [map_find] at h
  | cons p rest ih =>
    obtain ⟨k1, v1⟩ := p
    by_cases h1 : k1 = k
    · simp [map_find, h1] at h
      simp [h1, h]
    · simp [map_find, h1] at h
      exact List.mem_cons_of_mem _ (ih h)

theorem map_find_none_not_mem (m : List (K × V)) (k : K) (h : map_find m k = none) (v : V) :
    (k, v) ∉ m := by
  induction m with
  | nil => simp
  | cons p rest ih =>
    obtain ⟨k1, v1⟩ := p
    by_cases h1 : k1 = k
    · simp [map_find, h1] at h
    · simp [map_find, h1] at h
      intro hm
      rcases List.mem_cons.mp hm with h2 | h2
      · exact h1 (by simpa using (congrArg Prod.fst h2).symm)
      · exact ih h h2

theorem map_find_of_mem (m : List (K × V)) (k : K) (v : V) (hn : (m.map Prod.fst).Nodup)
    (h : (k, v) ∈ m) : map_find m k = some v := by
  induction m with
  | nil => simp at h
  | cons p rest ih =>
    obtain ⟨k1, v1⟩ := p
    simp only [List.map_cons, List.nodup_cons] at hn
    rcases List.mem_cons.mp h with h2 | h2
    · simp only [Prod.mk.injEq] at h2
      simp [map_find, h2.1, h2.2]
    · have hne : k1 ≠ k := by
        intro e
        apply hn.1
        rw [e]
        exact List.mem_map.mpr ⟨(k, v), h2, rfl⟩
      simp [map_find, hne, ih hn.2 h2]

theorem mem_map_erase (m : List (K × V)) (k : K) (p : K × V) :
    p ∈ map_erase m k ↔ p ∈ m ∧ p.1 ≠ k := by
  simp [map_erase, List.mem_filter]

theorem map_erase_nodup (m : List (K × V)) (k : K) (hn : (m.map Prod.fst).Nodup) :
    ((map_erase m k).map Prod.fst).Nodup :=
  List.Nodup.sublist (List.Sublist.map _ (List.filter_sublist m)) hn

theorem mem_map_set (m : List (K × V)) (k : K) (v : V) (p : K × V) (h : p ∈ map_set m k v) :
    p = (k, v) ∨ p ∈ m := by
  induction m with
  | nil => simpa [map_set] using h
  | cons q rest ih =>
    obtain ⟨k1, v1⟩ := q
    by_cases h1 : k1 = k
    · simp only [map_set, h1, if_true, List.mem_cons] at h
      rcases h with h | h
      · exact Or.inl h
      · exact Or.inr (List.mem_cons_of_mem _ h)
    · simp only [map_set, h1, if_false, List.mem_cons] at h
      rcases h with h | h
      · exact Or.inr (by simp [h])
      · rcases ih h with h2 | h2
        · exact Or.inl h2
        · exact Or.inr (List.mem_cons_of_mem _ h2)

end assoc_mem

theorem map_erase_set_self {K V : Type} [DecidableEq K] (m : List (K × V)) (k : K) (v : V) :
    map_erase (map_set m k v) k = map_erase m k := by
  induction m with
  | nil => simp [map_set, map_erase]
  | cons q rest ih =>
    obtain ⟨k1, v1⟩ := q
    by_cases h1 : k1 = k
    · simp [map_set, map_erase, h1]
    · simp only [map_set, h1, if_false]
      simp only [map_erase, List.filter_cons] at ih ⊢
      simp [h1, ih]

/-- The three outcomes of `remove_effect` on the effect map. -/
theorem remove_effect_effects (c : Creature) (eff_id : efftype_id) (bp : body_part) :
    (remove_effect c eff_id bp).2.effects = c.effects ∧ has_effect c eff_id bp = false ∨
    (remove_effect c eff_id bp).2.effects = map_erase c.effects eff_id ∨
    (∃ inner0, map_find c.effects eff_id = some inner0 ∧ bp ≠ body_part.num_bp ∧
      (remove_effect c eff_id bp).2.effects = map_set c.effects eff_id (map_erase inner0 bp)) := by
  by_cases hh : has_effect c eff_id bp = true
  · by_cases hb : bp = body_part.num_bp
    · right; left
      subst hb
      simp [remove_effect, hh]
    · cases hf : map_find c.effects eff_id with
      | none => simp [has_effect, hb, hf] at hh
      | some inner0 =>
        by_cases he : (map_erase inner0 bp).isEmpty = true
        · right; left
          simp only [remove_effect, hh, hb, effects_at, map_find_set_self, hf] 
          simp [he, map_erase_set_self]
        · right; right
          refine ⟨inner0, rfl, hb, ?_⟩
          simp only [remove_effect, hh, hb, effects_at, map_find_set_self, hf] 
          simp [he]
  · left
    simp at hh
    simp [remove_effect, hh]

theorem remove_effect_sub (c : Creature) (eff_id : efftype_id) (bp : body_part)
    (id : efftype_id) (inner1 : List (body_part × effect))
    (h : (id, inner1) ∈ (remove_effect c eff_id bp).2.effects) :
    ∃ inner, (id, inner) ∈ c.effects ∧ ∀ q ∈ inner1, q ∈ inner := by
  rcases remove_effect_effects c eff_id bp with ⟨h1, _⟩ | h1 | ⟨inner0, hf, _, h1⟩
  · rw [h1] at h
    exact ⟨inner1, h, fun q hq => hq⟩
  · rw [h1] at h
    exact ⟨inner1, ((mem_map_erase _ _ _).mp h).1, fun q hq => hq⟩
  · rw [h1] at h
    rcases mem_map_set _ _ _ _ h with h2 | h2
    · simp only [Prod.mk.injEq] at h2
      refine ⟨inner0, ?_, ?_⟩
      · rw [h2.1]
        exact map_find_mem _ _ _ hf
      · intro q hq
        rw [h2.2] at hq
        exact ((mem_map_erase _ _ _).mp hq).1
    · exact ⟨inner1, h2, fun q hq => hq⟩

theorem remove_effect_nodup (c : Creature) (eff_id : efftype_id) (bp : body_part)
    (hn : outer_nodup c.effects) : outer_nodup (remove_effect c eff_id bp).2.effects := by
  unfold outer_nodup at *
  rcases remove_effect_effects c eff_id bp with ⟨h1, _⟩ | h1 | ⟨inner0, hf, _, h1⟩
  · rw [h1]; exact hn
  · rw [h1]; exact map_erase_nodup _ _ hn
  · rw [h1, map_set_keys _ _ _ (by simp [hf])]; exact hn

theorem remove_effect_absent (c : Creature) (eff_id : efftype_id) (bp : body_part)
    (hn : outer_nodup c.effects) (inner : List (body_part × effect))
    (h : (eff_id, inner) ∈ (remove_effect c eff_id bp).2.effects) (e : effect) :
    (bp, e) ∉ inner := by
  have hn2 := remove_effect_nodup c eff_id bp hn
  rcases remove_effect_effects c eff_id bp with ⟨h1, hh⟩ | h1 | ⟨inner0, hf, _, h1⟩
  · rw [h1] at h
    have hfi := map_find_of_mem _ _ _ hn h
    by_cases hb : bp = body_part.num_bp
    · simp [has_effect, hb, hfi] at hh
    · simp only [has_effect, hb, hfi, if_false] at hh
      cases hfb : map_find inner bp with
      | none => exact map_find_none_not_mem _ _ hfb e
      | some e0 => simp [hfb] at hh
  · rw [h1] at h
    exact absurd rfl ((mem_map_erase _ _ _).mp h).2
  · have hfi := map_find_of_mem _ _ _ hn2 h
    rw [h1, map_find_set_self] at hfi
    have : inner = map_erase inner0 bp := (Option.some.inj hfi).symm
    rw [this]
    intro hm
    exact absurd rfl ((mem_map_erase _ _ _).mp hm).2

theorem remove_all_sub (l : List (efftype_id × body_part)) :
    ∀ (c : Creature) (id : efftype_id) (inner1 : List (body_part × effect)),
    (id, inner1) ∈ (remove_all c l).effects →
    ∃ inner, (id, inner) ∈ c.effects ∧ ∀ q ∈ inner1, q ∈ inner := by
  induction l with
  | nil => intro c id inner1 h; exact ⟨inner1, h, fun q hq => hq⟩
  | cons x rest ih =>
    intro c id inner1 h
    obtain ⟨i, b⟩ := x
    simp only [remove_all] at h
    obtain ⟨inner2, h2, hs2⟩ := ih _ id inner1 h
    obtain ⟨inner3, h3, hs3⟩ := remove_effect_sub c i b id inner2 h2
    exact ⟨inner3, h3, fun q hq => hs3 q (hs2 q hq)⟩

theorem remove_all_absent (l : List (efftype_id × body_part)) :
    ∀ (c : Creature), outer_nodup c.effects → ∀ (eff_id : efftype_id) (bp : body_part),
    (eff_id, bp) ∈ l → ∀ inner, (eff_id, inner) ∈ (remove_all c l).effects →
    ∀ e, (bp, e) ∉ inner := by
  induction l with
  | nil => intro c _ eff_id bp h; simp at h
  | cons x rest ih =>
    intro c hn eff_id bp hmem inner h e
    obtain ⟨i, b⟩ := x
    simp only [remove_all] at h
    rcases List.mem_cons.mp hmem with h1 | h1
    · simp only [Prod.mk.injEq] at h1
      obtain ⟨inner2, h2, hs2⟩ := remove_all_sub rest _ eff_id inner h
      obtain ⟨h1a, h1b⟩ := h1
      subst h1a h1b
      intro hm
      exact remove_effect_absent c eff_id bp hn inner2 h2 e (hs2 _ hm)
    · exact ih _ (remove_effect_nodup c i b hn) eff_id bp h1 inner h e

/-! # The effect engine -/

/-- C1, as amended: when `add_effect` creates or updates the instance at the key
`(eff_id, bp)` (the type is valid, the creature is not rejected for immunity, and
either an instance is there already or no active effect blocks the type) and the
maximal intensity of the type concerned is at least 1, the instance stored
afterwards has an intensity between 1 and the maximal intensity of its type. -/
theorem add_effect_intensity_in_bounds (g : Game) (v : Virtuals) (c : Creature)
    (eff_id : efftype_id) (dur : Int) (bp : body_part) (permanent : Bool) (intensity : Int)
    (force : Bool) (type : effect_type)
    (htype : g.effect_types eff_id = some type)
    (himm : force = true ∨ v.is_immune_effect eff_id = false)
    (hnew : get_effect c eff_id (target_part g type bp) = none →
      is_blocked c.effects eff_id = false)
    (hmax : 1 ≤ type.max_intensity)
    (hold : ∀ e0, get_effect c eff_id (target_part g type bp) = some e0 →
      1 ≤ e0.get_max_intensity) :
    ∃ e, get_effect (add_effect g v c eff_id dur bp permanent intensity force) eff_id
        (target_part g type bp) = some e ∧
      1 ≤ e.get_intensity ∧ e.get_intensity ≤ e.get_max_intensity := by
  cases hfound : get_effect c eff_id (target_part g type bp) with
  | some e0 =>
    rw [add_effect_found g v c eff_id dur bp permanent intensity force type e0 htype himm hfound]
    refine ⟨merge_effect e0 dur intensity, get_effect_assign _ c.effects _ _ _ rfl, ?_⟩
    have h1 : 1 ≤ e0.get_max_intensity := hold e0 hfound
    unfold merge_effect
    apply bound_intensity_bounds
    simp only [effect.get_max_intensity] at h1 ⊢
    split_ifs <;>
      simpa [effect.mod_duration, effect.set_intensity, effect.mod_intensity,
        effect.pause_effect, bound_duration_type] using h1
  | none =>
    rw [add_effect_fresh g v c eff_id dur bp permanent intensity force type htype himm hfound
      (hnew hfound)]
    refine ⟨new_effect g type dur (target_part g type bp) permanent intensity, ?_, ?_⟩
    · exact get_effect_assign _ c.effects _ _ _ rfl
    · unfold new_effect
      apply bound_intensity_bounds
      simp only [effect.get_max_intensity, effect.set_intensity]
      split_ifs <;> simpa [bound_duration_type] using hmax

/-- Witness of `add_effect_intensity_in_bounds`: reapplying "burn" with a requested
intensity of 5 to a creature that holds it. -/
theorem add_effect_intensity_in_bounds_witness :
    demo_game.effect_types "burn" = some burn_type ∧
    (1 : Int) ≤ burn_type.max_intensity ∧
    ∃ e, get_effect
        (add_effect demo_game plain_virtuals burning "burn" 10 body_part.num_bp false 5 false)
        "burn" (target_part demo_game burn_type body_part.num_bp) = some e ∧
      1 ≤ e.get_intensity ∧ e.get_intensity ≤ e.get_max_intensity :=
  ⟨by decide, by decide,
    add_effect_intensity_in_bounds demo_game plain_virtuals burning "burn" 10 body_part.num_bp
      false 5 false burn_type (by decide) (by decide) (by decide) (by decide)
      (fun e0 h => by
        have h2 : e0 = burn_10 := by
          have h3 : get_effect burning "burn" (target_part demo_game burn_type body_part.num_bp)
              = some burn_10 := by decide
          rw [h3] at h
          exact (Option.some.inj h).symm
        subst h2
        decide)⟩

/-- C1 as stated fails for an effect type whose maximal intensity is below 1:
`add_effect` of "flat" (maximal intensity 0) on a fresh creature stores an
instance of intensity 1. -/
theorem add_effect_intensity_counterexample :
    get_effect_int
        (add_effect demo_game plain_virtuals {} "flat" 10 body_part.num_bp false 0 false)
        "flat" body_part.num_bp = 1 ∧
    flat_type.max_intensity = 0 ∧
    ¬ (∀ e, get_effect
        (add_effect demo_game plain_virtuals {} "flat" 10 body_part.num_bp false 0 false)
        "flat" body_part.num_bp = some e →
        1 ≤ e.get_intensity ∧ e.get_intensity ≤ e.get_max_intensity) := by
  refine ⟨by decide, by decide, ?_⟩
  intro h
  have h2 := h (effect.mk flat_type 10 body_part.num_bp false 1 0) (by decide)
  revert h2
  decide

/-- C2, as amended: when the effect type is valid and the creature is not rejected
for immunity, an instance `e` found at the key `(eff_id, bp)` (with `bp` taken to
its main part for types restricted to main parts) is kept at that key with the
duration `d + dur * duration_add_percent / 100`, lowered to the maximal duration
when that is positive and exceeded; no key of the effect map is added or lost. -/
theorem add_effect_extends_duration (g : Game) (v : Virtuals) (c : Creature)
    (eff_id : efftype_id) (dur : Int) (bp : body_part) (permanent : Bool) (intensity : Int)
    (force : Bool) (type : effect_type) (e : effect)
    (htype : g.effect_types eff_id = some type)
    (himm : force = true ∨ v.is_immune_effect eff_id = false)
    (hfound : get_effect c eff_id (target_part g type bp) = some e) :
    (∃ e1, get_effect (add_effect g v c eff_id dur bp permanent intensity force) eff_id
        (target_part g type bp) = some e1 ∧
      e1.get_duration =
        if 0 < e.get_max_duration ∧
            e.get_max_duration < e.get_duration + Int.tdiv (dur * e.get_dur_add_perc) 100 then
          e.get_max_duration
        else e.get_duration + Int.tdiv (dur * e.get_dur_add_perc) 100) ∧
    effect_keys (add_effect g v c eff_id dur bp permanent intensity force).effects =
      effect_keys c.effects := by
  rw [add_effect_found g v c eff_id dur bp permanent intensity force type e htype himm hfound]
  refine ⟨⟨merge_effect e dur intensity, get_effect_assign _ c.effects _ _ _ rfl, ?_⟩, ?_⟩
  · exact merge_effect_duration e dur intensity
  · exact effect_keys_assign c.effects eff_id _ _ e (by
      have : get_effect { effects := c.effects } eff_id (target_part g type bp) =
          get_effect c eff_id (target_part g type bp) := rfl
      rw [this]; exact hfound)

/-- Witness of `add_effect_extends_duration`: 10 turns left, 10 more requested at
50 percent give 15. -/
theorem add_effect_extends_duration_witness :
    (∃ e1, get_effect
        (add_effect demo_game plain_virtuals burning "burn" 10 body_part.num_bp false 0 false)
        "burn" (target_part demo_game burn_type body_part.num_bp) = some e1 ∧
      e1.get_duration =
        if 0 < burn_10.get_max_duration ∧
            burn_10.get_max_duration <
              burn_10.get_duration + Int.tdiv (10 * burn_10.get_dur_add_perc) 100 then
          burn_10.get_max_duration
        else burn_10.get_duration + Int.tdiv (10 * burn_10.get_dur_add_perc) 100) ∧
    effect_keys
        (add_effect demo_game plain_virtuals burning "burn" 10 body_part.num_bp false 0
          false).effects = effect_keys burning.effects ∧
    burn_10.get_duration + Int.tdiv (10 * burn_10.get_dur_add_perc) 100 = 15 ∧
    get_effect_dur
        (add_effect demo_game plain_virtuals burning "burn" 10 body_part.num_bp false 0 false)
        "burn" body_part.num_bp = 15 :=
  ⟨(add_effect_extends_duration demo_game plain_virtuals burning "burn" 10 body_part.num_bp
      false 0 false burn_type burn_10 (by decide) (by decide) (by decide)).1,
    (add_effect_extends_duration demo_game plain_virtuals burning "burn" 10 body_part.num_bp
      false 0 false burn_type burn_10 (by decide) (by decide) (by decide)).2,
    by decide, by decide⟩

/-- C2 as stated fails for a creature that is innately immune to the effect type
and holds an instance of it: `add_effect(type, 10, bp)` returns at the immunity
check and the duration stays 10 instead of becoming 10 + 10 * 50 / 100 = 15. -/
theorem add_effect_extends_duration_counterexample :
    get_effect_dur burning "burn" body_part.num_bp = 10 ∧
    immune_virtuals.is_immune_effect "burn" = true ∧
    get_effect_dur
        (add_effect demo_game immune_virtuals burning "burn" 10 body_part.num_bp false 0 false)
        "burn" body_part.num_bp = 10 ∧
    get_effect_dur
        (add_effect demo_game immune_virtuals burning "burn" 10 body_part.num_bp false 0 false)
        "burn" body_part.num_bp ≠
      get_effect_dur burning "burn" body_part.num_bp +
        Int.tdiv (10 * burn_type.dur_add_perc) 100 := by
  decide

/-- C10: a second `remove_effect` on the same `(eff_id, bp)` returns false and
leaves the creature as the first call left it; and `remove_effect` on an absent
`(eff_id, bp)` returns false and changes nothing. -/
theorem remove_effect_idempotent (c : Creature) (eff_id : efftype_id) (bp : body_part) :
    remove_effect (remove_effect c eff_id bp).2 eff_id bp = (false, (remove_effect c eff_id bp).2) ∧
    (has_effect c eff_id bp = false → remove_effect c eff_id bp = (false, c)) := by
  have habs : ∀ c1 : Creature, has_effect c1 eff_id bp = false →
      remove_effect c1 eff_id bp = (false, c1) := by
    intro c1 h
    simp [remove_effect, h]
  refine ⟨?_, habs c⟩
  apply habs
  by_cases hh : has_effect c eff_id bp = true
  · by_cases hb : bp = body_part.num_bp
    · subst hb
      have hr : remove_effect c eff_id body_part.num_bp =
          (true, { c with effects := map_erase c.effects eff_id }) := by
        simp [remove_effect, hh]
      rw [hr]
      simp [has_effect, map_find_erase_self]
    · by_cases he : (map_erase (effects_at c.effects eff_id) bp).isEmpty = true
      · have hr : remove_effect c eff_id bp =
            (true, { c with effects := (map_erase
              (map_set c.effects eff_id (map_erase (effects_at c.effects eff_id) bp)) eff_id) }) := by
          simp only [remove_effect, hh, hb, effects_at, map_find_set_self] at he ⊢
          simp [he]
        rw [hr]
        simp [has_effect, hb, map_find_erase_self]
      · have hr : remove_effect c eff_id bp =
            (true, { c with effects :=
              (map_set c.effects eff_id (map_erase (effects_at c.effects eff_id) bp)) }) := by
          simp only [remove_effect, hh, hb, effects_at, map_find_set_self] at he ⊢
          simp [he]
        rw [hr]
        simp [has_effect, hb, map_find_set_self, map_find_erase_self]
  · simp at hh
    rw [habs c hh]
    exact hh

/-- Witness of `remove_effect_idempotent` on a creature holding "burn". -/
theorem remove_effect_idempotent_witness :
    remove_effect (remove_effect burning "burn" body_part.num_bp).2 "burn" body_part.num_bp =
      (false, (remove_effect burning "burn" body_part.num_bp).2) ∧
    (has_effect burning "zapped" body_part.bp_head = false →
      remove_effect burning "zapped" body_part.bp_head = (false, burning)) :=
  ⟨(remove_effect_idempotent burning "burn" body_part.num_bp).1,
    (remove_effect_idempotent burning "zapped" body_part.bp_head).2⟩

theorem decayed_id_bp (turn : Int) (player : Bool) (e : effect) :
    (decayed turn player e).get_id = e.get_id ∧ (decayed turn player e).bp = e.bp ∧
      (decayed turn player e).permanent = e.permanent := by
  unfold decayed effect.decay
  simp only [effect.is_permanent, effect.get_id]
  split_ifs <;> exact ⟨rfl, rfl, rfl⟩

theorem decayed_permanent_duration (turn : Int) (player : Bool) (e : effect)
    (h : e.is_permanent = true) : (decayed turn player e).duration = e.duration := by
  unfold decayed effect.decay
  simp only [h, Bool.not_true, Bool.false_eq_true, if_false]
  split_ifs <;> rfl

theorem decay_expired (turn : Int) (player : Bool) (e : effect)
    (h : (decayed turn player e).duration ≤ 0) :
    e.decay [] [] turn player =
      (decayed turn player e, [(decayed turn player e).get_id], [(decayed turn player e).bp]) := by
  have hd : decayed turn player e =
      (if !e.is_permanent then { e with duration := e.duration - 1 } else e) := by
    unfold decayed effect.decay
    simp only
    split_ifs <;> rfl
  rw [hd] at h ⊢
  unfold effect.decay
  simp only
  rw [if_pos h]
  rfl

theorem pending_of_expired (turn : Int) (player : Bool) (e : effect)
    (h : (decayed turn player e).duration ≤ 0) :
    (e.get_id, e.bp) ∈ pending_of turn player e := by
  have hid := decayed_id_bp turn player e
  unfold pending_of
  apply List.mem_append_right
  rw [decay_expired turn player e h, hid.1, hid.2.1]
  simp

theorem mem_decayed_map (turn : Int) (player : Bool) (m : effects_map) (id : efftype_id)
    (inner1 : List (body_part × effect)) (h : (id, inner1) ∈ decayed_map turn player m) :
    ∃ inner, (id, inner) ∈ m ∧
      inner1 = inner.map (fun q => (q.1, decayed turn player q.2)) := by
  unfold decayed_map at h
  obtain ⟨p, hp, he⟩ := List.mem_map.mp h
  simp only [Prod.mk.injEq] at he
  exact ⟨p.2, by rw [← he.1]; exact hp, he.2.symm⟩

theorem decayed_map_keys (turn : Int) (player : Bool) (m : effects_map) :
    (decayed_map turn player m).map Prod.fst = m.map Prod.fst := by
  unfold decayed_map
  simp [List.map_map, Function.comp_def]

theorem mem_pending (turn : Int) (player : Bool) (m : effects_map) (id : efftype_id)
    (inner : List (body_part × effect)) (bp : body_part) (e : effect)
    (h1 : (id, inner) ∈ m) (h2 : (bp, e) ∈ inner) (x : efftype_id × body_part)
    (hx : x ∈ pending_of turn player e) : x ∈ pending turn player m := by
  unfold pending
  exact List.mem_flatMap.mpr ⟨(id, inner), h1, List.mem_flatMap.mpr ⟨(bp, e), h2, hx⟩⟩

/-- C3: after `process_effects` every instance left in the effect map is permanent
or has a remaining duration above zero. -/
theorem process_effects_removes_expired (g : Game) (v : Virtuals) (c : Creature)
    (hwf : well_formed c.effects) :
    ∀ p ∈ (process_effects g v c).effects, ∀ q ∈ p.2,
      q.2.is_permanent = false → 0 < q.2.get_duration := by
  intro p hp q hq hperm
  obtain ⟨id, inner2⟩ := p
  obtain ⟨bp, e2⟩ := q
  rw [process_effects_eq] at hp
  obtain ⟨inner1, h1, hs1⟩ := remove_all_sub _ _ id inner2 hp
  obtain ⟨inner, h0, hmap⟩ := mem_decayed_map _ _ _ id inner1 h1
  have hq1 := hs1 _ hq
  rw [hmap] at hq1
  obtain ⟨q0, hq0, he⟩ := List.mem_map.mp hq1
  simp only [Prod.mk.injEq] at he
  obtain ⟨hbp, hdec⟩ := he
  have hkey := (hwf.2 (id, inner) h0).2 q0 hq0
  by_contra hneg
  have hle : (decayed g.turn v.is_player q0.2).duration ≤ 0 := by
    rw [hdec]
    simp only [effect.get_duration, not_lt] at hneg
    exact hneg
  have hpend := pending_of_expired g.turn v.is_player q0.2 hle
  rw [hkey.1, hkey.2, hbp] at hpend
  have hmem := mem_pending g.turn v.is_player c.effects id inner q0.1 q0.2 h0 hq0 _ hpend
  have hn : outer_nodup ({ c with effects := decayed_map g.turn v.is_player c.effects }).effects := by
    unfold outer_nodup
    rw [decayed_map_keys]
    exact hwf.1
  exact remove_all_absent _ _ hn id bp hmem inner2 hp e2 hq

/-- C4: a permanent instance that is still at its key after `process_effects` has a
remaining duration that is not smaller than before the call. -/
theorem process_effects_permanent_duration (g : Game) (v : Virtuals) (c : Creature)
    (eff_id : efftype_id) (bp : body_part) (e e1 : effect)
    (hwf : well_formed c.effects)
    (hbefore : get_effect c eff_id bp = some e) (hperm : e.is_permanent = true)
    (hafter : get_effect (process_effects g v c) eff_id bp = some e1) :
    e.get_duration ≤ e1.get_duration := by
  unfold get_effect at hbefore hafter
  cases hf : map_find c.effects eff_id with
  | none => simp [hf] at hbefore
  | some inner =>
    simp only [hf] at hbefore
    cases hf2 : map_find (process_effects g v c).effects eff_id with
    | none => simp [hf2] at hafter
    | some inner2 =>
      simp only [hf2] at hafter
      have hp := map_find_mem _ _ _ hf2
      have hq := map_find_mem _ _ _ hafter
      rw [process_effects_eq] at hp
      obtain ⟨inner1, h1, hs1⟩ := remove_all_sub _ _ eff_id inner2 hp
      obtain ⟨inner0, h0, hmap⟩ := mem_decayed_map _ _ _ eff_id inner1 h1
      have hq1 := hs1 _ hq
      rw [hmap] at hq1
      obtain ⟨q0, hq0, he⟩ := List.mem_map.mp hq1
      simp only [Prod.mk.injEq] at he
      obtain ⟨hbp, hdec⟩ := he
      have hin : inner0 = inner := by
        have := map_find_of_mem _ _ _ hwf.1 h0
        rw [hf] at this
        exact (Option.some.inj this).symm
      subst hin
      have hq0' : (bp, q0.2) ∈ inner0 := by rw [← hbp]; exact hq0
      have hfe := map_find_of_mem _ _ _ (hwf.2 (eff_id, inner0) h0).1 hq0'
      rw [hbefore] at hfe
      have heq : e = q0.2 := Option.some.inj hfe
      rw [← hdec, ← heq]
      simp only [effect.get_duration]
      rw [decayed_permanent_duration _ _ e hperm]

/-- Witness of `process_effects_removes_expired`: of a permanent instance and one in
its last turn, only the permanent one is left. -/
theorem process_effects_removes_expired_witness :
    well_formed smouldering.effects ∧
    (∀ p ∈ (process_effects demo_game plain_virtuals smouldering).effects, ∀ q ∈ p.2,
      q.2.is_permanent = false → 0 < q.2.get_duration) ∧
    (process_effects demo_game plain_virtuals smouldering).effects =
      [("burn", [(body_part.bp_head, burn_permanent)])] :=
  ⟨by decide,
    process_effects_removes_expired demo_game plain_virtuals smouldering (by decide),
    by decide⟩

/-- Witness of `process_effects_permanent_duration`: the permanent instance keeps its
5 turns. -/
theorem process_effects_permanent_duration_witness :
    get_effect smouldering "burn" body_part.bp_head = some burn_permanent ∧
    get_effect (process_effects demo_game plain_virtuals smouldering) "burn" body_part.bp_head =
      some burn_permanent ∧
    burn_permanent.get_duration ≤ burn_permanent.get_duration :=
  ⟨by decide, by decide,
    process_effects_permanent_duration demo_game plain_virtuals smouldering "burn"
      body_part.bp_head burn_permanent burn_permanent (by decide) (by decide) (by decide)
      (by decide)⟩

/-! # Damage resolution and projectiles -/

/-- The shapes of the result of `add_effect`: the creature as it was, the creature
with a new effect map, or that followed by the `add_eff_effects` hook. -/
theorem add_effect_cases (g : Game) (v : Virtuals) (c : Creature) (eff_id : efftype_id)
    (dur : Int) (bp : body_part) (permanent : Bool) (intensity : Int) (force : Bool) :
    add_effect g v c eff_id dur bp permanent intensity force = c ∨
    (∃ m, add_effect g v c eff_id dur bp permanent intensity force = { c with effects := m }) ∨
    (∃ m e r, add_effect g v c eff_id dur bp permanent intensity force =
      add_eff_effects { c with effects := m } e r) := by
  by_cases h1 : (!force && v.is_immune_effect eff_id) = true
  · left; simp [add_effect, h1]
  · have himm : force = true ∨ v.is_immune_effect eff_id = false := by
      cases force <;> simp_all
    cases htype : g.effect_types eff_id with
    | none => left; simp [add_effect, h1, htype]
    | some type =>
      cases hfound : get_effect c eff_id (target_part g type bp) with
      | some e =>
        right; left
        exact ⟨_, add_effect_found g v c eff_id dur bp permanent intensity force type e htype
          himm hfound⟩
      | none =>
        by_cases hb : is_blocked c.effects eff_id = true
        · left; simp [add_effect, h1, htype, hfound, hb]
        · right; right
          exact ⟨_, _, _, add_effect_fresh g v c eff_id dur bp permanent intensity force type
            htype himm hfound (by simpa using hb)⟩

/-- The function `add_effect` touches the effect map and the trace only, and the trace gains
at most a call of `add_eff_effects`. -/
theorem add_effect_frame (g : Game) (v : Virtuals) (c : Creature) (eff_id : efftype_id)
    (dur : Int) (bp : body_part) (permanent : Bool) (intensity : Int) (force : Bool) :
    (add_effect g v c eff_id dur bp permanent intensity force).hp = c.hp ∧
    (add_effect g v c eff_id dur bp permanent intensity force).pain = c.pain ∧
    (add_effect g v c eff_id dur bp permanent intensity force).moves = c.moves ∧
    applied_damage (add_effect g v c eff_id dur bp permanent intensity force).calls =
      applied_damage c.calls := by
  rcases add_effect_cases g v c eff_id dur bp permanent intensity force with
    h | ⟨m, h⟩ | ⟨m, e, r, h⟩
  · rw [h]; exact ⟨rfl, rfl, rfl, rfl⟩
  · rw [h]; exact ⟨rfl, rfl, rfl, rfl⟩
  · rw [h]
    refine ⟨rfl, rfl, rfl, ?_⟩
    simp [add_eff_effects, applied_damage, List.filterMap_append]

/-- The function `deal_damage_handle_type` leaves the hit points and the damage applied so far
as they are. -/
theorem deal_damage_handle_type_frame (g : Game) (v : Virtuals) (c : Creature)
    (du : damage_unit) (bp : body_part) (damage pain : Int) (t : rng_tape) :
    (deal_damage_handle_type g v c du bp damage pain t).1.hp = c.hp ∧
    (deal_damage_handle_type g v c du bp damage pain t).1.pain = c.pain ∧
    applied_damage (deal_damage_handle_type g v c du bp damage pain t).1.calls =
      applied_damage c.calls := by
  unfold deal_damage_handle_type
  split_ifs
  · exact ⟨rfl, rfl, rfl⟩
  · have ha := fun i d => add_effect_frame g v c i d body_part.num_bp false 0 false
    split
    all_goals first
      | exact ⟨rfl, rfl, rfl⟩
      | exact ⟨(ha _ _).1, (ha _ _).2.1, (ha _ _).2.2.2⟩
      | (simp only []; split_ifs
         · exact ⟨(ha _ _).1, (ha _ _).2.1, (ha _ _).2.2.2⟩
         · exact ⟨rfl, rfl, rfl⟩)

theorem deal_damage_units_frame (g : Game) (v : Virtuals) (bp : body_part)
    (units : List damage_unit) :
    ∀ s : damage_totals,
      (deal_damage_units g v bp units s).self.hp = s.self.hp ∧
      (deal_damage_units g v bp units s).self.pain = s.self.pain ∧
      applied_damage (deal_damage_units g v bp units s).self.calls =
        applied_damage s.self.calls := by
  induction units with
  | nil => intro s; exact ⟨rfl, rfl, rfl⟩
  | cons it rest ih =>
    intro s
    have hf := deal_damage_handle_type_frame g v s.self it bp 0 s.total_pain s.tape
    simp only [deal_damage_units]
    split_ifs
    · exact ⟨(ih _).1.trans hf.1, (ih _).2.1.trans hf.2.1, (ih _).2.2.trans hf.2.2⟩
    · exact ⟨(ih _).1.trans hf.1, (ih _).2.1.trans hf.2.1, (ih _).2.2.trans hf.2.2⟩

/-- C5: on a creature in the dead state `deal_damage` returns the record without
damage and leaves the creature (pain, hit points, moves, effect map, and the
trace of hooks, so neither `absorb_hit` nor `apply_damage` is called) and the
random generator as they are. -/
theorem deal_damage_dead_state (g : Game) (v : Virtuals) (c : Creature)
    (source : Option creature_id) (bp : body_part) (dam : damage_instance) (t : rng_tape)
    (hdead : v.is_dead_state c = true) :
    (deal_damage g v c source bp dam t).self = c ∧
    (∀ dt, (deal_damage g v c source bp dam t).dealt.dealt_dams dt = 0) ∧
    (deal_damage g v c source bp dam t).dealt.total_damage = 0 ∧
    (deal_damage g v c source bp dam t).tape = t := by
  unfold deal_damage
  rw [if_pos hdead]
  refine ⟨rfl, fun _ => rfl, ?_, rfl⟩
  simp [dealt_damage_instance.total_damage, dealt_damage_instance.empty, all_damage_types]

/-- The result of `deal_damage` on a live creature, in terms of the loop over the
damage units. -/
theorem deal_damage_live (g : Game) (v : Virtuals) (c : Creature)
    (source : Option creature_id) (bp : body_part) (dam : damage_instance) (t : rng_tape)
    (hlive : v.is_dead_state c = false) :
    ∃ s : damage_totals,
      s = deal_damage_units g v bp (v.absorb_hit bp dam).damage_units
        { self := (absorb_hit v c bp dam).1, dealt_dams := fun _ => 0, total_damage := 0,
          total_pain := 0, tape := t } ∧
      deal_damage g v c source bp dam t =
        { dealt := { dealt_dams := s.dealt_dams },
          self := apply_damage (mod_pain s.self s.total_pain) source bp
            (if dam.effects.contains "NOGIB" then
              Min.min s.total_damage (get_hp (mod_pain s.self s.total_pain) + 1)
             else s.total_damage),
          tape := s.tape } := by
  refine ⟨_, rfl, ?_⟩
  unfold deal_damage
  simp only [hlive, Bool.false_eq_true, if_false]
  rfl

/-- C6: for a live creature and a damage instance tagged NOGIB, `deal_damage`
calls `apply_damage` once, with an amount of at most the current hit points
plus 1. -/
theorem deal_damage_nogib_cap (g : Game) (v : Virtuals) (c : Creature)
    (source : Option creature_id) (bp : body_part) (dam : damage_instance) (t : rng_tape)
    (hlive : v.is_dead_state c = false) (htag : dam.effects.contains "NOGIB" = true) :
    ∃ n, applied_damage (deal_damage g v c source bp dam t).self.calls =
        applied_damage c.calls ++ [n] ∧
      n ≤ get_hp c + 1 ∧ (deal_damage g v c source bp dam t).self.hp = get_hp c - n := by
  obtain ⟨s, hs, hd⟩ := deal_damage_live g v c source bp dam t hlive
  have hf := deal_damage_units_frame g v bp (v.absorb_hit bp dam).damage_units
    { self := (absorb_hit v c bp dam).1, dealt_dams := fun _ => 0, total_damage := 0,
      total_pain := 0, tape := t }
  rw [← hs] at hf
  have hhp : (mod_pain s.self s.total_pain).hp = c.hp := by
    simp only [mod_pain]
    exact hf.1
  have hcalls : applied_damage (mod_pain s.self s.total_pain).calls = applied_damage c.calls := by
    simp only [mod_pain]
    rw [hf.2.2]
    simp [absorb_hit, applied_damage, List.filterMap_append]
  rw [hd, if_pos htag]
  refine ⟨Min.min s.total_damage (get_hp (mod_pain s.self s.total_pain) + 1), ?_, ?_, ?_⟩
  · simp only [apply_damage]
    rw [applied_damage, List.filterMap_append]
    rw [applied_damage] at hcalls
    rw [hcalls]
    rfl
  · simp only [get_hp, hhp]
    exact min_le_right _ _
  · simp only [apply_damage, get_hp, hhp]

/-- C8: a projectile attack with `missed_by >= 1.0` leaves the creature, the attack
record (so `missed_by` as well) and the random generator as they are. -/
theorem deal_projectile_attack_total_miss (g : Game) (v : Virtuals) (c : Creature)
    (source : Option creature_id) (attack : dealt_projectile_attack) (t : rng_tape)
    (hmiss : attack.missed_by ≥ 1) :
    deal_projectile_attack g v c source attack t = { self := c, attack := attack, tape := t } := by
  unfold deal_projectile_attack
  simp only [hmiss, if_true]

theorem double_of_int_mul_one (a : Int) : (double.of_int a * (1 : double)).to_int = a := by
  show Int.tdiv (a * 1) ((1 * 1 : Nat) : Int) = a
  simp

/-- C7: on a live creature that is not immune to bash and whose armor absorbs
nothing, a damage instance without tags made of one bash unit of amount `a >= 0`
and multiplier 1 makes `deal_damage` pass exactly `a` to `apply_damage`, raise
pain by `a / 4` and return a record whose total is `a`. -/
theorem deal_damage_single_bash (g : Game) (v : Virtuals) (c : Creature)
    (source : Option creature_id) (bp : body_part) (du : damage_unit) (a : Int) (t : rng_tape)
    (hlive : v.is_dead_state c = false)
    (himm : v.is_immune_damage damage_type.DT_BASH = false)
    (habs : v.absorb_hit bp { damage_units := [du], effects := [] } =
      { damage_units := [du], effects := [] })
    (htype : du.type = damage_type.DT_BASH) (hamount : du.amount = double.of_int a)
    (hmult : du.damage_multiplier = 1) (ha : 0 ≤ a) (hpain : 0 ≤ c.pain) :
    applied_damage
        (deal_damage g v c source bp { damage_units := [du], effects := [] } t).self.calls =
      applied_damage c.calls ++ [a] ∧
    (deal_damage g v c source bp { damage_units := [du], effects := [] } t).self.hp =
      get_hp c - a ∧
    (deal_damage g v c source bp { damage_units := [du], effects := [] } t).self.pain =
      c.pain + Int.tdiv a 4 ∧
    (deal_damage g v c source bp { damage_units := [du], effects := [] } t).dealt.total_damage =
      a := by
  obtain ⟨s, hs, hd⟩ := deal_damage_live g v c source bp { damage_units := [du], effects := [] }
    t hlive
  rw [habs] at hs
  have hh : deal_damage_handle_type g v (absorb_hit v c bp { damage_units := [du], effects := [] }).1
      du bp 0 0 t =
      (mod_moves (absorb_hit v c bp { damage_units := [du], effects := [] }).1
        (-(rng 0 ((0 + a) * 2) t).1), 0 + a, 0 + Int.tdiv a 4, (rng 0 ((0 + a) * 2) t).2) := by
    unfold deal_damage_handle_type
    rw [htype, himm, hamount, hmult, double_of_int_mul_one]
    rfl
  have hq : 0 ≤ Int.tdiv a 4 := Int.tdiv_nonneg ha (by decide)
  simp only [deal_damage_units, hh] at hs
  rw [hd]
  have hnotag : (([] : List String).contains "NOGIB") = false := rfl
  simp only [hnotag, Bool.false_eq_true, if_false]
  by_cases hpos : 0 + a > 0
  · rw [if_pos hpos] at hs
    subst hs
    refine ⟨?_, ?_, ?_, ?_⟩
    · simp [apply_damage, mod_pain, mod_moves, absorb_hit, applied_damage,
        List.filterMap_append]
    · simp [apply_damage, mod_pain, mod_moves, absorb_hit, get_hp]
    · simp only [apply_damage, mod_pain, mod_moves, absorb_hit]
      rw [if_neg (by omega)]
      omega
    · simp [dealt_damage_instance.total_damage, all_damage_types, htype]
  · rw [if_neg hpos] at hs
    subst hs
    have ha0 : a = 0 := by omega
    subst ha0
    refine ⟨?_, ?_, ?_, ?_⟩
    · simp [apply_damage, mod_pain, mod_moves, absorb_hit, applied_damage,
        List.filterMap_append]
    · simp [apply_damage, mod_pain, mod_moves, absorb_hit, get_hp]
    · simp only [apply_damage, mod_pain, mod_moves, absorb_hit]
      rw [if_neg (by omega)]
      omega
    · simp [dealt_damage_instance.total_damage, all_damage_types]

/-- Witness of `deal_damage_dead_state`: a bash of 12 on a creature without hit
points. -/
theorem deal_damage_dead_state_witness :
    plain_virtuals.is_dead_state corpse = true ∧
    (deal_damage demo_game plain_virtuals corpse none body_part.bp_torso bash_12 [3]).self =
      corpse ∧
    (deal_damage demo_game plain_virtuals corpse none body_part.bp_torso bash_12
      [3]).dealt.total_damage = 0 :=
  ⟨by decide,
    (deal_damage_dead_state demo_game plain_virtuals corpse none body_part.bp_torso bash_12 [3]
      (by decide)).1,
    (deal_damage_dead_state demo_game plain_virtuals corpse none body_part.bp_torso bash_12 [3]
      (by decide)).2.2.1⟩

/-- Witness of `deal_damage_nogib_cap`: a bash of 12 tagged NOGIB on a creature with
10 hit points. -/
theorem deal_damage_nogib_cap_witness :
    plain_virtuals.is_dead_state burning = false ∧
    bash_12_nogib.effects.contains "NOGIB" = true ∧
    (∃ n, applied_damage (deal_damage demo_game plain_virtuals burning none body_part.bp_torso
          bash_12_nogib [3]).self.calls = applied_damage burning.calls ++ [n] ∧
      n ≤ get_hp burning + 1 ∧
      (deal_damage demo_game plain_virtuals burning none body_part.bp_torso bash_12_nogib
        [3]).self.hp = get_hp burning - n) ∧
    applied_damage (deal_damage demo_game plain_virtuals burning none body_part.bp_torso
      bash_12_nogib [3]).self.calls = [11] :=
  ⟨by decide, by decide,
    deal_damage_nogib_cap demo_game plain_virtuals burning none body_part.bp_torso bash_12_nogib
      [3] (by decide) (by decide),
    by decide⟩

/-- Witness of `deal_damage_single_bash`: 10 hit points and a bash of 12 give 12
points applied, 3 more pain and a dealt total of 12. -/
theorem deal_damage_single_bash_witness :
    applied_damage
        (deal_damage demo_game plain_virtuals burning none body_part.bp_torso
          { damage_units := [{ type := damage_type.DT_BASH, amount := double.of_int 12 }],
            effects := [] } [3]).self.calls =
      applied_damage burning.calls ++ [12] ∧
    (deal_damage demo_game plain_virtuals burning none body_part.bp_torso
        { damage_units := [{ type := damage_type.DT_BASH, amount := double.of_int 12 }],
          effects := [] } [3]).self.hp = get_hp burning - 12 ∧
    (deal_damage demo_game plain_virtuals burning none body_part.bp_torso
        { damage_units := [{ type := damage_type.DT_BASH, amount := double.of_int 12 }],
          effects := [] } [3]).self.pain = burning.pain + Int.tdiv 12 4 ∧
    (deal_damage demo_game plain_virtuals burning none body_part.bp_torso
        { damage_units := [{ type := damage_type.DT_BASH, amount := double.of_int 12 }],
          effects := [] } [3]).dealt.total_damage = 12 :=
  deal_damage_single_bash demo_game plain_virtuals burning none body_part.bp_torso
    { type := damage_type.DT_BASH, amount := double.of_int 12 } 12 [3]
    (by decide) (by decide) rfl rfl rfl rfl (by decide) (by decide)

/-- Witness of `deal_projectile_attack_total_miss`: a shot with `missed_by = 1.2`. -/
theorem deal_projectile_attack_total_miss_witness :
    wide_shot.missed_by ≥ 1 ∧
    (deal_projectile_attack demo_game plain_virtuals burning none wide_shot [3]).self = burning ∧
    (deal_projectile_attack demo_game plain_virtuals burning none wide_shot
      [3]).attack.missed_by = { num := 12, den := 10 } :=
  ⟨by decide,
    congrArg projectile_result.self
      (deal_projectile_attack_total_miss demo_game plain_virtuals burning none wide_shot [3]
        (by decide)),
    congrArg (fun r => r.attack.missed_by)
      (deal_projectile_attack_total_miss demo_game plain_virtuals burning none wide_shot [3]
        (by decide))⟩

/-! # Hostile-target selection -/

/-- C9, as amended: when the shooter sees the player within the distance at which
the friendly-fire checks trigger, the area of effect is positive, and the single
candidate is seen, lies within `[area, range + 1]` of the shooter (offset
distance), has a power rating that the hostile bonus makes positive, is not on
the shooter's own vehicle, and has the player within `area` of it, then
`auto_find_hostile_target` returns no target and a `boo_hoo` of 1. -/
theorem auto_find_player_in_blast (g : Game) (v : Virtuals) (c : Creature) (range area : Int)
    (m : critter)
    (htargets : find_targets g = [m])
    (hsees_u : v.sees g.u = true)
    (hnear : g.rl_dist v.pos g.u.pos < Int.tdiv ((range + area) * 3) 2 + 6)
    (harea : 0 < area)
    (hsees_m : v.sees m = true)
    (hfar : g.rl_dist v.pos m.pos + 1 ≤ range + 1)
    (hclose : area ≤ g.rl_dist v.pos m.pos + 1)
    (hrating : ¬ (m.power_rating + hostile_adj ≤ 0))
    (hveh : ∀ veh, c.fake = true → (g.veh_at v.pos).map Prod.fst = some veh →
      (g.veh_at m.pos).map Prod.fst ≠ some veh)
    (hblast : g.rl_dist g.u.pos m.pos ≤ area) :
    auto_find_hostile_target g v c range area = (none, 1) := by
  have harea_iff : (find_setup g v c range area).area_iff = true := by
    simp [find_setup, hnear, hsees_u, harea]
  have hin : ¬ ((find_setup g v c range area).in_veh ≠ none ∧
      (g.veh_at m.pos).map Prod.fst = (find_setup g v c range area).in_veh) := by
    rintro ⟨h1, h2⟩
    cases hv : (find_setup g v c range area).in_veh with
    | none => exact h1 hv
    | some veh =>
      rw [hv] at h2
      have hfake : c.fake = true := by
        by_contra hf
        simp [find_setup, hf] at hv
      have hat : (g.veh_at v.pos).map Prod.fst = some veh := by
        simpa [find_setup, hfake] using hv
      exact hveh veh hfake hat h2
  have hdist : ¬ (g.rl_dist v.pos m.pos + 1 > range + 1 ∨ g.rl_dist v.pos m.pos + 1 < area) := by
    omega
  unfold auto_find_hostile_target
  rw [htargets]
  simp only [List.foldl_cons, List.foldl_nil]
  unfold find_consider
  simp only [hsees_m, Bool.not_true, Bool.false_eq_true, if_false, hdist, hrating, hin,
    harea_iff, hblast, and_self, if_true]
  rfl

/-- Witness of `auto_find_player_in_blast`: a turret at the origin, range 10 and
area 2, one hostile monster 3 tiles away with the player next to it. -/
theorem auto_find_player_in_blast_witness :
    find_targets demo_field = [lone_zombie] ∧
    sharp_turret.sees demo_field.u = true ∧
    demo_field.rl_dist demo_field.u.pos lone_zombie.pos ≤ 2 ∧
    auto_find_hostile_target demo_field sharp_turret {} 10 2 = (none, 1) :=
  ⟨by decide, by decide, by decide,
    auto_find_player_in_blast demo_field sharp_turret {} 10 2 lone_zombie (by decide)
      (by decide) (by decide) (by decide) (by decide) (by decide) (by decide) (by decide)
      (fun _ h => by simp at h) (by decide)⟩

/-- C9 as stated fails when the shooter does not see the player: with the only
candidate hostile and the player one tile from it, inside the area of effect,
the candidate is returned as the target and `boo_hoo` is 0. -/
theorem auto_find_player_in_blast_counterexample :
    find_targets demo_field = [lone_zombie] ∧
    lone_zombie.attitude_to_u = Attitude.A_HOSTILE ∧
    demo_field.rl_dist demo_field.u.pos lone_zombie.pos ≤ 2 ∧
    blind_turret.sees demo_field.u = false ∧
    auto_find_hostile_target demo_field blind_turret {} 10 2 = (some lone_zombie, 0) ∧
    auto_find_hostile_target demo_field blind_turret {} 10 2 ≠ (none, 1) := by
  decide

/-! # The representation invariant is preserved -/

section assoc_set
variable {K V : Type} [DecidableEq K]

theorem map_set_nodup (m : List (K × V)) (k : K) (v : V) (hn : (m.map Prod.fst).Nodup) :
    ((map_set m k v).map Prod.fst).Nodup := by
  induction m with
  | nil => simp [map_set]
  | cons q rest ih =>
    obtain ⟨k1, v1⟩ := q
    simp only [List.map_cons, List.nodup_cons] at hn
    by_cases h1 : k1 = k
    · simp only [map_set, h1, if_true, List.map_cons, List.nodup_cons]
      rw [← h1]
      exact hn
    · simp only [map_set, h1, if_false, List.map_cons, List.nodup_cons]
      refine ⟨?_, ih hn.2⟩
      intro hmem
      obtain ⟨p, hp, hpk⟩ := List.mem_map.mp hmem
      rcases mem_map_set rest k v p hp with h2 | h2
      · rw [h2] at hpk
        exact h1 hpk.symm
      · exact hn.1 (List.mem_map.mpr ⟨p, h2, hpk⟩)

theorem mem_map_set_nodup (m : List (K × V)) (k : K) (v : V) (p : K × V)
    (hn : (m.map Prod.fst).Nodup) (h : p ∈ map_set m k v) :
    p = (k, v) ∨ (p ∈ m ∧ p.1 ≠ k) := by
  induction m with
  | nil => left; simpa [map_set] using h
  | cons q rest ih =>
    obtain ⟨k1, v1⟩ := q
    simp only [List.map_cons, List.nodup_cons] at hn
    by_cases h1 : k1 = k
    · simp only [map_set, h1, if_true, List.mem_cons] at h
      rcases h with h | h
      · exact Or.inl h
      · right
        refine ⟨List.mem_cons_of_mem _ h, ?_⟩
        intro hk
        apply hn.1
        rw [h1, ← hk]
        exact List.mem_map.mpr ⟨p, h, rfl⟩
    · simp only [map_set, h1, if_false, List.mem_cons] at h
      rcases h with h | h
      · right
        rw [h]
        exact ⟨List.mem_cons_self _ _, h1⟩
      · rcases ih hn.2 h with h2 | h2
        · exact Or.inl h2
        · exact Or.inr ⟨List.mem_cons_of_mem _ h2.1, h2.2⟩

end assoc_set

/-- Replacing the inner map of one effect type by a well-keyed one keeps the effect
map well formed. -/
theorem well_formed_map_set (m : effects_map) (eff_id : efftype_id)
    (inner : List (body_part × effect)) (hwf : well_formed m)
    (hn : (inner.map Prod.fst).Nodup)
    (hk : ∀ q ∈ inner, q.2.get_id = eff_id ∧ q.2.bp = q.1) :
    well_formed (map_set m eff_id inner) := by
  refine ⟨map_set_nodup m eff_id inner hwf.1, ?_⟩
  intro p hp
  rcases mem_map_set_nodup m eff_id inner p hwf.1 hp with h | h
  · rw [h]
    exact ⟨hn, hk⟩
  · exact hwf.2 p h.1

theorem effects_at_well_formed (m : effects_map) (eff_id : efftype_id) (hwf : well_formed m) :
    ((effects_at m eff_id).map Prod.fst).Nodup ∧
      ∀ q ∈ effects_at m eff_id, q.2.get_id = eff_id ∧ q.2.bp = q.1 := by
  unfold effects_at
  cases hf : map_find m eff_id with
  | none => simp
  | some inner0 => exact hwf.2 (eff_id, inner0) (map_find_mem _ _ _ hf)

/-- The assignment `effects[eff_id][bp] = e` of an instance of type `eff_id` anchored
to `bp` keeps the effect map well formed. -/
theorem well_formed_assign (m : effects_map) (eff_id : efftype_id) (bp : body_part)
    (e : effect) (hwf : well_formed m) (hid : e.get_id = eff_id) (hbp : e.bp = bp) :
    well_formed (effects_assign m eff_id bp e) := by
  have h0 := effects_at_well_formed m eff_id hwf
  unfold effects_assign
  apply well_formed_map_set m eff_id _ hwf (map_set_nodup _ bp e h0.1)
  intro q hq
  rcases mem_map_set_nodup _ bp e q h0.1 hq with h | h
  · rw [h]
    exact ⟨hid, hbp⟩
  · exact h0.2 q h.1

theorem bound_intensity_bp (e : effect) : (bound_intensity e).bp = e.bp := by
  unfold bound_intensity
  split_ifs <;> rfl

theorem bound_duration_bp (e : effect) : (bound_duration e).bp = e.bp := by
  unfold bound_duration
  split_ifs <;> rfl

theorem merge_effect_bp (e : effect) (dur intensity : Int) :
    (merge_effect e dur intensity).bp = e.bp := by
  have hp : ∀ x : effect, (if x.is_permanent then x.pause_effect else x).bp = x.bp := by
    intro x; split_ifs <;> rfl
  have hi : ∀ x : effect,
      (if intensity > 0 then x.set_intensity intensity
        else if x.get_int_add_val ≠ 0 then x.mod_intensity x.get_int_add_val else x).bp =
        x.bp := by
    intro x; split_ifs <;> rfl
  unfold merge_effect
  simp only []
  rw [bound_intensity_bp, hi, hp, bound_duration_bp]
  rfl

theorem new_effect_bp (g : Game) (type : effect_type) (dur : Int) (bp : body_part)
    (permanent : Bool) (intensity : Int) :
    (new_effect g type dur bp permanent intensity).bp = bp := by
  unfold new_effect
  simp only [bound_intensity_bp]
  split_ifs
  · simp only [effect.set_intensity, bound_duration_bp]
  · simp only [bound_duration_bp]

/-- The effect map stays well formed under `add_effect`, when the registry files
every effect type under its own identifier. -/
theorem add_effect_well_formed (g : Game) (v : Virtuals) (c : Creature) (eff_id : efftype_id)
    (dur : Int) (bp : body_part) (permanent : Bool) (intensity : Int) (force : Bool)
    (hreg : ∀ id type, g.effect_types id = some type → type.id = id)
    (hwf : well_formed c.effects) :
    well_formed (add_effect g v c eff_id dur bp permanent intensity force).effects := by
  by_cases h1 : (!force && v.is_immune_effect eff_id) = true
  · simpa [add_effect, h1] using hwf
  · have himm : force = true ∨ v.is_immune_effect eff_id = false := by
      cases force <;> simp_all
    cases htype : g.effect_types eff_id with
    | none => simpa [add_effect, h1, htype] using hwf
    | some type =>
      cases hfound : get_effect c eff_id (target_part g type bp) with
      | some e =>
        rw [add_effect_found g v c eff_id dur bp permanent intensity force type e htype himm
          hfound]
        have hmem : ∃ inner, (eff_id, inner) ∈ c.effects ∧ (target_part g type bp, e) ∈ inner := by
          unfold get_effect at hfound
          cases hf : map_find c.effects eff_id with
          | none => simp [hf] at hfound
          | some inner =>
            simp only [hf] at hfound
            exact ⟨inner, map_find_mem _ _ _ hf, map_find_mem _ _ _ hfound⟩
        obtain ⟨inner, hi1, hi2⟩ := hmem
        have hk := (hwf.2 (eff_id, inner) hi1).2 (target_part g type bp, e) hi2
        apply well_formed_assign _ _ _ _ hwf
        · simp only [effect.get_id, merge_effect_type]
          exact hk.1
        · rw [merge_effect_bp]
          exact hk.2
      | none =>
        by_cases hb : is_blocked c.effects eff_id = true
        · simpa [add_effect, h1, htype, hfound, hb] using hwf
        · rw [add_effect_fresh g v c eff_id dur bp permanent intensity force type htype himm
            hfound (by simpa using hb)]
          apply well_formed_assign _ _ _ _ hwf
          · simp only [effect.get_id, new_effect_type]
            exact hreg eff_id type htype
          · exact new_effect_bp _ _ _ _ _ _

/-- The effect map stays well formed under `remove_effect`. -/
theorem remove_effect_well_formed (c : Creature) (eff_id : efftype_id) (bp : body_part)
    (hwf : well_formed c.effects) : well_formed (remove_effect c eff_id bp).2.effects := by
  rcases remove_effect_effects c eff_id bp with ⟨h1, _⟩ | h1 | ⟨inner0, hf, _, h1⟩
  · rw [h1]; exact hwf
  · rw [h1]
    exact ⟨map_erase_nodup _ _ hwf.1, fun p hp => hwf.2 p ((mem_map_erase _ _ _).mp hp).1⟩
  · rw [h1]
    have h0 := hwf.2 (eff_id, inner0) (map_find_mem _ _ _ hf)
    apply well_formed_map_set _ _ _ hwf (map_erase_nodup _ _ h0.1)
    intro q hq
    exact h0.2 q ((mem_map_erase _ _ _).mp hq).1

theorem remove_all_well_formed (l : List (efftype_id × body_part)) :
    ∀ c : Creature, well_formed c.effects → well_formed (remove_all c l).effects := by
  induction l with
  | nil => intro c h; exact h
  | cons x rest ih =>
    intro c h
    exact ih _ (remove_effect_well_formed c x.1 x.2 h)

/-- The effect map stays well formed under `process_effects`. -/
theorem process_effects_well_formed (g : Game) (v : Virtuals) (c : Creature)
    (hwf : well_formed c.effects) : well_formed (process_effects g v c).effects := by
  rw [process_effects_eq]
  apply remove_all_well_formed
  refine ⟨by rw [decayed_map_keys]; exact hwf.1, ?_⟩
  intro p hp
  obtain ⟨inner, h0, hmap⟩ := mem_decayed_map _ _ _ p.1 p.2 hp
  have hw := hwf.2 (p.1, inner) h0
  rw [hmap]
  constructor
  · simpa [List.map_map, Function.comp_def] using hw.1
  · intro q hq
    obtain ⟨q0, hq0, he⟩ := List.mem_map.mp hq
    have hk := hw.2 q0 hq0
    have hd := decayed_id_bp g.turn v.is_player q0.2
    rw [← he]
    exact ⟨hd.1.trans hk.1, hd.2.1.trans hk.2⟩

/-- The empty effect map, and so the one `clear_effects` leaves, is well formed. -/
theorem clear_effects_well_formed (c : Creature) : well_formed (clear_effects c).effects := by
  simp [clear_effects, well_formed]

/-! # Lookup, removal and application of effects -/

theorem map_find_erase_empty {K V : Type} [DecidableEq K] (m : List (K × V)) (k k1 : K)
    (he : map_erase m k = []) (hne : k1 ≠ k) : map_find m k1 = none := by
  rw [← map_find_erase_ne m k k1 hne, he]
  rfl

theorem remove_effect_flag (c : Creature) (eff_id : efftype_id) (bp : body_part) :
    (remove_effect c eff_id bp).1 = has_effect c eff_id bp := by
  unfold remove_effect
  cases hh : has_effect c eff_id bp with
  | false => simp
  | true =>
    by_cases hb : bp = body_part.num_bp
    · simp [hb]
    · simp [hb]

/-- C12: when `remove_effect(eff_id, bp)` returns true, then for the wildcard
`num_bp` no instance of the type is left on any body part; for a specific body
part the instance at `(eff_id, bp)` is gone and every other body part of the
type holds what it held; and the map of every other effect type is unchanged. -/
theorem remove_effect_erases (c : Creature) (eff_id : efftype_id) (bp : body_part)
    (hret : (remove_effect c eff_id bp).1 = true) :
    (bp = body_part.num_bp → ∀ bp1, get_effect (remove_effect c eff_id bp).2 eff_id bp1 = none) ∧
    (bp ≠ body_part.num_bp →
      get_effect (remove_effect c eff_id bp).2 eff_id bp = none ∧
      ∀ bp1, bp1 ≠ bp →
        get_effect (remove_effect c eff_id bp).2 eff_id bp1 = get_effect c eff_id bp1) ∧
    (∀ id1, id1 ≠ eff_id →
      map_find (remove_effect c eff_id bp).2.effects id1 = map_find c.effects id1) := by
  have hh : has_effect c eff_id bp = true := by
    rw [← remove_effect_flag]; exact hret
  by_cases hb : bp = body_part.num_bp
  · subst hb
    have hr : remove_effect c eff_id body_part.num_bp =
        (true, { c with effects := map_erase c.effects eff_id }) := by
      simp [remove_effect, hh]
    rw [hr]
    refine ⟨fun _ bp1 => ?_, fun h => absurd rfl h, fun id1 hne => ?_⟩
    · simp [get_effect, map_find_erase_self]
    · exact map_find_erase_ne _ _ _ hne
  · cases hf : map_find c.effects eff_id with
    | none => simp [has_effect, hb, hf] at hh
    | some inner0 =>
      by_cases he : (map_erase inner0 bp).isEmpty = true
      · have hr : remove_effect c eff_id bp =
            (true, { c with effects := map_erase c.effects eff_id }) := by
          simp only [remove_effect, hh, hb, effects_at, map_find_set_self, hf]
          simp [he, map_erase_set_self]
        rw [hr]
        refine ⟨fun h => absurd h hb, fun _ => ⟨?_, fun bp1 hne => ?_⟩, fun id1 hne => ?_⟩
        · simp [get_effect, map_find_erase_self]
        · have hemp : map_erase inner0 bp = [] := by simpa using he
          simp [get_effect, map_find_erase_self, hf, map_find_erase_empty inner0 bp bp1 hemp hne]
        · exact map_find_erase_ne _ _ _ hne
      · have hr : remove_effect c eff_id bp =
            (true, { c with effects := (map_set c.effects eff_id (map_erase inner0 bp)) }) := by
          simp only [remove_effect, hh, hb, effects_at, map_find_set_self, hf]
          simp [he]
        rw [hr]
        refine ⟨fun h => absurd h hb, fun _ => ⟨?_, fun bp1 hne => ?_⟩, fun id1 hne => ?_⟩
        · simp [get_effect, map_find_set_self, map_find_erase_self]
        · simp [get_effect, map_find_set_self, hf, map_find_erase_ne inner0 bp bp1 hne]
        · exact map_find_set_ne _ _ _ _ hne

theorem is_blocked_iff (m : effects_map) (eff_id : efftype_id) :
    is_blocked m eff_id = true ↔
      ∃ p ∈ m, ∃ q ∈ p.2, eff_id ∈ q.2.get_blocks_effects := by
  unfold is_blocked
  simp only [List.any_eq_true, beq_iff_eq]
  constructor
  · rintro ⟨p, hp, q, hq, b, hb, hbe⟩
    exact ⟨p, hp, q, hq, by rw [← hbe]; exact hb⟩
  · rintro ⟨p, hp, q, hq, hb⟩
    exact ⟨p, hp, q, hq, eff_id, hb, rfl⟩

theorem add_effect_invalid (g : Game) (v : Virtuals) (c : Creature) (eff_id : efftype_id)
    (dur : Int) (bp : body_part) (permanent : Bool) (intensity : Int) (force : Bool)
    (h : g.effect_types eff_id = none) :
    add_effect g v c eff_id dur bp permanent intensity force = c := by
  by_cases h1 : (!force && v.is_immune_effect eff_id) = true
  · simp [add_effect, h1]
  · simp [add_effect, h1, h]

theorem add_effect_immune (g : Game) (v : Virtuals) (c : Creature) (eff_id : efftype_id)
    (dur : Int) (bp : body_part) (permanent : Bool) (intensity : Int)
    (h : v.is_immune_effect eff_id = true) :
    add_effect g v c eff_id dur bp permanent intensity false = c := by
  simp [add_effect, h]

theorem add_effect_blocked (g : Game) (v : Virtuals) (c : Creature) (eff_id : efftype_id)
    (dur : Int) (bp : body_part) (permanent : Bool) (intensity : Int) (force : Bool)
    (hnone : ∀ type, g.effect_types eff_id = some type →
      get_effect c eff_id (target_part g type bp) = none)
    (hb : is_blocked c.effects eff_id = true) :
    add_effect g v c eff_id dur bp permanent intensity force = c := by
  by_cases h1 : (!force && v.is_immune_effect eff_id) = true
  · simp [add_effect, h1]
  · cases htype : g.effect_types eff_id with
    | none => simp [add_effect, h1, htype]
    | some type => simp [add_effect, h1, htype, hnone type htype, hb]

/-- The instance `add_effect` leaves at the key it works on, when it is not
rejected and the type is present there or not blocked. -/
theorem add_effect_applied (g : Game) (v : Virtuals) (c : Creature) (eff_id : efftype_id)
    (dur : Int) (bp : body_part) (permanent : Bool) (intensity : Int) (force : Bool)
    (type : effect_type)
    (htype : g.effect_types eff_id = some type)
    (himm : force = true ∨ v.is_immune_effect eff_id = false)
    (hnew : get_effect c eff_id (target_part g type bp) = none →
      is_blocked c.effects eff_id = false) :
    ∃ e, get_effect (add_effect g v c eff_id dur bp permanent intensity force) eff_id
        (target_part g type bp) = some e := by
  cases hfound : get_effect c eff_id (target_part g type bp) with
  | some e0 =>
    rw [add_effect_found g v c eff_id dur bp permanent intensity force type e0 htype himm hfound]
    exact ⟨_, get_effect_assign _ c.effects _ _ _ rfl⟩
  | none =>
    rw [add_effect_fresh g v c eff_id dur bp permanent intensity force type htype himm hfound
      (hnew hfound)]
    exact ⟨_, get_effect_assign _ c.effects _ _ _ rfl⟩

/-- C13: `add_effect` returns the creature as it was for an invalid effect type,
whatever `force` is, and for a creature innately immune to the type when `force`
is false; with `force` true the call does what it does for a creature without
the immunity, and leaves an instance at its key whenever the type is valid and
is present there or not blocked. -/
theorem add_effect_rejections (g : Game) (v : Virtuals) (c : Creature) (eff_id : efftype_id)
    (dur : Int) (bp : body_part) (permanent : Bool) (intensity : Int) (force : Bool) :
    (g.effect_types eff_id = none →
      add_effect g v c eff_id dur bp permanent intensity force = c) ∧
    (v.is_immune_effect eff_id = true →
      add_effect g v c eff_id dur bp permanent intensity false = c) ∧
    add_effect g v c eff_id dur bp permanent intensity true =
      add_effect g { v with is_immune_effect := fun _ => false } c eff_id dur bp permanent
        intensity true ∧
    (∀ type, g.effect_types eff_id = some type →
      (get_effect c eff_id (target_part g type bp) = none →
        is_blocked c.effects eff_id = false) →
      ∃ e, get_effect (add_effect g v c eff_id dur bp permanent intensity true) eff_id
        (target_part g type bp) = some e) := by
  refine ⟨add_effect_invalid g v c eff_id dur bp permanent intensity force,
    add_effect_immune g v c eff_id dur bp permanent intensity, ?_, ?_⟩
  · simp [add_effect, resists_effect]
  · intro type htype hnew
    exact add_effect_applied g v c eff_id dur bp permanent intensity true type htype
      (Or.inl rfl) hnew

/-- C14: with no instance at the key `(eff_id, bp1)` the call works on (`bp1` is
the body part passed, taken to its main part for types restricted to main
parts): if some active effect instance, of any type and on any body part, lists
the type in its blocks list, `add_effect` returns the creature as it was; if none
does, and the type is valid and the creature is not rejected for immunity, an
instance is at `(eff_id, bp1)` afterwards. -/
theorem add_effect_block_check (g : Game) (v : Virtuals) (c : Creature) (eff_id : efftype_id)
    (dur : Int) (bp : body_part) (permanent : Bool) (intensity : Int) (force : Bool) :
    ((∀ type, g.effect_types eff_id = some type →
        get_effect c eff_id (target_part g type bp) = none) →
      (∃ p ∈ c.effects, ∃ q ∈ p.2, eff_id ∈ q.2.get_blocks_effects) →
      add_effect g v c eff_id dur bp permanent intensity force = c) ∧
    (∀ type, g.effect_types eff_id = some type →
      get_effect c eff_id (target_part g type bp) = none →
      (¬ ∃ p ∈ c.effects, ∃ q ∈ p.2, eff_id ∈ q.2.get_blocks_effects) →
      (force = true ∨ v.is_immune_effect eff_id = false) →
      ∃ e, get_effect (add_effect g v c eff_id dur bp permanent intensity force) eff_id
        (target_part g type bp) = some e) := by
  constructor
  · intro hnone hb
    exact add_effect_blocked g v c eff_id dur bp permanent intensity force hnone
      ((is_blocked_iff _ _).mpr hb)
  · intro type htype _ hnb himm
    apply add_effect_applied g v c eff_id dur bp permanent intensity force type htype himm
    intro _
    cases hb : is_blocked c.effects eff_id with
    | false => rfl
    | true => exact absurd ((is_blocked_iff _ _).mp hb) hnb

/-- Witness of `add_effect_block_check`: "ache" requested for the eyes is refused
while "numb" is active, and lands on the head of a fresh creature. -/
theorem add_effect_block_check_witness :
    add_effect ward_game plain_virtuals numbed "ache" 10 body_part.bp_eyes false 0 false =
      numbed ∧
    ∃ e, get_effect (add_effect ward_game plain_virtuals {} "ache" 10 body_part.bp_eyes false 0
        false) "ache" (target_part ward_game ache_type body_part.bp_eyes) = some e :=
  ⟨(add_effect_block_check ward_game plain_virtuals numbed "ache" 10 body_part.bp_eyes false 0
      false).1
      (fun type h => by
        have h2 : type = ache_type := by
          have h3 : ward_game.effect_types "ache" = some ache_type := by decide
          rw [h3] at h
          exact (Option.some.inj h).symm
        subst h2
        decide)
      ⟨("numb", [(body_part.num_bp, numb_whole)]), by decide,
        (body_part.num_bp, numb_whole), by decide, by decide⟩,
    (add_effect_block_check ward_game plain_virtuals {} "ache" 10 body_part.bp_eyes false 0
      false).2 ache_type (by decide) (by decide)
      (by rintro ⟨p, hp, _⟩; exact List.not_mem_nil p hp) (by decide)⟩

/-- The bound of the intensity in `add_effect`, as a function of the value. -/
theorem bound_intensity_value (e : effect) :
    (bound_intensity e).get_intensity =
      if e.get_intensity < 1 then 1
      else if e.get_max_intensity < e.get_intensity then e.get_max_intensity
      else e.get_intensity := by
  unfold bound_intensity
  simp only [gt_iff_lt]
  split_ifs <;> rfl

/-- C15: the instance `add_effect` creates holds the requested duration, lowered
to the maximal duration of the type when that is positive and exceeded; and for
a type with a non-zero intensity-duration factor `f` its intensity is
`stored duration / f + 1` bounded by `[1, max intensity]` (below 1 gives 1, else
above the maximum gives the maximum), whatever the intensity argument is. -/
theorem add_effect_new_instance (g : Game) (v : Virtuals) (c : Creature) (eff_id : efftype_id)
    (dur : Int) (bp : body_part) (permanent : Bool) (intensity : Int) (force : Bool)
    (type : effect_type)
    (htype : g.effect_types eff_id = some type)
    (himm : force = true ∨ v.is_immune_effect eff_id = false)
    (hnone : get_effect c eff_id (target_part g type bp) = none)
    (hblock : is_blocked c.effects eff_id = false) :
    ∃ e, get_effect (add_effect g v c eff_id dur bp permanent intensity force) eff_id
        (target_part g type bp) = some e ∧
      e.get_duration =
        (if 0 < type.max_duration ∧ type.max_duration < dur then type.max_duration else dur) ∧
      (type.int_dur_factor ≠ 0 →
        e.get_intensity =
          (if Int.tdiv e.get_duration type.int_dur_factor + 1 < 1 then 1
           else if type.max_intensity < Int.tdiv e.get_duration type.int_dur_factor + 1 then
             type.max_intensity
           else Int.tdiv e.get_duration type.int_dur_factor + 1) ∧
        (1 ≤ type.max_intensity →
          e.get_intensity =
            Max.max 1 (Min.min (Int.tdiv e.get_duration type.int_dur_factor + 1)
              type.max_intensity))) := by
  rw [add_effect_fresh g v c eff_id dur bp permanent intensity force type htype himm hnone hblock]
  refine ⟨_, get_effect_assign _ c.effects _ _ _ rfl, ?_, ?_⟩
  · unfold new_effect
    simp only [effect.get_duration, bound_intensity_duration]
    have hd : ∀ x : effect, (if x.get_int_dur_factor ≠ 0 then
        x.set_intensity (Int.tdiv x.duration x.get_int_dur_factor + 1) else x).duration =
        x.duration := by
      intro x; split_ifs <;> rfl
    rw [hd, bound_duration_duration]
    rfl
  · intro hf
    have hval : (new_effect g type dur (target_part g type bp) permanent intensity).get_intensity =
        (if Int.tdiv (new_effect g type dur (target_part g type bp) permanent
            intensity).get_duration type.int_dur_factor + 1 < 1 then 1
         else if type.max_intensity < Int.tdiv (new_effect g type dur (target_part g type bp)
            permanent intensity).get_duration type.int_dur_factor + 1 then type.max_intensity
         else Int.tdiv (new_effect g type dur (target_part g type bp) permanent
            intensity).get_duration type.int_dur_factor + 1) := by
      unfold new_effect
      simp only [effect.get_duration, bound_intensity_duration]
      rw [bound_intensity_value]
      have hf2 : (bound_duration
          { eff_type := type, duration := dur, bp := target_part g type bp,
            permanent := permanent, intensity := intensity,
            start_turn := g.turn }).get_int_dur_factor ≠ 0 := by
        simp only [effect.get_int_dur_factor, bound_duration_type]
        exact hf
      rw [if_pos hf2]
      simp only [effect.get_intensity, effect.set_intensity, effect.get_max_intensity,
        effect.get_int_dur_factor, bound_duration_type, effect.get_duration]
    refine ⟨hval, fun hmax => ?_⟩
    rw [hval]
    split_ifs with h1 h2
    · omega
    · omega
    · omega

/-- C16, as amended: `add_env_effect` returns true exactly when the creature is not
rejected for immunity and the strength roll beats the resistance roll; it has
then called `add_effect` with `force` set (which applies nothing for an invalid
or a blocked type); when it returns false the creature, and so the effect map,
is unchanged. -/
theorem add_env_effect_result (g : Game) (v : Virtuals) (c : Creature) (eff_id : efftype_id)
    (vector : body_part) (strength dur : Int) (bp : body_part) (permanent : Bool)
    (intensity : Int) (force : Bool) (t : rng_tape) :
    ((add_env_effect g v c eff_id vector strength dur bp permanent intensity force t).1 = true ↔
      (force = true ∨ v.is_immune_effect eff_id = false) ∧
        (dice strength.toNat 3 t).1 >
          (dice (v.get_env_resist vector).toNat 3 (dice strength.toNat 3 t).2).1) ∧
    ((add_env_effect g v c eff_id vector strength dur bp permanent intensity force t).1 = true →
      (add_env_effect g v c eff_id vector strength dur bp permanent intensity force t).2.1 =
        add_effect g v c eff_id dur bp permanent intensity true) ∧
    ((add_env_effect g v c eff_id vector strength dur bp permanent intensity force t).1 = false →
      (add_env_effect g v c eff_id vector strength dur bp permanent intensity force t).2.1 =
        c) := by
  unfold add_env_effect
  by_cases h1 : (!force && v.is_immune_effect eff_id) = true
  · have hno : ¬ (force = true ∨ v.is_immune_effect eff_id = false) := by
      cases force <;> simp_all
    simp [h1, hno]
  · have hyes : force = true ∨ v.is_immune_effect eff_id = false := by
      cases force <;> simp_all
    simp only [h1, if_false]
    by_cases h2 : (dice strength.toNat 3 t).1 >
        (dice (v.get_env_resist vector).toNat 3 (dice strength.toNat 3 t).2).1
    · simp [h2, hyes]
    · simp [h2]

/-- Witness of `add_env_effect_result`: an exposure of strength 1 against no
resistance puts "chill" on a creature. -/
theorem add_env_effect_result_witness :
    (add_env_effect ward_game plain_virtuals numbed "chill" body_part.bp_head 1 10
      body_part.bp_head false 1 false [0]).1 = true ∧
    (add_env_effect ward_game plain_virtuals numbed "chill" body_part.bp_head 1 10
      body_part.bp_head false 1 false [0]).2.1 =
      add_effect ward_game plain_virtuals numbed "chill" 10 body_part.bp_head false 1 true ∧
    ((add_env_effect ward_game immune_virtuals numbed "chill" body_part.bp_head 1 10
      body_part.bp_head false 1 false [0]).1 = false →
      (add_env_effect ward_game immune_virtuals numbed "chill" body_part.bp_head 1 10
        body_part.bp_head false 1 false [0]).2.1 = numbed) :=
  ⟨by decide,
    (add_env_effect_result ward_game plain_virtuals numbed "chill" body_part.bp_head 1 10
      body_part.bp_head false 1 false [0]).2.1 (by decide),
    (add_env_effect_result ward_game immune_virtuals numbed "chill" body_part.bp_head 1 10
      body_part.bp_head false 1 false [0]).2.2⟩

/-- C16 as stated fails when the roll succeeds and `add_effect` then refuses the
effect: on a creature under "numb", which blocks "ache", an exposure to "ache"
of strength 1 against no resistance returns true although no instance is
created or updated and the effect map is as before. -/
theorem add_env_effect_result_counterexample :
    (add_env_effect ward_game plain_virtuals numbed "ache" body_part.bp_head 1 10
      body_part.bp_head false 1 false [0]).1 = true ∧
    (add_env_effect ward_game plain_virtuals numbed "ache" body_part.bp_head 1 10
      body_part.bp_head false 1 false [0]).2.1.effects = numbed.effects ∧
    has_effect
      (add_env_effect ward_game plain_virtuals numbed "ache" body_part.bp_head 1 10
        body_part.bp_head false 1 false [0]).2.1 "ache" body_part.num_bp = false := by
  decide

theorem map_set_ne_nil {K V : Type} [DecidableEq K] (m : List (K × V)) (k : K) (v : V) :
    map_set m k v ≠ [] := by
  cases m with
  | nil => simp [map_set]
  | cons q rest =>
    obtain ⟨k1, v1⟩ := q
    by_cases h : k1 = k <;> simp [map_set, h]

theorem tidy_map_set (m : effects_map) (eff_id : efftype_id)
    (inner : List (body_part × effect)) (ht : tidy m)
    (hn : (inner.map Prod.fst).Nodup) (hne : inner ≠ []) :
    tidy (map_set m eff_id inner) := by
  refine ⟨map_set_nodup m eff_id inner ht.1, ?_⟩
  intro p hp
  rcases mem_map_set_nodup m eff_id inner p ht.1 hp with h | h
  · rw [h]
    exact ⟨hn, hne⟩
  · exact ht.2 p h.1

theorem tidy_assign (m : effects_map) (eff_id : efftype_id) (bp : body_part) (e : effect)
    (ht : tidy m) : tidy (effects_assign m eff_id bp e) := by
  unfold effects_assign
  apply tidy_map_set m eff_id _ ht _ (map_set_ne_nil _ _ _)
  apply map_set_nodup
  unfold effects_at
  cases hf : map_find m eff_id with
  | none => simp
  | some inner0 => exact (ht.2 (eff_id, inner0) (map_find_mem _ _ _ hf)).1

/-- The effect map after `add_effect`: the one before, or that one with an
assignment at the effect type. -/
theorem add_effect_effects (g : Game) (v : Virtuals) (c : Creature) (eff_id : efftype_id)
    (dur : Int) (bp : body_part) (permanent : Bool) (intensity : Int) (force : Bool) :
    (add_effect g v c eff_id dur bp permanent intensity force).effects = c.effects ∨
    ∃ bp1 e, (add_effect g v c eff_id dur bp permanent intensity force).effects =
      effects_assign c.effects eff_id bp1 e := by
  by_cases h1 : (!force && v.is_immune_effect eff_id) = true
  · left; simp [add_effect, h1]
  · have himm : force = true ∨ v.is_immune_effect eff_id = false := by
      cases force <;> simp_all
    cases htype : g.effect_types eff_id with
    | none => left; simp [add_effect, h1, htype]
    | some type =>
      cases hfound : get_effect c eff_id (target_part g type bp) with
      | some e =>
        right
        rw [add_effect_found g v c eff_id dur bp permanent intensity force type e htype himm
          hfound]
        exact ⟨_, _, rfl⟩
      | none =>
        by_cases hb : is_blocked c.effects eff_id = true
        · left; simp [add_effect, h1, htype, hfound, hb]
        · right
          rw [add_effect_fresh g v c eff_id dur bp permanent intensity force type htype himm
            hfound (by simpa using hb)]
          exact ⟨_, _, rfl⟩

theorem add_effect_tidy (g : Game) (v : Virtuals) (c : Creature) (eff_id : efftype_id)
    (dur : Int) (bp : body_part) (permanent : Bool) (intensity : Int) (force : Bool)
    (ht : tidy c.effects) :
    tidy (add_effect g v c eff_id dur bp permanent intensity force).effects := by
  rcases add_effect_effects g v c eff_id dur bp permanent intensity force with h | ⟨bp1, e, h⟩
  · rw [h]; exact ht
  · rw [h]; exact tidy_assign _ _ _ _ ht

theorem add_env_effect_tidy (g : Game) (v : Virtuals) (c : Creature) (eff_id : efftype_id)
    (vector : body_part) (strength dur : Int) (bp : body_part) (permanent : Bool)
    (intensity : Int) (force : Bool) (t : rng_tape) (ht : tidy c.effects) :
    tidy (add_env_effect g v c eff_id vector strength dur bp permanent intensity force
      t).2.1.effects := by
  by_cases h1 : (!force && v.is_immune_effect eff_id) = true
  · simpa [add_env_effect, h1] using ht
  · by_cases h2 : (dice strength.toNat 3 t).1 >
        (dice (v.get_env_resist vector).toNat 3 (dice strength.toNat 3 t).2).1
    · simp only [add_env_effect, h1, h2, if_true, if_false]
      exact add_effect_tidy g v c eff_id dur bp permanent intensity true ht
    · simp only [add_env_effect, h1, h2, if_false]
      exact ht

/-- The effect map after `remove_effect`, with the inner map that stays when the
type is not pruned. -/
theorem remove_effect_effects_kept (c : Creature) (eff_id : efftype_id) (bp : body_part) :
    (remove_effect c eff_id bp).2.effects = c.effects ∨
    (remove_effect c eff_id bp).2.effects = map_erase c.effects eff_id ∨
    (∃ inner0, map_find c.effects eff_id = some inner0 ∧ map_erase inner0 bp ≠ [] ∧
      (remove_effect c eff_id bp).2.effects = map_set c.effects eff_id (map_erase inner0 bp)) := by
  by_cases hh : has_effect c eff_id bp = true
  · by_cases hb : bp = body_part.num_bp
    · right; left
      subst hb
      simp [remove_effect, hh]
    · cases hf : map_find c.effects eff_id with
      | none => simp [has_effect, hb, hf] at hh
      | some inner0 =>
        by_cases he : (map_erase inner0 bp).isEmpty = true
        · right; left
          simp only [remove_effect, hh, hb, effects_at, map_find_set_self, hf]
          simp [he, map_erase_set_self]
        · right; right
          refine ⟨inner0, rfl, by simpa using he, ?_⟩
          simp only [remove_effect, hh, hb, effects_at, map_find_set_self, hf]
          simp [he]
  · left
    simp at hh
    simp [remove_effect, hh]

theorem remove_effect_tidy (c : Creature) (eff_id : efftype_id) (bp : body_part)
    (ht : tidy c.effects) : tidy (remove_effect c eff_id bp).2.effects := by
  rcases remove_effect_effects_kept c eff_id bp with h1 | h1 | ⟨inner0, hf, hne, h1⟩
  · rw [h1]; exact ht
  · rw [h1]
    exact ⟨map_erase_nodup _ _ ht.1, fun p hp => ht.2 p ((mem_map_erase _ _ _).mp hp).1⟩
  · rw [h1]
    have h0 := ht.2 (eff_id, inner0) (map_find_mem _ _ _ hf)
    exact tidy_map_set _ _ _ ht (map_erase_nodup _ _ h0.1) hne

theorem remove_all_tidy (l : List (efftype_id × body_part)) :
    ∀ c : Creature, tidy c.effects → tidy (remove_all c l).effects := by
  induction l with
  | nil => intro c h; exact h
  | cons x rest ih =>
    intro c h
    exact ih _ (remove_effect_tidy c x.1 x.2 h)

theorem process_effects_tidy (g : Game) (v : Virtuals) (c : Creature) (ht : tidy c.effects) :
    tidy (process_effects g v c).effects := by
  rw [process_effects_eq]
  apply remove_all_tidy
  refine ⟨by rw [decayed_map_keys]; exact ht.1, ?_⟩
  intro p hp
  obtain ⟨inner, h0, hmap⟩ := mem_decayed_map _ _ _ p.1 p.2 hp
  have hw := ht.2 (p.1, inner) h0
  rw [hmap]
  constructor
  · simpa [List.map_map, Function.comp_def] using hw.1
  · simpa using hw.2

/-- Every state the effect engine reaches from an empty effect map has a tidy
effect map. -/
theorem effect_reachable_tidy (g : Game) (c : Creature) (h : effect_reachable g c) :
    tidy c.effects := by
  induction h with
  | init c h0 => rw [h0]; simp [tidy]
  | step c c1 _ hs ih =>
    cases hs
    · exact add_effect_tidy g _ c _ _ _ _ _ _ ih
    · exact add_env_effect_tidy g _ c _ _ _ _ _ _ _ _ _ ih
    · exact remove_effect_tidy c _ _ ih
    · exact process_effects_tidy g _ c ih
    · simp [clear_effects, tidy]

/-- C11: in every state reached from an empty effect map by `add_effect`,
`add_env_effect`, `remove_effect`, `process_effects` and `clear_effects`,
`has_effect(eff_id, num_bp)` is true exactly when an instance of the type is
stored under some body part, and for a specific body part `has_effect(eff_id, bp)`
is true exactly when an instance is stored under the key `(eff_id, bp)`. -/
theorem has_effect_iff_instance (g : Game) (c : Creature) (eff_id : efftype_id)
    (bp : body_part) (hr : effect_reachable g c) :
    (has_effect c eff_id body_part.num_bp = true ↔
      ∃ bp1, holds_instance c.effects eff_id bp1) ∧
    (bp ≠ body_part.num_bp →
      (has_effect c eff_id bp = true ↔ holds_instance c.effects eff_id bp)) := by
  have ht := effect_reachable_tidy g c hr
  constructor
  · simp only [has_effect, if_true]
    constructor
    · intro h
      cases hf : map_find c.effects eff_id with
      | none => simp [hf] at h
      | some inner =>
        have hm := map_find_mem _ _ _ hf
        have hne := (ht.2 (eff_id, inner) hm).2
        cases hi : inner with
        | nil => exact absurd hi hne
        | cons q rest =>
          exact ⟨q.1, inner, q.2, hm, by rw [hi]; exact List.mem_cons_self _ _⟩
    · rintro ⟨bp1, inner, e, hm, _⟩
      rw [map_find_of_mem _ _ _ ht.1 hm]
      rfl
  · intro hb
    simp only [has_effect, hb, if_false]
    constructor
    · intro h
      cases hf : map_find c.effects eff_id with
      | none => simp [hf] at h
      | some inner =>
        simp only [hf] at h
        cases hf2 : map_find inner bp with
        | none => simp [hf2] at h
        | some e => exact ⟨inner, e, map_find_mem _ _ _ hf, map_find_mem _ _ _ hf2⟩
    · rintro ⟨inner, e, hm, hq⟩
      rw [map_find_of_mem _ _ _ ht.1 hm]
      simp only
      rw [map_find_of_mem _ _ _ (ht.2 (eff_id, inner) hm).1 hq]

/-- Witness of `has_effect_iff_instance`: a fresh creature after one `add_effect` of
"burn" on the head. -/
theorem has_effect_iff_instance_witness :
    effect_reachable demo_game
      (add_effect demo_game plain_virtuals {} "burn" 10 body_part.bp_head false 0 false) ∧
    has_effect (add_effect demo_game plain_virtuals {} "burn" 10 body_part.bp_head false 0 false)
      "burn" body_part.num_bp = true ∧
    (has_effect (add_effect demo_game plain_virtuals {} "burn" 10 body_part.bp_head false 0 false)
        "burn" body_part.bp_torso = true ↔
      holds_instance
        (add_effect demo_game plain_virtuals {} "burn" 10 body_part.bp_head false 0
          false).effects "burn" body_part.bp_torso) :=
  ⟨effect_reachable.step _ _ (effect_reachable.init {} rfl) (effect_step.add_effect _ _ _ _ _ _ _ _),
    by decide,
    (has_effect_iff_instance demo_game _ "burn" body_part.bp_torso
      (effect_reachable.step _ _ (effect_reachable.init {} rfl)
        (effect_step.add_effect plain_virtuals {} "burn" 10 body_part.bp_head false 0 false))).2
      (by decide)⟩

/-- Witness of `remove_effect_erases`: removing the permanent instance on the head
leaves the one on the torso. -/
theorem remove_effect_erases_witness :
    (remove_effect smouldering "burn" body_part.bp_head).1 = true ∧
    get_effect (remove_effect smouldering "burn" body_part.bp_head).2 "burn"
      body_part.bp_head = none ∧
    get_effect (remove_effect smouldering "burn" body_part.bp_head).2 "burn"
      body_part.bp_torso = some burn_last ∧
    (∀ bp1, get_effect (remove_effect smouldering "burn" body_part.num_bp).2 "burn" bp1 = none) :=
  ⟨by decide,
    ((remove_effect_erases smouldering "burn" body_part.bp_head (by decide)).2.1
      (by decide)).1,
    (((remove_effect_erases smouldering "burn" body_part.bp_head (by decide)).2.1
      (by decide)).2 body_part.bp_torso (by decide)).trans (by decide),
    (remove_effect_erases smouldering "burn" body_part.num_bp (by decide)).1 rfl⟩

/-- Witness of `add_effect_rejections`: an unknown type and an immune creature
leave the creature as it was; with `force` the immune creature gets the effect. -/
theorem add_effect_rejections_witness :
    add_effect demo_game plain_virtuals burning "unknown" 10 body_part.num_bp false 0 true =
      burning ∧
    add_effect demo_game immune_virtuals burning "burn" 10 body_part.num_bp false 0 false =
      burning ∧
    ∃ e, get_effect
        (add_effect demo_game immune_virtuals {} "burn" 10 body_part.bp_head false 0 true)
        "burn" (target_part demo_game burn_type body_part.bp_head) = some e :=
  ⟨(add_effect_rejections demo_game plain_virtuals burning "unknown" 10 body_part.num_bp false 0
      true).1 (by decide),
    (add_effect_rejections demo_game immune_virtuals burning "burn" 10 body_part.num_bp false 0
      false).2.1 (by decide),
    (add_effect_rejections demo_game immune_virtuals {} "burn" 10 body_part.bp_head false 0
      true).2.2.2 burn_type (by decide) (fun _ => by decide)⟩

/-- Witness of `add_effect_new_instance`: 30 turns of "chill" (at most 20 turns, one
intensity level per 5 turns, at most 3 levels) requested with intensity 1. -/
theorem add_effect_new_instance_witness :
    ∃ e, get_effect
        (add_effect ward_game plain_virtuals numbed "chill" 30 body_part.bp_head false 1 false)
        "chill" (target_part ward_game chill_type body_part.bp_head) = some e ∧
      e.get_duration =
        (if 0 < chill_type.max_duration ∧ chill_type.max_duration < 30 then
          chill_type.max_duration else 30) ∧
      (chill_type.int_dur_factor ≠ 0 →
        e.get_intensity =
          (if Int.tdiv e.get_duration chill_type.int_dur_factor + 1 < 1 then 1
           else if chill_type.max_intensity <
               Int.tdiv e.get_duration chill_type.int_dur_factor + 1 then
             chill_type.max_intensity
           else Int.tdiv e.get_duration chill_type.int_dur_factor + 1) ∧
        (1 ≤ chill_type.max_intensity →
          e.get_intensity =
            Max.max 1 (Min.min (Int.tdiv e.get_duration chill_type.int_dur_factor + 1)
              chill_type.max_intensity))) :=
  add_effect_new_instance ward_game plain_virtuals numbed "chill" 30 body_part.bp_head false 1
    false chill_type (by decide) (by decide) (by decide) (by decide)

/-! # Melee entry point, pain, killer and immunity to damage -/

/-- C17: `deal_melee_attack` returns the hit roll minus the dodge roll of the
defender, and calls the `on_dodge` hook (with the attacker and its melee skill)
exactly when that difference is at most 0 and the attacker is not a
hallucination; otherwise the defender is left as it was. -/
theorem deal_melee_attack_spread (v : Virtuals) (c : Creature) (source : creature_ref)
    (hitroll : Int) (t : rng_tape) :
    (deal_melee_attack v c source hitroll t).hit_spread = hitroll - (v.dodge_roll c t).1 ∧
    ((deal_melee_attack v c source hitroll t).self.calls =
        c.calls ++ [hook_call.on_dodge (some source.id) source.melee] ↔
      hitroll - (v.dodge_roll c t).1 ≤ 0 ∧ source.is_hallucination = false) ∧
    ((deal_melee_attack v c source hitroll t).self = c ↔
      ¬ (hitroll - (v.dodge_roll c t).1 ≤ 0 ∧ source.is_hallucination = false)) := by
  have hne : c.calls ++ [hook_call.on_dodge (some source.id) source.melee] ≠ c.calls := by
    intro h
    have := congrArg List.length h
    simp at this
  unfold deal_melee_attack
  refine ⟨rfl, ?_, ?_⟩
  · by_cases hc : hitroll - (v.dodge_roll c t).1 ≤ 0 ∧ source.is_hallucination = false
    · simp [hc, on_dodge]
    · have hc2 : ¬ (hitroll - (v.dodge_roll c t).1 ≤ 0 ∧ (!source.is_hallucination) = true) := by
        simpa using hc
      simp only [hc2, if_false, hc, iff_false]
      exact fun h => hne h.symm
  · by_cases hc : hitroll - (v.dodge_roll c t).1 ≤ 0 ∧ source.is_hallucination = false
    · have hc2 : hitroll - (v.dodge_roll c t).1 ≤ 0 ∧ (!source.is_hallucination) = true := by
        simpa using hc
      simp only [hc2, and_self, if_true, hc, not_true, iff_false]
      intro h
      exact hne (congrArg Creature.calls h)
    · have hc2 : ¬ (hitroll - (v.dodge_roll c t).1 ≤ 0 ∧ (!source.is_hallucination) = true) := by
        simpa using hc
      simp only [hc2, if_false, hc, not_false_eq_true]

/-- C18: `mod_pain(n)` leaves `pain = max(0, pain + n)`, and on a creature whose
pain is not negative the pain is not negative after `mod_pain`, after `mod_stat`
(with the key "pain" or any other) and after `deal_damage`. -/
theorem pain_never_negative (g : Game) (v : Virtuals) (c : Creature) (n : Int)
    (stat : String) (source : Option creature_id) (bp : body_part) (dam : damage_instance)
    (t : rng_tape) (hpain : 0 ≤ c.pain) :
    (mod_pain c n).pain = Max.max 0 (c.pain + n) ∧
    0 ≤ (mod_pain c n).pain ∧
    (mod_stat c "pain" n).pain = Max.max 0 (c.pain + n) ∧
    0 ≤ (mod_stat c stat n).pain ∧
    0 ≤ (deal_damage g v c source bp dam t).self.pain := by
  have hmod : ∀ (c1 : Creature) (k : Int), (mod_pain c1 k).pain = Max.max 0 (c1.pain + k) := by
    intro c1 k
    simp only [mod_pain]
    split_ifs with h
    · exact (max_eq_left (le_of_lt h)).symm
    · exact (max_eq_right (not_lt.mp h)).symm
  have hnn : ∀ (c1 : Creature) (k : Int), 0 ≤ (mod_pain c1 k).pain := by
    intro c1 k
    rw [hmod]
    exact le_max_left _ _
  refine ⟨hmod c n, hnn c n, ?_, ?_, ?_⟩
  · have hs : mod_stat c "pain" n = mod_pain c n := by
      simp [mod_stat]
    rw [hs, hmod]
  · unfold mod_stat
    split_ifs
    all_goals first
      | exact hpain
      | exact hnn c n
  · by_cases hdead : v.is_dead_state c = true
    · have hs : (deal_damage g v c source bp dam t).self = c := by
        unfold deal_damage
        rw [if_pos hdead]
      rw [hs]
      exact hpain
    · obtain ⟨s, _, hd⟩ := deal_damage_live g v c source bp dam t (by simpa using hdead)
      rw [hd]
      simp only [apply_damage]
      exact hnn _ _

theorem set_killer_kept (c : Creature) (k : Option creature_ref) (h : c.killer ≠ none) :
    set_killer c k = c := by
  unfold set_killer
  cases k with
  | none => rfl
  | some r =>
    have hn : c.killer.isNone = false := by
      cases hk : c.killer with
      | none => exact absurd hk h
      | some _ => rfl
    simp [hn]

theorem set_killers_kept (ks : List (Option creature_ref)) :
    ∀ c : Creature, c.killer ≠ none → set_killers c ks = c := by
  induction ks with
  | nil => intro c _; rfl
  | cons k rest ih =>
    intro c h
    simp only [set_killers]
    rw [set_killer_kept c k h]
    exact ih c h

/-- C19: once a killer is stored, no `set_killer` call, and no run of them, changes
the creature; and on a creature without a killer `set_killer(k)` stores `k` when
`k` is not null and not fake, and leaves the killer null otherwise. -/
theorem set_killer_write_once (c : Creature) (k : Option creature_ref)
    (ks : List (Option creature_ref)) :
    (get_killer c ≠ none →
      set_killer c k = c ∧ get_killer (set_killers c ks) = get_killer c) ∧
    (get_killer c = none →
      (∀ r, k = some r → r.is_fake = false → get_killer (set_killer c k) = some r.id) ∧
      (∀ r, k = some r → r.is_fake = true → get_killer (set_killer c k) = none) ∧
      (k = none → get_killer (set_killer c k) = none)) := by
  unfold get_killer
  constructor
  · intro h
    exact ⟨set_killer_kept c k h, by rw [set_killers_kept ks c h]⟩
  · intro h
    refine ⟨?_, ?_, ?_⟩
    · intro r hk hf
      subst hk
      simp [set_killer, hf, h]
    · intro r hk hf
      subst hk
      simp [set_killer, hf, h]
    · intro hk
      subst hk
      simpa [set_killer] using h

/-- Witness of `set_killer_write_once`: the first killer stays, and a fake creature
is never stored. -/
theorem set_killer_write_once_witness :
    (set_killer { killer := some 9 } (some fake_ref) = { killer := some 9 } ∧
      get_killer (set_killers { killer := some 9 } [some fake_ref, none, some brawler]) =
        get_killer { killer := some 9 }) ∧
    get_killer (set_killer {} (some brawler)) = some brawler.id ∧
    get_killer (set_killer {} (some fake_ref)) = none :=
  ⟨(set_killer_write_once { killer := some 9 } (some fake_ref)
      [some fake_ref, none, some brawler]).1 (by decide),
    ((set_killer_write_once {} (some brawler) []).2 (by decide)).1 brawler rfl (by decide),
    ((set_killer_write_once {} (some fake_ref) []).2 (by decide)).2.1 fake_ref rfl (by decide)⟩

theorem deal_damage_handle_type_immune (g : Game) (v : Virtuals) (c : Creature)
    (du : damage_unit) (bp : body_part) (damage pain : Int) (t : rng_tape)
    (himm : v.is_immune_damage du.type = true) :
    deal_damage_handle_type g v c du bp damage pain t = (c, damage, pain, t) := by
  unfold deal_damage_handle_type
  rw [if_pos himm]

theorem deal_damage_units_immune (g : Game) (v : Virtuals) (bp : body_part)
    (it : damage_unit) (post : List damage_unit)
    (himm : v.is_immune_damage it.type = true) (pre : List damage_unit) :
    ∀ s : damage_totals,
      deal_damage_units g v bp (pre ++ it :: post) s = deal_damage_units g v bp (pre ++ post) s := by
  induction pre with
  | nil =>
    intro s
    simp only [List.nil_append, deal_damage_units]
    rw [deal_damage_handle_type_immune g v s.self it bp 0 s.total_pain s.tape himm]
    simp
  | cons u rest ih =>
    intro s
    simp only [List.cons_append, deal_damage_units]
    exact ih _

/-- C20: a damage unit of a type the creature is innately immune to is skipped:
`deal_damage_handle_type` returns the creature (moves and effects with it), the
damage, the pain and the random generator as it received them, and `deal_damage`
gives the result it gives for the damage instance without that unit. -/
theorem deal_damage_skips_immune (g : Game) (v : Virtuals) (c : Creature)
    (source : Option creature_id) (bp : body_part) (dam dam2 : damage_instance)
    (pre post : List damage_unit) (it : damage_unit) (t : rng_tape)
    (himm : v.is_immune_damage it.type = true)
    (hdam : (v.absorb_hit bp dam).damage_units = pre ++ it :: post)
    (hdam2 : (v.absorb_hit bp dam2).damage_units = pre ++ post)
    (htags : dam.effects = dam2.effects) :
    (∀ (c1 : Creature) (damage pain : Int) (t1 : rng_tape),
      deal_damage_handle_type g v c1 it bp damage pain t1 = (c1, damage, pain, t1)) ∧
    deal_damage g v c source bp dam t = deal_damage g v c source bp dam2 t := by
  refine ⟨fun c1 damage pain t1 =>
    deal_damage_handle_type_immune g v c1 it bp damage pain t1 himm, ?_⟩
  by_cases hdead : v.is_dead_state c = true
  · unfold deal_damage
    rw [if_pos hdead, if_pos hdead]
  · have hl : v.is_dead_state c = false := by simpa using hdead
    obtain ⟨s, hs, hd⟩ := deal_damage_live g v c source bp dam t hl
    obtain ⟨s2, hs2, hd2⟩ := deal_damage_live g v c source bp dam2 t hl
    have hss : s = s2 := by
      rw [hs, hs2, hdam, hdam2, deal_damage_units_immune g v bp it post himm pre]
      rfl
    rw [hd, hd2, hss, htags]

/-- Witness of `deal_damage_skips_immune`: an electric unit between nothing and a
cold unit, on a creature immune to electric damage. -/
theorem deal_damage_skips_immune_witness :
    grounded_virtuals.is_immune_damage zap_8.type = true ∧
    deal_damage ward_game grounded_virtuals numbed none body_part.bp_torso
        { damage_units := [zap_8, frost_2] } [3] =
      deal_damage ward_game grounded_virtuals numbed none body_part.bp_torso
        { damage_units := [frost_2] } [3] ∧
    (deal_damage ward_game grounded_virtuals numbed none body_part.bp_torso
        { damage_units := [zap_8, frost_2] } [3]).dealt.total_damage = 2 ∧
    (deal_damage ward_game grounded_virtuals numbed none body_part.bp_torso
        { damage_units := [zap_8, frost_2] } [3]).self.effects = numbed.effects :=
  ⟨by decide,
    (deal_damage_skips_immune ward_game grounded_virtuals numbed none body_part.bp_torso
      { damage_units := [zap_8, frost_2] } { damage_units := [frost_2] } [] [frost_2] zap_8 [3]
      (by decide) rfl rfl rfl).2,
    by decide, by decide⟩

/-- Witness of `deal_melee_attack_spread`: a hit roll of 3 against a dodge roll of 5
gives -2 and one `on_dodge` call; a hit roll of 8 gives 3 and none. -/
theorem deal_melee_attack_spread_witness :
    (deal_melee_attack dodger_virtuals numbed brawler 3 []).hit_spread = 3 - 5 ∧
    (deal_melee_attack dodger_virtuals numbed brawler 3 []).self.calls =
      numbed.calls ++ [hook_call.on_dodge (some brawler.id) brawler.melee] ∧
    (deal_melee_attack dodger_virtuals numbed brawler 8 []).self = numbed :=
  ⟨(deal_melee_attack_spread dodger_virtuals numbed brawler 3 []).1,
    (deal_melee_attack_spread dodger_virtuals numbed brawler 3 []).2.1.mpr (by decide),
    (deal_melee_attack_spread dodger_virtuals numbed brawler 8 []).2.2.mpr (by decide)⟩

/-- Witness of `pain_never_negative`: 4 points of pain and `mod_pain(-9)`. -/
theorem pain_never_negative_witness :
    (0 : Int) ≤ corpse.pain ∧
    (mod_pain corpse (-9)).pain = Max.max 0 (corpse.pain + -9) ∧
    0 ≤ (mod_pain corpse (-9)).pain ∧
    (mod_stat corpse "pain" (-9)).pain = Max.max 0 (corpse.pain + -9) ∧
    0 ≤ (mod_stat corpse "pain" (-9)).pain ∧
    0 ≤ (deal_damage demo_game plain_virtuals corpse none body_part.bp_torso bash_12
      [3]).self.pain :=
  ⟨by decide,
    pain_never_negative demo_game plain_virtuals corpse (-9) "pain" none body_part.bp_torso
      bash_12 [3] (by decide)⟩

/-! ## Projectile avoidance, vehicle overlap, permanence, damage types, knockdown -/


/-- C23: for an attack with `missed_by < 1.0` whose `goodhit`, that is `missed_by`
plus the dodge roll over `dice(10, speed)` bounded to `[0, 1]`, is at least 1.0,
`deal_projectile_attack` sets `missed_by` to 1.0 and changes nothing else: the
creature (hit points, pain, effects, no "bounced") is as before, and the damage
record and `hit_critter` of the attack are untouched. -/
theorem deal_projectile_attack_avoided (g : Game) (v : Virtuals) (c : Creature)
    (source : Option creature_id) (attack : dealt_projectile_attack) (t : rng_tape)
    (hlt : attack.missed_by < 1)
    (hgood : attack.missed_by +
      double.max 0 (double.min 1
        ((double.of_int (v.dodge_roll c t).1).div_int
          (dice 10 attack.proj.speed (v.dodge_roll c t).2).1)) ≥ 1) :
    (deal_projectile_attack g v c source attack t).self = c ∧
    (deal_projectile_attack g v c source attack t).attack =
      { attack with missed_by := 1 } ∧
    (deal_projectile_attack g v c source attack t).attack.missed_by = 1 ∧
    (deal_projectile_attack g v c source attack t).attack.hit_critter = attack.hit_critter := by
  have hnot : ¬ (attack.missed_by ≥ 1) := by
    intro h
    exact Int.not_lt.mpr h hlt
  unfold deal_projectile_attack
  simp only [hnot, if_false, hgood, if_true, and_self]

/-- Witness of `deal_projectile_attack_avoided`: a shot that missed by 0.5 at a
creature with a dodge roll of 100 against the 10 dice of a projectile of speed 1. -/
theorem deal_projectile_attack_avoided_witness :
    near_shot.missed_by < 1 ∧
    (deal_projectile_attack demo_game nimble_virtuals burning none near_shot []).self = burning ∧
    (deal_projectile_attack demo_game nimble_virtuals burning none near_shot
      []).attack.missed_by = 1 ∧
    (deal_projectile_attack demo_game nimble_virtuals burning none near_shot
      []).attack.hit_critter = none :=
  ⟨by decide,
    (deal_projectile_attack_avoided demo_game nimble_virtuals burning none near_shot []
      (by decide) (by decide)).1,
    (deal_projectile_attack_avoided demo_game nimble_virtuals burning none near_shot []
      (by decide) (by decide)).2.2.1,
    (deal_projectile_attack_avoided demo_game nimble_virtuals burning none near_shot []
      (by decide) (by decide)).2.2.2⟩


theorem mem_int_range (lo hi x : Int) : x ∈ int_range lo hi ↔ lo ≤ x ∧ x < hi := by
  unfold int_range
  simp only [List.mem_map, List.mem_range, Int.ofNat_eq_coe]
  constructor
  · rintro ⟨i, hi1, rfl⟩
    have h2 : (i : Int) < ((hi - lo).toNat : Int) := by exact_mod_cast hi1
    have h3 : 0 ≤ hi - lo := by
      by_contra hneg
      have : (hi - lo).toNat = 0 := Int.toNat_eq_zero.mpr (by omega)
      omega
    rw [Int.toNat_of_nonneg h3] at h2
    omega
  · rintro ⟨h1, h2⟩
    refine ⟨(x - lo).toNat, ?_, ?_⟩
    · have ha : ((x - lo).toNat : Int) = x - lo := Int.toNat_of_nonneg (by omega)
      have hb : ((hi - lo).toNat : Int) = hi - lo := Int.toNat_of_nonneg (by omega)
      have : ((x - lo).toNat : Int) < ((hi - lo).toNat : Int) := by omega
      exact_mod_cast this
    · have ha : ((x - lo).toNat : Int) = x - lo := Int.toNat_of_nonneg (by omega)
      omega

/-- What `overlaps_vehicle` computes: some point of the vehicle lies on the level of
`pos` with `pos.x - area ≤ x < pos.x + area` and `pos.y - area ≤ y < pos.y + area`. -/
theorem overlaps_vehicle_iff (veh_area : List tripoint) (pos : tripoint) (area : Int) :
    overlaps_vehicle veh_area pos area = true ↔
      ∃ p ∈ veh_area, p.z = pos.z ∧ pos.x - area ≤ p.x ∧ p.x < pos.x + area ∧
        pos.y - area ≤ p.y ∧ p.y < pos.y + area := by
  unfold overlaps_vehicle
  simp only [List.any_eq_true, decide_eq_true_eq, mem_int_range]
  constructor
  · rintro ⟨x, ⟨hx1, hx2⟩, y, ⟨hy1, hy2⟩, hmem⟩
    exact ⟨_, hmem, rfl, hx1, hx2, hy1, hy2⟩
  · rintro ⟨p, hp, hz, hx1, hx2, hy1, hy2⟩
    refine ⟨p.x, ⟨hx1, hx2⟩, p.y, ⟨hy1, hy2⟩, ?_⟩
    rw [← hz]
    exact hp

/-- C27, the code at the failing input: with an area of 1 around the origin
`overlaps_vehicle` finds a vehicle point one tile to the west or north but not one
tile to the east or south, and with an area of 0 it does not find a vehicle point
on the very tile. -/
theorem overlaps_vehicle_far_edge :
    overlaps_vehicle [{ x := 1, y := 0, z := 0 }] { x := 0, y := 0, z := 0 } 1 = false ∧
    overlaps_vehicle [{ x := 0, y := 1, z := 0 }] { x := 0, y := 0, z := 0 } 1 = false ∧
    overlaps_vehicle [{ x := -1, y := 0, z := 0 }] { x := 0, y := 0, z := 0 } 1 = true ∧
    overlaps_vehicle [{ x := 0, y := -1, z := 0 }] { x := 0, y := 0, z := 0 } 1 = true ∧
    overlaps_vehicle [{ x := 0, y := 0, z := 0 }] { x := 0, y := 0, z := 0 } 0 = false := by
  decide

/-- The reapplication branch of `add_effect` keeps the permanence flag of the
instance it finds, whatever is requested. -/
theorem merge_effect_permanent (e : effect) (dur intensity : Int) :
    (merge_effect e dur intensity).permanent = e.permanent := by
  have hb : ∀ x : effect, (bound_intensity x).permanent = x.permanent := by
    intro x; unfold bound_intensity; split_ifs <;> rfl
  have hd : ∀ x : effect, (bound_duration x).permanent = x.permanent := by
    intro x; unfold bound_duration; split_ifs <;> rfl
  have hi : ∀ x : effect,
      (if intensity > 0 then x.set_intensity intensity
        else if x.get_int_add_val ≠ 0 then x.mod_intensity x.get_int_add_val else x).permanent =
        x.permanent := by
    intro x; split_ifs <;> rfl
  have hp : ∀ x : effect, (if x.is_permanent then x.pause_effect else x).permanent =
      x.permanent := by
    intro x
    by_cases h : x.is_permanent = true
    · rw [if_pos h]
      simp only [effect.pause_effect]
      exact h.symm
    · rw [if_neg h]
  unfold merge_effect
  simp only []
  rw [hb, hi, hp, hd]
  rfl

/-- C28, the code at the failing input: `add_effect` with `permanent = true` on the
key of a non-permanent instance of "burn" leaves the instance non-permanent (its
duration goes from 10 to 15); an instance that is permanent stays permanent. -/
theorem add_effect_permanent_request :
    get_effect burning "burn" body_part.num_bp = some burn_10 ∧
    burn_10.is_permanent = false ∧
    (get_effect
        (add_effect demo_game plain_virtuals burning "burn" 10 body_part.num_bp true 0 false)
        "burn" body_part.num_bp).map effect.is_permanent = some false ∧
    get_effect_dur
        (add_effect demo_game plain_virtuals burning "burn" 10 body_part.num_bp true 0 false)
        "burn" body_part.num_bp = 15 ∧
    (get_effect
        (add_effect demo_game plain_virtuals smouldering "burn" 10 body_part.bp_head false 0
          false) "burn" body_part.bp_head).map effect.is_permanent = some true := by
  decide

/-- C26, the code at the failing input: a turret that does not see the player, who
stands to the west, has one hostile monster in range to the east; the monster is
passed over for friendly fire (`boo_hoo` is 1, no target), because the cone check
runs with the player angle left at 0. -/
theorem auto_find_unseen_player :
    blind_turret.sees east_field.u = false ∧
    find_targets east_field = [east_zombie] ∧
    (find_setup east_field blind_turret {} 10 0).area_iff = false ∧
    (find_setup east_field blind_turret {} 10 0).angle_iff = true ∧
    (find_setup east_field blind_turret {} 10 0).u_angle = 0 ∧
    demo_angle 0 0 east_field.u.pos.x east_field.u.pos.y = 90 ∧
    auto_find_hostile_target east_field blind_turret {} 10 0 = (none, 1) ∧
    auto_find_hostile_target east_field blind_turret {} 10 2 = (none, 1) := by
  decide


/-- C29: for a creature that is not immune to the type of the damage unit,
`deal_damage_handle_type` adds `adjusted = amount * multiplier` (as an `int`) to
`damage` for every type; it adds `adjusted / 4` to `pain` for bash, heat, electric
and the other types of the `default` branch, `adjusted / 6` for cold and
`adjusted / 3` for acid; for cold the move points change by `-(adjusted * 80)`. -/
theorem deal_damage_handle_type_amounts (g : Game) (v : Virtuals) (c : Creature)
    (du : damage_unit) (bp : body_part) (damage pain : Int) (t : rng_tape)
    (himm : v.is_immune_damage du.type = false) :
    (deal_damage_handle_type g v c du bp damage pain t).2.1 =
      damage + (du.amount * du.damage_multiplier).to_int ∧
    ((du.type = damage_type.DT_BASH ∨ du.type = damage_type.DT_HEAT ∨
        du.type = damage_type.DT_ELECTRIC ∨ du.type = damage_type.DT_NULL ∨
        du.type = damage_type.DT_TRUE ∨ du.type = damage_type.DT_BIOLOGICAL) →
      (deal_damage_handle_type g v c du bp damage pain t).2.2.1 =
        pain + Int.tdiv (du.amount * du.damage_multiplier).to_int 4) ∧
    (du.type = damage_type.DT_COLD →
      (deal_damage_handle_type g v c du bp damage pain t).2.2.1 =
        pain + Int.tdiv (du.amount * du.damage_multiplier).to_int 6 ∧
      (deal_damage_handle_type g v c du bp damage pain t).1.moves =
        c.moves + -((du.amount * du.damage_multiplier).to_int * 80) ∧
      (deal_damage_handle_type g v c du bp damage pain t).1 =
        { c with moves := c.moves - (du.amount * du.damage_multiplier).to_int * 80 } ∧
      (deal_damage_handle_type g v c du bp damage pain t).2.2.2 = t) ∧
    (du.type = damage_type.DT_ACID →
      (deal_damage_handle_type g v c du bp damage pain t).2.2.1 =
        pain + Int.tdiv (du.amount * du.damage_multiplier).to_int 3 ∧
      (deal_damage_handle_type g v c du bp damage pain t).1 = c) := by
  unfold deal_damage_handle_type
  rw [himm]
  simp only [Bool.false_eq_true, if_false]
  cases hty : du.type
  all_goals simp only [reduceCtorEq, false_or, or_false, or_true, true_or, false_implies,
    forall_const, true_and, and_true, mod_moves, true_implies, Int.neg_mul, and_self,
    imp_self, Int.sub_eq_add_neg]
  all_goals try split_ifs
  all_goals simp

/-- The cold unit of amount 2 on a creature with 0 move points: damage 0 + 2, pain
0 + 2 / 6 = 0, move points -160. -/
theorem deal_damage_handle_type_amounts_witness :
    plain_virtuals.is_immune_damage frost_2.type = false ∧
    (deal_damage_handle_type demo_game plain_virtuals burning frost_2 body_part.bp_torso 0 0
      []).2.1 = 2 ∧
    (deal_damage_handle_type demo_game plain_virtuals burning frost_2 body_part.bp_torso 0 0
      []).2.2.1 = 0 ∧
    (deal_damage_handle_type demo_game plain_virtuals burning frost_2 body_part.bp_torso 0 0
      []).1.moves = burning.moves - 160 :=
  ⟨by decide,
   (deal_damage_handle_type_amounts demo_game plain_virtuals burning frost_2
      body_part.bp_torso 0 0 [] (by decide)).1,
   ((deal_damage_handle_type_amounts demo_game plain_virtuals burning frost_2
      body_part.bp_torso 0 0 [] (by decide)).2.2.1 rfl).1,
   ((deal_damage_handle_type_amounts demo_game plain_virtuals burning frost_2
      body_part.bp_torso 0 0 [] (by decide)).2.2.1 rfl).2.1⟩


theorem rng_bounds (a b : Int) (t : rng_tape) :
    Min.min a b ≤ (rng a b t).1 ∧ (rng a b t).1 ≤ Max.max a b := by
  unfold rng
  simp only
  have hle : Min.min a b ≤ Max.max a b := le_trans (min_le_left a b) (le_max_left a b)
  have hpos : (0 : Int) < Max.max a b - Min.min a b + 1 := by omega
  have h1 := Int.emod_nonneg (Int.ofNat (t.headD 0)) (ne_of_gt hpos)
  have h2 := Int.emod_lt_of_pos (Int.ofNat (t.headD 0)) hpos
  constructor <;> omega

/-- The stabbing stage of `deal_melee_hit` leaves the effects alone when it does not
knock down, and takes the penalty off the move points. -/
theorem melee_knockdown_moves (g : Game) (v : Virtuals) (c : Creature) (stab_moves : Int) :
    (melee_knockdown g v c stab_moves).moves =
      c.moves - (if stab_moves ≥ 150 ∧ v.is_immune_effect effect_downed = false
        then Int.tdiv stab_moves 2 else stab_moves) := by
  unfold melee_knockdown
  by_cases h : stab_moves ≥ 150 ∧ v.is_immune_effect effect_downed = false
  · have h2 : stab_moves ≥ 150 ∧ (!v.is_immune_effect effect_downed) = true := by
      simpa using h
    rw [if_pos h2, if_pos h]
    simp only [mod_moves]
    rw [(add_effect_frame g v c effect_downed 1 body_part.num_bp false 0 false).2.2.1,
      Int.neg_tdiv]
    omega
  · have h2 : ¬ (stab_moves ≥ 150 ∧ (!v.is_immune_effect effect_downed) = true) := by
      simpa using h
    rw [if_neg h2, if_neg h]
    simp only [mod_moves]
    omega


theorem melee_stab_moves_eq (d : damage_instance) (critical_hit : Bool) (t : rng_tape) :
    melee_stab_moves d critical_hit t =
      (if critical_hit then
          Int.tdiv ((rng ((d.type_damage damage_type.DT_STAB).div_int 2).to_int
            (d.type_damage damage_type.DT_STAB * { num := 15, den := 10 }).to_int t).1 * 15) 10
        else (rng ((d.type_damage damage_type.DT_STAB).div_int 2).to_int
            (d.type_damage damage_type.DT_STAB * { num := 15, den := 10 }).to_int t).1,
       (rng ((d.type_damage damage_type.DT_STAB).div_int 2).to_int
            (d.type_damage damage_type.DT_STAB * { num := 15, den := 10 }).to_int t).2) := by
  unfold melee_stab_moves
  rfl

theorem melee_knockdown_eq (g : Game) (v : Virtuals) (c : Creature) (stab_moves : Int) :
    melee_knockdown g v c stab_moves =
      if stab_moves ≥ 150 ∧ v.is_immune_effect effect_downed = false then
        mod_moves (add_effect g v c effect_downed 1 body_part.num_bp false 0 false)
          (-(Int.tdiv stab_moves 2))
      else mod_moves c (-stab_moves) := by
  unfold melee_knockdown
  by_cases h : stab_moves ≥ 150 ∧ v.is_immune_effect effect_downed = false
  · have h2 : stab_moves ≥ 150 ∧ (!v.is_immune_effect effect_downed) = true := by
      simpa using h
    rw [if_pos h2, if_pos h, Int.neg_tdiv]
  · have h2 : ¬ (stab_moves ≥ 150 ∧ (!v.is_immune_effect effect_downed) = true) := by
      simpa using h
    rw [if_neg h2, if_neg h]

/-- C30: in `deal_melee_hit` the value `stab_moves` is a draw between half of the
stab damage and one and a half times it (as `int`s), times 15 / 10 with truncation
on a critical hit. If `stab_moves >= 150` and the defender is not immune to
"downed", the creature goes through `add_effect( effect_downed, 1 )` and loses
`stab_moves / 2` move points; otherwise no effect is added (the effect map is the
one before) and it loses `stab_moves` move points. The hit goes on from that
creature with `on_hit` and `deal_damage`. -/
theorem deal_melee_hit_knockdown (g : Game) (v : Virtuals) (c : Creature)
    (source : creature_ref) (hit_spread : Int) (critical_hit : Bool) (dam : damage_instance)
    (t : rng_tape) :
    let sel := select_body_part g v source hit_spread t
    let blk := block_hit v c source sel.1 dam
    let c1 := melee_stun g v blk.1 blk.2.2 hit_spread critical_hit
    let lo := ((blk.2.2.type_damage damage_type.DT_STAB).div_int 2).to_int
    let hi := (blk.2.2.type_damage damage_type.DT_STAB * { num := 15, den := 10 }).to_int
    let draw := rng lo hi sel.2
    let stab_moves := if critical_hit then Int.tdiv (draw.1 * 15) 10 else draw.1
    let c2 := melee_knockdown g v c1 stab_moves
    (Min.min lo hi ≤ draw.1 ∧ draw.1 ≤ Max.max lo hi) ∧
    (stab_moves ≥ 150 ∧ v.is_immune_effect effect_downed = false →
      c2 = mod_moves (add_effect g v c1 effect_downed 1 body_part.num_bp false 0 false)
        (-(Int.tdiv stab_moves 2)) ∧
      c2.moves = c1.moves - Int.tdiv stab_moves 2) ∧
    (¬ (stab_moves ≥ 150 ∧ v.is_immune_effect effect_downed = false) →
      c2 = mod_moves c1 (-stab_moves) ∧ c2.effects = c1.effects ∧
      c2.moves = c1.moves - stab_moves) ∧
    (deal_melee_hit g v c source hit_spread critical_hit dam t).self =
      (deal_damage g v (on_hit c2 source blk.2.1) (some source.id) blk.2.1 blk.2.2 draw.2).self ∧
    (deal_melee_hit g v c source hit_spread critical_hit dam t).tape =
      (deal_damage g v (on_hit c2 source blk.2.1) (some source.id) blk.2.1 blk.2.2 draw.2).tape ∧
    (deal_melee_hit g v c source hit_spread critical_hit dam t).dealt.dealt_dams =
      (deal_damage g v (on_hit c2 source blk.2.1) (some source.id) blk.2.1 blk.2.2
        draw.2).dealt.dealt_dams := by
  intro sel blk c1 lo hi draw stab_moves c2
  refine ⟨rng_bounds lo hi sel.2, ?_, ?_, ?_⟩
  · intro h
    have hm := melee_knockdown_moves g v c1 stab_moves
    rw [if_pos h] at hm
    refine ⟨?_, hm⟩
    show melee_knockdown g v c1 stab_moves = _
    rw [melee_knockdown_eq, if_pos h]
  · intro h
    have hm := melee_knockdown_moves g v c1 stab_moves
    rw [if_neg h] at hm
    have he : c2 = mod_moves c1 (-stab_moves) := by
      show melee_knockdown g v c1 stab_moves = _
      rw [melee_knockdown_eq, if_neg h]
    refine ⟨he, ?_, hm⟩
    rw [he]
    rfl
  · have hs : melee_stab_moves blk.2.2 critical_hit sel.2 = (stab_moves, draw.2) :=
      melee_stab_moves_eq blk.2.2 critical_hit sel.2
    have hd : deal_melee_hit g v c source hit_spread critical_hit dam t =
        { dealt := { (deal_damage g v (on_hit (melee_knockdown g v c1
              (melee_stab_moves blk.2.2 critical_hit sel.2).1) source blk.2.1)
              (some source.id) blk.2.1 blk.2.2
              (melee_stab_moves blk.2.2 critical_hit sel.2).2).dealt with
              bp_hit := some blk.2.1 },
          self := (deal_damage g v (on_hit (melee_knockdown g v c1
              (melee_stab_moves blk.2.2 critical_hit sel.2).1) source blk.2.1)
              (some source.id) blk.2.1 blk.2.2
              (melee_stab_moves blk.2.2 critical_hit sel.2).2).self,
          tape := (deal_damage g v (on_hit (melee_knockdown g v c1
              (melee_stab_moves blk.2.2 critical_hit sel.2).1) source blk.2.1)
              (some source.id) blk.2.1 blk.2.2
              (melee_stab_moves blk.2.2 critical_hit sel.2).2).tape } := rfl
    rw [hd, hs]
    exact ⟨rfl, rfl, rfl⟩

/-- The stab of 200 points lands on a creature with 0 move points: the draw is 100
for an empty tape, a critical hit makes it 150, the creature is knocked down and
loses 75 move points; without the critical hit it loses 100. -/
theorem deal_melee_hit_knockdown_example :
    (melee_stab_moves stab_200 true []).1 = 150 ∧
    (melee_stab_moves stab_200 false []).1 = 100 ∧
    (melee_knockdown demo_game plain_virtuals burning 150).moves = -75 ∧
    (melee_knockdown demo_game plain_virtuals burning 100).moves = -100 ∧
    (melee_knockdown demo_game immune_virtuals burning 150).moves = -150 ∧
    (melee_knockdown demo_game plain_virtuals burning 100).effects = burning.effects := by
  decide


/-- A critical stab of 200 points on a creature with 0 move points: the draw is
100 for an empty tape, the critical hit makes it 150, and the creature, not immune
to "downed", loses 75 move points. -/
theorem deal_melee_hit_knockdown_witness :
    ((150 : Int) ≥ 150 ∧ plain_virtuals.is_immune_effect effect_downed = false) ∧
    (melee_knockdown demo_game plain_virtuals
      (melee_stun demo_game plain_virtuals
        (block_hit plain_virtuals burning brawler body_part.bp_torso stab_200).1 stab_200 1
        true) 150).moves =
      (melee_stun demo_game plain_virtuals
        (block_hit plain_virtuals burning brawler body_part.bp_torso stab_200).1 stab_200 1
        true).moves - 75 :=
  ⟨by decide,
   ((deal_melee_hit_knockdown demo_game plain_virtuals burning brawler 1 true stab_200
      []).2.1 (by decide)).2⟩

/-! ## The damage record, the footprint of add_effect, the effect-map invariant -/


/-- The loop of `deal_damage` keeps every entry of the per-type table non-negative
and the sum of the table equal to `total_damage`. -/
theorem deal_damage_units_totals (g : Game) (v : Virtuals) (bp : body_part)
    (units : List damage_unit) :
    ∀ s : damage_totals,
      (∀ dt, 0 ≤ s.dealt_dams dt) →
      (all_damage_types.map s.dealt_dams).sum = s.total_damage →
      (∀ dt, 0 ≤ (deal_damage_units g v bp units s).dealt_dams dt) ∧
      (all_damage_types.map (deal_damage_units g v bp units s).dealt_dams).sum =
        (deal_damage_units g v bp units s).total_damage := by
  induction units with
  | nil => intro s h1 h2; exact ⟨h1, h2⟩
  | cons it rest ih =>
    intro s h1 h2
    simp only [deal_damage_units]
    split_ifs with hpos
    · apply ih
      · intro dt
        simp only []
        split_ifs
        · have := h1 dt
          omega
        · exact h1 dt
      · simp only [all_damage_types, List.map_cons, List.map_nil, List.sum_cons,
          List.sum_nil] at h2 ⊢
        cases hty : it.type <;> simp only [reduceCtorEq, if_true, if_false] <;> omega
    · exact ih _ h1 h2

/-- C32: for a live creature every entry of the record `deal_damage` returns is at
least 0, and for a damage instance without the NOGIB tag `apply_damage` is called
once, with the sum of the entries of the record. -/
theorem deal_damage_record_sum (g : Game) (v : Virtuals) (c : Creature)
    (source : Option creature_id) (bp : body_part) (dam : damage_instance) (t : rng_tape)
    (hlive : v.is_dead_state c = false) :
    (∀ dt, 0 ≤ (deal_damage g v c source bp dam t).dealt.dealt_dams dt) ∧
    0 ≤ (deal_damage g v c source bp dam t).dealt.total_damage ∧
    (dam.effects.contains "NOGIB" = false →
      applied_damage (deal_damage g v c source bp dam t).self.calls =
        applied_damage c.calls ++ [(deal_damage g v c source bp dam t).dealt.total_damage] ∧
      (deal_damage g v c source bp dam t).self.hp =
        c.hp - (deal_damage g v c source bp dam t).dealt.total_damage) ∧
    (dam.effects.contains "NOGIB" = true →
      ∃ n, applied_damage (deal_damage g v c source bp dam t).self.calls =
          applied_damage c.calls ++ [n] ∧
        n ≤ (deal_damage g v c source bp dam t).dealt.total_damage) := by
  obtain ⟨s, hs, hd⟩ := deal_damage_live g v c source bp dam t hlive
  have hf := deal_damage_units_frame g v bp (v.absorb_hit bp dam).damage_units
    { self := (absorb_hit v c bp dam).1, dealt_dams := fun _ => 0, total_damage := 0,
      total_pain := 0, tape := t }
  have ht := deal_damage_units_totals g v bp (v.absorb_hit bp dam).damage_units
    { self := (absorb_hit v c bp dam).1, dealt_dams := fun _ => 0, total_damage := 0,
      total_pain := 0, tape := t } (fun _ => le_refl _) rfl
  rw [← hs] at hf ht
  have hhp : (mod_pain s.self s.total_pain).hp = c.hp := by
    simp only [mod_pain]
    exact hf.1
  have hcalls : applied_damage (mod_pain s.self s.total_pain).calls = applied_damage c.calls := by
    simp only [mod_pain]
    rw [hf.2.2]
    simp [absorb_hit, applied_damage, List.filterMap_append]
  have hsum : (deal_damage g v c source bp dam t).dealt.total_damage = s.total_damage := by
    rw [hd]
    exact ht.2
  have happ : ∀ n, applied_damage (apply_damage (mod_pain s.self s.total_pain) source bp n).calls =
      applied_damage c.calls ++ [n] := by
    intro n
    simp only [apply_damage]
    rw [applied_damage, List.filterMap_append]
    rw [applied_damage] at hcalls
    rw [hcalls]
    rfl
  have hnonneg : ∀ dt, 0 ≤ (deal_damage g v c source bp dam t).dealt.dealt_dams dt := by
    rw [hd]
    exact ht.1
  refine ⟨hnonneg, ?_, ?_, ?_⟩
  · unfold dealt_damage_instance.total_damage
    apply List.sum_nonneg
    intro x hx
    obtain ⟨dt, _, rfl⟩ := List.mem_map.mp hx
    exact hnonneg dt
  · intro htag
    rw [hsum]
    rw [hd, htag]
    simp only [Bool.false_eq_true, if_false]
    refine ⟨happ _, ?_⟩
    simp only [apply_damage, hhp]
  · intro htag
    rw [hsum]
    rw [hd, if_pos htag]
    exact ⟨_, happ _, min_le_left _ _⟩

/-- A bash of 12 points on a creature with 10 hit points: the record holds 12, all
of it bash damage, `apply_damage` is passed 12 and the hit points go to -2. -/
theorem deal_damage_record_sum_witness :
    plain_virtuals.is_dead_state burning = false ∧
    bash_12.effects.contains "NOGIB" = false ∧
    (deal_damage demo_game plain_virtuals burning none body_part.bp_torso bash_12
      []).dealt.total_damage = 12 ∧
    applied_damage (deal_damage demo_game plain_virtuals burning none body_part.bp_torso
      bash_12 []).self.calls =
      applied_damage burning.calls ++
        [(deal_damage demo_game plain_virtuals burning none body_part.bp_torso bash_12
          []).dealt.total_damage] :=
  ⟨by decide, by decide, by decide,
   ((deal_damage_record_sum demo_game plain_virtuals burning none body_part.bp_torso bash_12
      [] (by decide)).2.2.1 (by decide)).1⟩


section assoc_keep
variable {K V : Type} [DecidableEq K]

/-- An entry of a map is still there after an assignment, unless it is the entry
the assignment replaces. -/
theorem mem_map_set_keep (m : List (K × V)) (k : K) (v : V) (p : K × V) (h : p ∈ m) :
    p ∈ map_set m k v ∨ (p.1 = k ∧ map_find m k = some p.2) := by
  induction m with
  | nil => simp at h
  | cons q rest ih =>
    obtain ⟨k1, v1⟩ := q
    by_cases h1 : k1 = k
    · simp only [map_set, map_find, h1, if_true, List.mem_cons] at h ⊢
      rcases h with h | h
      · right
        rw [h]
        exact ⟨rfl, rfl⟩
      · left
        exact Or.inr h
    · simp only [map_set, map_find, h1, if_false, List.mem_cons] at h ⊢
      rcases h with h | h
      · left
        exact Or.inl h
      · rcases ih h with h2 | h2
        · left
          exact Or.inr h2
        · right
          exact h2

theorem map_find_set_isSome (m : List (K × V)) (k k2 : K) (v : V)
    (h : (map_find m k2).isSome = true) : (map_find (map_set m k v) k2).isSome = true := by
  by_cases hk : k2 = k
  · rw [hk, map_find_set_self]
    rfl
  · rw [map_find_set_ne m k k2 v hk]
    exact h

end assoc_keep

/-- The effect map after `add_effect`: the one before, or that one with an
assignment at the key of the call. -/
theorem add_effect_effects_at (g : Game) (v : Virtuals) (c : Creature) (eff_id : efftype_id)
    (dur : Int) (bp : body_part) (permanent : Bool) (intensity : Int) (force : Bool) :
    (add_effect g v c eff_id dur bp permanent intensity force).effects = c.effects ∨
    ∃ type e, g.effect_types eff_id = some type ∧
      (add_effect g v c eff_id dur bp permanent intensity force).effects =
        effects_assign c.effects eff_id (target_part g type bp) e := by
  by_cases h1 : (!force && v.is_immune_effect eff_id) = true
  · left; simp [add_effect, h1]
  · have himm : force = true ∨ v.is_immune_effect eff_id = false := by
      cases force <;> simp_all
    cases htype : g.effect_types eff_id with
    | none => left; simp [add_effect, h1, htype]
    | some type =>
      cases hfound : get_effect c eff_id (target_part g type bp) with
      | some e =>
        right
        rw [add_effect_found g v c eff_id dur bp permanent intensity force type e htype himm
          hfound]
        exact ⟨_, _, rfl, rfl⟩
      | none =>
        by_cases hb : is_blocked c.effects eff_id = true
        · left; simp [add_effect, h1, htype, hfound, hb]
        · right
          rw [add_effect_fresh g v c eff_id dur bp permanent intensity force type htype himm
            hfound (by simpa using hb)]
          exact ⟨_, _, rfl, rfl⟩

/-- A lookup under another key is not changed by the assignment
`effects[eff_id][bp] = e`. -/
theorem get_effect_assign_ne (c c1 : Creature) (eff_id : efftype_id) (bp : body_part)
    (e : effect) (t : efftype_id) (b : body_part)
    (h : c1.effects = effects_assign c.effects eff_id bp e)
    (hkey : t ≠ eff_id ∨ b ≠ bp) :
    get_effect c1 t b = get_effect c t b := by
  unfold get_effect
  rw [h]
  unfold effects_assign
  by_cases ht : t = eff_id
  · have hb : b ≠ bp := by
      rcases hkey with h1 | h1
      · exact absurd ht h1
      · exact h1
    rw [ht, map_find_set_self]
    simp only
    rw [map_find_set_ne _ bp b e hb]
    unfold effects_at
    cases map_find c.effects eff_id with
    | none => rfl
    | some inner => rfl
  · rw [map_find_set_ne _ eff_id t _ ht]

/-- An instance stored under another key is still stored, unchanged, after the
assignment `effects[eff_id][bp] = e`. -/
theorem mem_effects_assign_keep (m : effects_map) (eff_id : efftype_id) (bp : body_part)
    (e : effect) (t : efftype_id) (b : body_part) (inner : List (body_part × effect))
    (e0 : effect) (hm : (t, inner) ∈ m) (hq : (b, e0) ∈ inner)
    (hkey : t ≠ eff_id ∨ b ≠ bp) :
    ∃ inner1, (t, inner1) ∈ effects_assign m eff_id bp e ∧ (b, e0) ∈ inner1 := by
  unfold effects_assign
  rcases mem_map_set_keep m eff_id (map_set (effects_at m eff_id) bp e) (t, inner) hm with
    h1 | ⟨h1, h2⟩
  · exact ⟨inner, h1, hq⟩
  · simp only at h1 h2
    have hb : b ≠ bp := by
      rcases hkey with h3 | h3
      · exact absurd h1 h3
      · exact h3
    have hat : effects_at m eff_id = inner := by
      unfold effects_at
      rw [h2]
      rfl
    rw [hat]
    refine ⟨map_set inner bp e, ?_, ?_⟩
    · rw [h1]
      have := map_find_mem _ _ _ (map_find_set_self m eff_id (map_set inner bp e))
      exact this
    · rcases mem_map_set_keep inner bp e (b, e0) hq with h3 | ⟨h3, _⟩
      · exact h3
      · exact absurd h3 hb

/-- A key that `has_effect` finds is still found after the assignment
`effects[eff_id][bp] = e`. -/
theorem has_effect_assign_keep (c c1 : Creature) (eff_id : efftype_id) (bp : body_part)
    (e : effect) (t : efftype_id) (b : body_part)
    (h : c1.effects = effects_assign c.effects eff_id bp e)
    (hh : has_effect c t b = true) : has_effect c1 t b = true := by
  by_cases hkey : t ≠ eff_id ∨ b ≠ bp
  · by_cases hb : b = body_part.num_bp
    · rw [hb] at hh ⊢
      simp only [has_effect, if_true] at hh ⊢
      rw [h]
      exact map_find_set_isSome _ _ _ _ hh
    · have hg := get_effect_assign_ne c c1 eff_id bp e t b h hkey
      simp only [has_effect, hb, if_false] at hh ⊢
      unfold get_effect at hg
      cases h1 : map_find c.effects t with
      | none => rw [h1] at hh; simp at hh
      | some o =>
        rw [h1] at hh hg
        simp only at hh hg
        cases h2 : map_find o b with
        | none => rw [h2] at hh; simp at hh
        | some e0 =>
          rw [h2] at hg
          cases h3 : map_find c1.effects t with
          | none => rw [h3] at hg; simp at hg
          | some o1 =>
            rw [h3] at hg
            simp only at hg ⊢
            rw [hg]
  · have hk : t = eff_id ∧ b = bp := by
      constructor
      · by_contra h1; exact hkey (Or.inl h1)
      · by_contra h1; exact hkey (Or.inr h1)
    rw [hk.1, hk.2]
    have hg := get_effect_assign c1 c.effects eff_id bp e h
    unfold get_effect at hg
    unfold has_effect
    by_cases hb : bp = body_part.num_bp
    · simp only [hb, if_true]
      cases h3 : map_find c1.effects eff_id with
      | none => rw [h3] at hg; simp at hg
      | some o1 => rfl
    · simp only [hb, if_false]
      cases h3 : map_find c1.effects eff_id with
      | none => rw [h3] at hg; simp at hg
      | some o1 =>
        rw [h3] at hg
        simp only at hg ⊢
        rw [hg]


/-- C33: a call of `add_effect` on the type `eff_id` and the body part `bp` leaves
the lookup under every key other than `(eff_id, bp1)` as it was, where `bp1` is
`bp`, or its main part for a type restricted to main parts; an instance stored
under such a key is still stored there, unchanged; and every key that
`has_effect` found before is found afterwards. -/
theorem add_effect_footprint (g : Game) (v : Virtuals) (c : Creature) (eff_id : efftype_id)
    (dur : Int) (bp : body_part) (permanent : Bool) (intensity : Int) (force : Bool)
    (t : efftype_id) (b : body_part)
    (hkey : t ≠ eff_id ∨
      ∀ type, g.effect_types eff_id = some type → b ≠ target_part g type bp) :
    get_effect (add_effect g v c eff_id dur bp permanent intensity force) t b =
      get_effect c t b ∧
    (∀ inner e, (t, inner) ∈ c.effects → (b, e) ∈ inner →
      ∃ inner1,
        (t, inner1) ∈ (add_effect g v c eff_id dur bp permanent intensity force).effects ∧
        (b, e) ∈ inner1) ∧
    (∀ t1 b1, has_effect c t1 b1 = true →
      has_effect (add_effect g v c eff_id dur bp permanent intensity force) t1 b1 = true) := by
  rcases add_effect_effects_at g v c eff_id dur bp permanent intensity force with
    h | ⟨type, e1, htype, h⟩
  · refine ⟨?_, ?_, ?_⟩
    · unfold get_effect
      rw [h]
    · intro inner e hm hq
      rw [h]
      exact ⟨inner, hm, hq⟩
    · intro t1 b1 hh
      unfold has_effect at hh ⊢
      rw [h]
      exact hh
  · have hkey1 : t ≠ eff_id ∨ b ≠ target_part g type bp := by
      rcases hkey with h1 | h1
      · exact Or.inl h1
      · exact Or.inr (h1 type htype)
    refine ⟨get_effect_assign_ne c _ eff_id _ e1 t b h hkey1, ?_, ?_⟩
    · intro inner e hm hq
      rw [h]
      exact mem_effects_assign_keep c.effects eff_id _ e1 t b inner e hm hq hkey1
    · intro t1 b1 hh
      exact has_effect_assign_keep c _ eff_id _ e1 t1 b1 h hh

/-- Adding "burn" on the torso of a creature that burns on the head (permanently)
and on the torso leaves the instance on the head as it was. -/
theorem add_effect_footprint_witness :
    get_effect
      (add_effect demo_game plain_virtuals smouldering "burn" 10 body_part.bp_torso false 0
        false) "burn" body_part.bp_head =
      get_effect smouldering "burn" body_part.bp_head ∧
    get_effect smouldering "burn" body_part.bp_head = some burn_permanent :=
  ⟨(add_effect_footprint demo_game plain_virtuals smouldering "burn" 10 body_part.bp_torso
      false 0 false "burn" body_part.bp_head
      (Or.inr (fun type h => by
        have h2 : type = burn_type := by
          have h3 : demo_game.effect_types "burn" = some burn_type := by decide
          rw [h3] at h
          exact (Option.some.inj h).symm
        rw [h2]
        decide))).1,
   by decide⟩

/-- The keys of the instances of a tidy effect map are pairwise different. -/
theorem tidy_instance_keys (m : effects_map) (h : tidy m) : (instance_keys m).Nodup := by
  induction m with
  | nil => simp [instance_keys]
  | cons p rest ih =>
    obtain ⟨h1, h2⟩ := h
    simp only [List.map_cons, List.nodup_cons] at h1
    have hrest : tidy rest :=
      ⟨h1.2, fun q hq => h2 q (List.mem_cons_of_mem _ hq)⟩
    have hp := (h2 p (List.mem_cons_self _ _)).1
    have hcons : instance_keys (p :: rest) =
        p.2.map (fun q => (p.1, q.1)) ++ instance_keys rest := by
      simp [instance_keys]
    rw [hcons, List.nodup_append]
    refine ⟨?_, ih hrest, ?_⟩
    · have hmap : p.2.map (fun q => (p.1, q.1)) = (p.2.map Prod.fst).map (Prod.mk p.1) := by
        rw [List.map_map]
        rfl
      rw [hmap]
      exact List.Nodup.map (fun a b hab => (Prod.mk.inj hab).2) hp
    · intro k hk1 hk2
      obtain ⟨q, _, rfl⟩ := List.mem_map.mp hk1
      simp only [instance_keys, List.mem_flatMap, List.mem_map] at hk2
      obtain ⟨p1, hp1, q1, _, heq⟩ := hk2
      have : p1.1 = p.1 := (Prod.mk.inj heq).1
      apply h1.1
      rw [← this]
      exact List.mem_map_of_mem Prod.fst hp1

/-- C31: in every state reached from an empty effect map by `add_effect`,
`add_env_effect`, `remove_effect`, `process_effects` and `clear_effects`, no effect
type is keyed with an empty map of body parts, no effect type is keyed twice, and
no key `(type, body part)` has more than one instance. -/
theorem effect_map_invariant (g : Game) (c : Creature) (hr : effect_reachable g c) :
    (∀ p ∈ c.effects, p.2 ≠ []) ∧
    (c.effects.map Prod.fst).Nodup ∧
    (instance_keys c.effects).Nodup ∧
    (∀ eff_id bp,
      (instance_keys c.effects).countP (fun k => decide (k = (eff_id, bp))) ≤ 1) ∧
    (∀ eff_id, has_effect c eff_id body_part.num_bp = true →
      ∃ bp, (get_effect c eff_id bp).isSome = true) := by
  have ht := effect_reachable_tidy g c hr
  have hn := tidy_instance_keys c.effects ht
  refine ⟨fun p hp => (ht.2 p hp).2, ht.1, hn, fun eff_id bp => ?_, ?_⟩
  · exact List.nodup_iff_count_le_one.mp hn (eff_id, bp)
  · intro eff_id hh
    simp only [has_effect, if_true] at hh
    cases hf : map_find c.effects eff_id with
    | none => rw [hf] at hh; simp at hh
    | some inner =>
      have hm := map_find_mem _ _ _ hf
      have hne := (ht.2 (eff_id, inner) hm).2
      cases hi : inner with
      | nil => exact absurd hi hne
      | cons q rest =>
        refine ⟨q.1, ?_⟩
        unfold get_effect
        rw [hf, hi]
        simp [map_find]

/-- A fresh creature that gets "burn" on the head and then has it removed there is
reached by two operations; its effect map is empty again, without a left-over key
for the type. -/
theorem effect_map_invariant_witness :
    effect_reachable demo_game
      (remove_effect
        (add_effect demo_game plain_virtuals {} "burn" 10 body_part.bp_head false 0 false)
        "burn" body_part.bp_head).2 ∧
    (∀ p ∈ (remove_effect
        (add_effect demo_game plain_virtuals {} "burn" 10 body_part.bp_head false 0 false)
        "burn" body_part.bp_head).2.effects, p.2 ≠ []) ∧
    (remove_effect
        (add_effect demo_game plain_virtuals {} "burn" 10 body_part.bp_head false 0 false)
        "burn" body_part.bp_head).2.effects = [] :=
  ⟨effect_reachable.step _ _
      (effect_reachable.step _ _ (effect_reachable.init {} rfl)
        (effect_step.add_effect plain_virtuals {} "burn" 10 body_part.bp_head false 0 false))
      (effect_step.remove_effect _ "burn" body_part.bp_head),
   (effect_map_invariant demo_game _
      (effect_reachable.step _ _
        (effect_reachable.step _ _ (effect_reachable.init {} rfl)
          (effect_step.add_effect plain_virtuals {} "burn" 10 body_part.bp_head false 0
            false))
        (effect_step.remove_effect _ "burn" body_part.bp_head))).1,
   by decide⟩

/-! ## Target selection: the best target, the count of passed-over candidates -/


theorem double_not_le (a b : double) : ¬ (a ≤ b) ↔ b < a := Int.not_le

theorem double_not_lt (a b : double) : ¬ (a < b) ↔ b ≤ a := Int.not_lt

theorem toRat_le_iff (a b : double) (ha : 0 < a.den) (hb : 0 < b.den) :
    a ≤ b ↔ a.toRat ≤ b.toRat := by
  have ha1 : (0 : ℚ) < (a.den : ℚ) := by exact_mod_cast ha
  have hb1 : (0 : ℚ) < (b.den : ℚ) := by exact_mod_cast hb
  unfold double.toRat
  rw [div_le_div_iff₀ ha1 hb1]
  show a.num * (b.den : Int) ≤ b.num * (a.den : Int) ↔ _
  constructor
  · intro h
    exact_mod_cast h
  · intro h
    exact_mod_cast h

theorem toRat_lt_iff (a b : double) (ha : 0 < a.den) (hb : 0 < b.den) :
    a < b ↔ a.toRat < b.toRat := by
  have ha1 : (0 : ℚ) < (a.den : ℚ) := by exact_mod_cast ha
  have hb1 : (0 : ℚ) < (b.den : ℚ) := by exact_mod_cast hb
  unfold double.toRat
  rw [div_lt_div_iff₀ ha1 hb1]
  show a.num * (b.den : Int) < b.num * (a.den : Int) ↔ _
  constructor
  · intro h
    exact_mod_cast h
  · intro h
    exact_mod_cast h

theorem double_add_den (a b : double) : (a + b).den = a.den * b.den := rfl

theorem double_sub_den (a b : double) : (a - b).den = a.den * b.den := rfl

theorem toRat_add (a b : double) (ha : 0 < a.den) (hb : 0 < b.den) :
    (a + b).toRat = a.toRat + b.toRat := by
  have ha1 : (a.den : ℚ) ≠ 0 := by exact_mod_cast (Nat.pos_iff_ne_zero.mp ha)
  have hb1 : (b.den : ℚ) ≠ 0 := by exact_mod_cast (Nat.pos_iff_ne_zero.mp hb)
  show (((a.num * (b.den : Int) + b.num * (a.den : Int) : Int) : ℚ)) /
      (((a.den * b.den : Nat) : ℚ)) = (a.num : ℚ) / (a.den : ℚ) + (b.num : ℚ) / (b.den : ℚ)
  push_cast
  field_simp

theorem toRat_sub (a b : double) (ha : 0 < a.den) (hb : 0 < b.den) :
    (a - b).toRat = a.toRat - b.toRat := by
  have ha1 : (a.den : ℚ) ≠ 0 := by exact_mod_cast (Nat.pos_iff_ne_zero.mp ha)
  have hb1 : (b.den : ℚ) ≠ 0 := by exact_mod_cast (Nat.pos_iff_ne_zero.mp hb)
  show (((a.num * (b.den : Int) - b.num * (a.den : Int) : Int) : ℚ)) /
      (((a.den * b.den : Nat) : ℚ)) = (a.num : ℚ) / (a.den : ℚ) - (b.num : ℚ) / (b.den : ℚ)
  push_cast
  field_simp
  ring

theorem div_int_den (a : double) (k : Int) (ha : 0 < a.den) (hk : 0 < k) :
    0 < (a.div_int k).den := by
  unfold double.div_int
  rw [if_pos (le_of_lt hk)]
  show 0 < a.den * k.toNat
  have : 0 < k.toNat := by omega
  exact Nat.mul_pos ha this

theorem toRat_div_int (a : double) (k : Int) (ha : 0 < a.den) (hk : 0 < k) :
    (a.div_int k).toRat = a.toRat / (k : ℚ) := by
  have ha1 : (a.den : ℚ) ≠ 0 := by exact_mod_cast (Nat.pos_iff_ne_zero.mp ha)
  have hk1 : (k : ℚ) ≠ 0 := by exact_mod_cast (ne_of_gt hk)
  have hkn : ((k.toNat : Nat) : ℚ) = (k : ℚ) := by
    have : ((k.toNat : Nat) : Int) = k := Int.toNat_of_nonneg (le_of_lt hk)
    exact_mod_cast this
  unfold double.div_int
  rw [if_pos (le_of_lt hk)]
  show (a.num : ℚ) / (((a.den * k.toNat : Nat) : ℚ)) = (a.num : ℚ) / (a.den : ℚ) / (k : ℚ)
  push_cast
  rw [hkn]
  field_simp

theorem toRat_zero : (0 : double).toRat = 0 := by
  show ((0 : Int) : ℚ) / ((1 : Nat) : ℚ) = 0
  simp

theorem toRat_hostile_adj : hostile_adj.toRat = 2 := by
  show ((2 : Int) : ℚ) / ((1 : Nat) : ℚ) = 2
  simp



/-- The body of the loop of `auto_find_hostile_target`, by the checks a candidate
passes. -/
theorem find_consider_cases (g : Game) (v : Virtuals) (range area : Int) (s : iff_setup)
    (st : find_state) (m : critter) :
    find_consider g v range area s st m =
      if ¬ passes_filters g v range area s m then st
      else if friendly_fire g v area s m then { st with boo_hoo := st.boo_hoo + 1 }
      else if maybe_boo g v s m = false ∧
          (m.power_rating + hostile_adj).div_int (target_dist g v m) ≤ st.best_target_rating
        then st
      else if final_rating g v m ≤ st.best_target_rating ∨ final_rating g v m ≤ 0 then st
      else if s.self_area_iff = true ∧
          overlaps_vehicle ((s.in_veh.map g.veh_points).getD []) m.pos area = true then st
      else { target := some m, best_target_rating := final_rating g v m,
             boo_hoo := st.boo_hoo } := by
  have hmb : maybe_boo g v s m =
      (if s.angle_iff then
        decide ((((Int.natAbs (s.u_angle -
            g.coord_to_angle v.pos.x v.pos.y m.pos.x m.pos.y) : Nat) : Int) +
              s.iff_hangle > 360 ∨
          ((Int.natAbs (s.u_angle -
            g.coord_to_angle v.pos.x v.pos.y m.pos.x m.pos.y) : Nat) : Int) <
              s.iff_hangle) ∧
          Int.tdiv ((g.rl_dist v.pos m.pos + 1) * 3) 2 + 6 > s.pldist)
      else false) := rfl
  unfold find_consider
  simp only [← hmb]
  unfold passes_filters friendly_fire final_rating target_dist
  by_cases h1 : v.sees m = true
  · by_cases h2 : g.rl_dist v.pos m.pos + 1 > range + 1 ∨ g.rl_dist v.pos m.pos + 1 < area
    · simp only [h1, h2, Bool.not_true, Bool.not_false, Bool.false_eq_true, Bool.true_eq_false,
        if_true, if_false, not_true_eq_false, not_false_eq_true, and_true, true_and, and_false,
        false_and, or_true, true_or, or_false, false_or, and_self, ite_not, not_not]
    · by_cases h3 : m.power_rating + hostile_adj ≤ 0
      · simp only [h1, h2, h3, Bool.not_true, Bool.not_false, Bool.false_eq_true, Bool.true_eq_false,
        if_true, if_false, not_true_eq_false, not_false_eq_true, and_true, true_and, and_false,
        false_and, or_true, true_or, or_false, false_or, and_self, ite_not, not_not]
      · by_cases h4 : s.in_veh ≠ none ∧ (g.veh_at m.pos).map Prod.fst = s.in_veh
        · simp only [h1, h2, h3, h4, Bool.not_true, Bool.not_false, Bool.false_eq_true, Bool.true_eq_false,
        if_true, if_false, not_true_eq_false, not_false_eq_true, and_true, true_and, and_false,
        false_and, or_true, true_or, or_false, false_or, and_self, ite_not, not_not]
        · by_cases h5 : s.area_iff = true ∧ g.rl_dist g.u.pos m.pos ≤ area
          · simp only [h1, h2, h3, h4, h5, Bool.not_true, Bool.not_false, Bool.false_eq_true, Bool.true_eq_false,
        if_true, if_false, not_true_eq_false, not_false_eq_true, and_true, true_and, and_false,
        false_and, or_true, true_or, or_false, false_or, and_self, ite_not, not_not]
          · by_cases h6 : m.attitude_to_u = Attitude.A_HOSTILE
            · rcases Bool.eq_false_or_eq_true (maybe_boo g v s m) with hb | hb
              · simp only [h1, h2, h3, h4, h5, h6, hb, Bool.not_true, Bool.not_false, Bool.false_eq_true, Bool.true_eq_false,
        if_true, if_false, not_true_eq_false, not_false_eq_true, and_true, true_and, and_false,
        false_and, or_true, true_or, or_false, false_or, and_self, ite_not, not_not]
              · simp only [h1, h2, h3, h4, h5, h6, hb, Bool.not_true, Bool.not_false, Bool.false_eq_true, Bool.true_eq_false,
        if_true, if_false, not_true_eq_false, not_false_eq_true, and_true, true_and, and_false,
        false_and, or_true, true_or, or_false, false_or, and_self, ite_not, not_not]
            · simp only [h1, h2, h3, h4, h5, h6, Bool.not_true, Bool.not_false, Bool.false_eq_true, Bool.true_eq_false,
        if_true, if_false, not_true_eq_false, not_false_eq_true, and_true, true_and, and_false,
        false_and, or_true, true_or, or_false, false_or, and_self, ite_not, not_not]
  · have h1f : v.sees m = false := by simpa using h1
    simp only [h1f, Bool.not_true, Bool.not_false, Bool.false_eq_true, Bool.true_eq_false,
        if_true, if_false, not_true_eq_false, not_false_eq_true, and_true, true_and, and_false,
        false_and, or_true, true_or, or_false, false_or, and_self, ite_not, not_not]


/-- One pass of the loop of `auto_find_hostile_target` adds 1 to `boo_hoo` exactly
for a candidate that passes the first four checks and is skipped for the safety
of the player, whatever the best rating so far. -/
theorem find_consider_boo_hoo (g : Game) (v : Virtuals) (range area : Int) (s : iff_setup)
    (st : find_state) (m : critter) :
    (find_consider g v range area s st m).boo_hoo =
      st.boo_hoo + (if boo_counted g v range area s m = true then 1 else 0) := by
  rw [find_consider_cases]
  unfold boo_counted
  by_cases h1 : passes_filters g v range area s m
  · by_cases h2 : friendly_fire g v area s m
    · simp only [h1, h2, not_true_eq_false, if_false, if_true, and_self, decide_True]
    · simp only [h1, h2, not_true_eq_false, if_false, and_false, decide_False,
        Bool.false_eq_true, add_zero]
      split_ifs <;> rfl
  · simp only [h1, not_false_eq_true, if_true, false_and, decide_False, Bool.false_eq_true,
      if_false, add_zero]

theorem find_fold_boo_hoo (g : Game) (v : Virtuals) (range area : Int) (s : iff_setup)
    (ts : List critter) :
    ∀ st : find_state,
      (ts.foldl (find_consider g v range area s) st).boo_hoo =
        st.boo_hoo + ((ts.countP (boo_counted g v range area s) : Nat) : Int) := by
  induction ts with
  | nil => intro st; simp
  | cons m rest ih =>
    intro st
    rw [List.foldl_cons, ih, find_consider_boo_hoo, List.countP_cons]
    split_ifs <;> push_cast <;> ring

/-- One pass of the loop of `auto_find_hostile_target` keeps the target, or takes
a candidate that passes every check and whose rating is positive and above the
best so far. -/
theorem find_consider_target (g : Game) (v : Virtuals) (range area : Int) (s : iff_setup)
    (st : find_state) (m : critter) :
    ((find_consider g v range area s st m).target = st.target ∧
      (find_consider g v range area s st m).best_target_rating = st.best_target_rating) ∨
    (find_consider g v range area s st m =
        { target := some m, best_target_rating := final_rating g v m,
          boo_hoo := st.boo_hoo } ∧
      passes_checks g v range area s m ∧
      ¬ (final_rating g v m ≤ st.best_target_rating) ∧ ¬ (final_rating g v m ≤ 0)) := by
  rw [find_consider_cases]
  by_cases h1 : passes_filters g v range area s m
  · by_cases h2 : friendly_fire g v area s m
    · left
      simp only [h1, h2, not_true_eq_false, if_false, if_true, and_self]
    · simp only [h1, h2, not_true_eq_false, if_false]
      split_ifs with h3 h4 h5
      · left; exact ⟨rfl, rfl⟩
      · left; exact ⟨rfl, rfl⟩
      · left; exact ⟨rfl, rfl⟩
      · right
        refine ⟨rfl, ⟨h1, h2, h5⟩, ?_, ?_⟩
        · exact fun h => h4 (Or.inl h)
        · exact fun h => h4 (Or.inr h)
  · left
    simp only [h1, not_false_eq_true, if_true, and_self]

theorem find_fold_target (g : Game) (v : Virtuals) (range area : Int) (s : iff_setup)
    (ts : List critter) :
    ∀ st : find_state,
      (ts.foldl (find_consider g v range area s) st).target = st.target ∨
      ∃ m ∈ ts, (ts.foldl (find_consider g v range area s) st).target = some m ∧
        passes_checks g v range area s m ∧ ¬ (final_rating g v m ≤ 0) := by
  induction ts with
  | nil => intro st; left; rfl
  | cons m rest ih =>
    intro st
    rw [List.foldl_cons]
    rcases ih (find_consider g v range area s st m) with h | ⟨x, hx, h1, h2⟩
    · rcases find_consider_target g v range area s st m with h3 | ⟨h3, h4, _, h6⟩
      · left
        rw [h, h3.1]
      · right
        refine ⟨m, List.mem_cons_self _ _, ?_, h4, h6⟩
        rw [h, h3]
    · right
      exact ⟨x, List.mem_cons_of_mem _ hx, h1, h2⟩


theorem final_rating_den (g : Game) (v : Virtuals) (m : critter)
    (hd : 0 < target_dist g v m) (hp : 0 < m.power_rating.den) :
    0 < (final_rating g v m).den := by
  unfold final_rating
  split_ifs
  · apply div_int_den _ _ _ hd
    rw [double_add_den]
    exact Nat.mul_pos hp (by decide)
  · exact div_int_den _ _ hp hd

/-- The rating of a candidate is at most its rating as a hostile one. -/
theorem final_rating_le_hostile (g : Game) (v : Virtuals) (m : critter)
    (hd : 0 < target_dist g v m) (hp : 0 < m.power_rating.den) :
    (final_rating g v m).toRat ≤
      ((m.power_rating + hostile_adj).div_int (target_dist g v m)).toRat := by
  have hadd : 0 < (m.power_rating + hostile_adj).den := by
    rw [double_add_den]
    exact Nat.mul_pos hp (by decide)
  have hk : (0 : ℚ) < (target_dist g v m : ℚ) := by exact_mod_cast hd
  unfold final_rating
  split_ifs
  · exact le_refl _
  · rw [toRat_div_int _ _ hp hd, toRat_div_int _ _ hadd hd,
      toRat_add _ _ hp (by decide), toRat_hostile_adj]
    apply div_le_div_of_nonneg_right _ (le_of_lt hk)
    linarith

/-- A candidate that passes every check, with a positive rating above the best so
far, becomes the target. -/
theorem find_consider_take (g : Game) (v : Virtuals) (range area : Int) (s : iff_setup)
    (st : find_state) (m : critter)
    (hd : 0 < target_dist g v m) (hp : 0 < m.power_rating.den)
    (hb : 0 < st.best_target_rating.den)
    (hpass : passes_checks g v range area s m)
    (h1 : ¬ (final_rating g v m ≤ st.best_target_rating))
    (h2 : ¬ (final_rating g v m ≤ 0)) :
    find_consider g v range area s st m =
      { target := some m, best_target_rating := final_rating g v m,
        boo_hoo := st.boo_hoo } := by
  have hadd : 0 < (m.power_rating + hostile_adj).den := by
    rw [double_add_den]
    exact Nat.mul_pos hp (by decide)
  have hfd := final_rating_den g v m hd hp
  have hshort : ¬ (maybe_boo g v s m = false ∧
      (m.power_rating + hostile_adj).div_int (target_dist g v m) ≤ st.best_target_rating) := by
    rintro ⟨_, h3⟩
    apply h1
    rw [toRat_le_iff _ _ hfd hb]
    rw [toRat_le_iff _ _ (div_int_den _ _ hadd hd) hb] at h3
    exact le_trans (final_rating_le_hostile g v m hd hp) h3
  have hor : ¬ (final_rating g v m ≤ st.best_target_rating ∨ final_rating g v m ≤ 0) := by
    rintro (h | h)
    · exact h1 h
    · exact h2 h
  rw [find_consider_cases]
  simp only [hpass.1, hpass.2.1, hpass.2.2, hshort, hor, not_true_eq_false, if_false]

theorem best_so_far_step (g : Game) (v : Virtuals) (range area : Int) (s : iff_setup)
    (done : List critter) (st : find_state) (m : critter)
    (hall : ∀ x ∈ done ++ [m], 0 < target_dist g v x ∧ 0 < x.power_rating.den)
    (hinv : best_so_far g v range area s done st) :
    best_so_far g v range area s (done ++ [m]) (find_consider g v range area s st m) := by
  obtain ⟨hb, hinv⟩ := hinv
  have hm := hall m (by simp)
  have hfd := final_rating_den g v m hm.1 hm.2
  have hx : ∀ x ∈ done, 0 < (final_rating g v x).den := fun x hx =>
    final_rating_den g v x (hall x (by simp [hx])).1 (hall x (by simp [hx])).2
  by_cases hC : passes_checks g v range area s m ∧
      ¬ (final_rating g v m ≤ st.best_target_rating) ∧ ¬ (final_rating g v m ≤ 0)
  · obtain ⟨hpass, h1, h2⟩ := hC
    rw [find_consider_take g v range area s st m hm.1 hm.2 hb hpass h1 h2]
    have h1q : st.best_target_rating.toRat < (final_rating g v m).toRat := by
      rw [← toRat_lt_iff _ _ hb hfd]
      exact (double_not_le _ _).mp h1
    have h2q : 0 < (final_rating g v m).toRat := by
      have := (double_not_le _ _).mp h2
      rw [toRat_lt_iff _ _ (by decide) hfd, toRat_zero] at this
      exact this
    refine ⟨hfd, Or.inr ⟨m, done, [], rfl, rfl, rfl, hpass, h2q, ?_, ?_⟩⟩
    · intro x hxd hxp
      rcases hinv with ⟨_, _, h5⟩ | ⟨m0, p1, p2, hdone, _, hbest, _, _, hp1, hp2⟩
      · exact lt_of_le_of_lt (h5 x hxd hxp) h2q
      · rw [hbest] at h1q
        rw [hdone] at hxd
        rcases List.mem_append.mp hxd with h6 | h6
        · exact lt_trans (hp1 x h6 hxp) h1q
        · rcases List.mem_cons.mp h6 with h7 | h7
          · rw [h7]
            exact h1q
          · exact lt_of_le_of_lt (hp2 x h7 hxp) h1q
    · intro x hxd
      simp at hxd
  · have hkeep : (find_consider g v range area s st m).target = st.target ∧
        (find_consider g v range area s st m).best_target_rating = st.best_target_rating := by
      rcases find_consider_target g v range area s st m with h | ⟨_, h3, h4, h5⟩
      · exact h
      · exact absurd ⟨h3, h4, h5⟩ hC
    have hm_le : passes_checks g v range area s m →
        (final_rating g v m).toRat ≤ st.best_target_rating.toRat ∨
        (final_rating g v m).toRat ≤ 0 := by
      intro hpass
      by_cases h1 : final_rating g v m ≤ st.best_target_rating
      · left
        exact (toRat_le_iff _ _ hfd hb).mp h1
      · by_cases h2 : final_rating g v m ≤ 0
        · right
          have := (toRat_le_iff _ _ hfd (by decide)).mp h2
          rw [toRat_zero] at this
          exact this
        · exact absurd ⟨hpass, h1, h2⟩ hC
    refine ⟨by rw [hkeep.2]; exact hb, ?_⟩
    rcases hinv with ⟨h3, h4, h5⟩ | ⟨m0, p1, p2, hdone, htar, hbest, hp0, hpos, hp1, hp2⟩
    · left
      refine ⟨by rw [hkeep.1]; exact h3, by rw [hkeep.2]; exact h4, ?_⟩
      intro x hxd hxp
      rcases List.mem_append.mp hxd with h6 | h6
      · exact h5 x h6 hxp
      · have hxm : x = m := by simpa using h6
        rw [hxm] at hxp ⊢
        rcases hm_le hxp with h7 | h7
        · exact le_of_lt (lt_of_le_of_lt h7 h4)
        · exact h7
    · right
      refine ⟨m0, p1, p2 ++ [m], ?_, by rw [hkeep.1]; exact htar,
        by rw [hkeep.2]; exact hbest, hp0, hpos, hp1, ?_⟩
      · rw [hdone]
        simp
      · intro x hxd hxp
        rcases List.mem_append.mp hxd with h6 | h6
        · exact hp2 x h6 hxp
        · have hxm : x = m := by simpa using h6
          rw [hxm] at hxp ⊢
          rw [hbest] at hm_le
          rcases hm_le hxp with h7 | h7
          · exact h7
          · exact le_trans h7 (le_of_lt hpos)

theorem best_so_far_fold (g : Game) (v : Virtuals) (range area : Int) (s : iff_setup)
    (ts : List critter) :
    ∀ (done : List critter) (st : find_state),
      (∀ x ∈ done ++ ts, 0 < target_dist g v x ∧ 0 < x.power_rating.den) →
      best_so_far g v range area s done st →
      best_so_far g v range area s (done ++ ts)
        (ts.foldl (find_consider g v range area s) st) := by
  induction ts with
  | nil =>
    intro done st _ h
    simpa using h
  | cons m rest ih =>
    intro done st hall h
    have hstep := best_so_far_step g v range area s done st m
      (fun x hx => hall x (by
        rcases List.mem_append.mp hx with h1 | h1
        · exact List.mem_append_left _ h1
        · have : x = m := by simpa using h1
          rw [this]
          simp)) h
    have := ih (done ++ [m]) (find_consider g v range area s st m)
      (fun x hx => hall x (by simpa using hx)) hstep
    rw [List.foldl_cons]
    simpa using this


/-- C21: with grid distances that are not negative and finite power ratings,
`auto_find_hostile_target` returns a candidate `m` only if `m` passes every
visibility, range, pre-filter, vehicle and friendly-fire check and has a positive
final rating; every such candidate before `m` in the list has a smaller final
rating and every such candidate after it has none larger; and no target is
returned exactly when no candidate that passes the checks has a positive final
rating. -/
theorem auto_find_best_target (g : Game) (v : Virtuals) (c : Creature) (range area : Int)
    (hdist : ∀ m ∈ find_targets g, 0 ≤ g.rl_dist v.pos m.pos)
    (hfin : ∀ m ∈ find_targets g, 0 < m.power_rating.den) :
    (∀ m, (auto_find_hostile_target g v c range area).1 = some m →
      ∃ p1 p2, find_targets g = p1 ++ m :: p2 ∧
        passes_checks g v range area (find_setup g v c range area) m ∧
        0 < final_rating g v m ∧
        (∀ x ∈ p1, passes_checks g v range area (find_setup g v c range area) x →
          final_rating g v x < final_rating g v m) ∧
        (∀ x ∈ p2, passes_checks g v range area (find_setup g v c range area) x →
          final_rating g v x ≤ final_rating g v m)) ∧
    ((auto_find_hostile_target g v c range area).1 = none ↔
      ∀ x ∈ find_targets g,
        passes_checks g v range area (find_setup g v c range area) x →
        ¬ (0 < final_rating g v x)) := by
  have hall : ∀ x ∈ find_targets g, 0 < target_dist g v x ∧ 0 < x.power_rating.den := by
    intro x hx
    have := hdist x hx
    exact ⟨by unfold target_dist; omega, hfin x hx⟩
  have hden : ∀ x ∈ find_targets g, 0 < (final_rating g v x).den := fun x hx =>
    final_rating_den g v x (hall x hx).1 (hall x hx).2
  have h0 : best_so_far g v range area (find_setup g v c range area) [] {} := by
    refine ⟨by decide, Or.inl ⟨rfl, ?_, ?_⟩⟩
    · show (((-1 : Int) : ℚ)) / ((1 : Nat) : ℚ) < 0
      norm_num
    · intro x hx
      simp at hx
  have hinv := best_so_far_fold g v range area (find_setup g v c range area) (find_targets g)
    [] {} (by simpa using hall) h0
  rw [List.nil_append] at hinv
  obtain ⟨_, hinv⟩ := hinv
  have htar : (auto_find_hostile_target g v c range area).1 =
      ((find_targets g).foldl (find_consider g v range area (find_setup g v c range area))
        {}).target := rfl
  have hpos : ∀ x ∈ find_targets g, (0 < final_rating g v x ↔
      0 < (final_rating g v x).toRat) := by
    intro x hx
    rw [toRat_lt_iff _ _ (by decide) (hden x hx), toRat_zero]
  rw [htar]
  constructor
  · intro m hm
    rcases hinv with ⟨h1, _, _⟩ | ⟨m0, p1, p2, hts, htm, _, hp0, hpos0, hp1, hp2⟩
    · rw [h1] at hm
      exact absurd hm (by simp)
    · rw [htm] at hm
      have hmm : m0 = m := Option.some.inj hm
      rw [hmm] at hts hp0 hpos0 hp1 hp2
      have hmem : m ∈ find_targets g := by
        rw [hts]
        simp
      refine ⟨p1, p2, hts, hp0, (hpos m hmem).mpr hpos0, ?_, ?_⟩
      · intro x hx hxp
        have hxm : x ∈ find_targets g := by
          rw [hts]
          exact List.mem_append_left _ hx
        rw [toRat_lt_iff _ _ (hden x hxm) (hden m hmem)]
        exact hp1 x hx hxp
      · intro x hx hxp
        have hxm : x ∈ find_targets g := by
          rw [hts]
          exact List.mem_append_right _ (List.mem_cons_of_mem _ hx)
        rw [toRat_le_iff _ _ (hden x hxm) (hden m hmem)]
        exact hp2 x hx hxp
  · constructor
    · intro hnone x hx hxp hxpos
      rcases hinv with ⟨_, _, h3⟩ | ⟨m0, _, _, _, htm, _⟩
      · have := h3 x hx hxp
        have h4 := (hpos x hx).mp hxpos
        linarith
      · rw [htm] at hnone
        exact absurd hnone (by simp)
    · intro hno
      rcases hinv with ⟨h1, _, _⟩ | ⟨m0, p1, p2, hts, _, _, hp0, hpos0, _⟩
      · exact h1
      · have hmem : m0 ∈ find_targets g := by
          rw [hts]
          simp
        exact absurd ((hpos m0 hmem).mpr hpos0) (hno m0 hmem hp0)

/-- Three candidates seen by a turret at the origin: the hostile one to the south
has the final rating 12 / 3 and is returned; the neutral one after it has the
smaller rating 8 / 3; the hostile one to the east is passed over for the safety of
the player behind it. -/
theorem auto_find_best_target_witness :
    (∀ m ∈ find_targets pair_field, 0 ≤ pair_field.rl_dist sharp_turret.pos m.pos) ∧
    (∀ m ∈ find_targets pair_field, 0 < m.power_rating.den) ∧
    (auto_find_hostile_target pair_field sharp_turret {} 10 0).1 = some south_brute ∧
    ∃ p1 p2, find_targets pair_field = p1 ++ south_brute :: p2 ∧
      passes_checks pair_field sharp_turret 10 0 (find_setup pair_field sharp_turret {} 10 0)
        south_brute ∧
      0 < final_rating pair_field sharp_turret south_brute ∧
      (∀ x ∈ p1,
        passes_checks pair_field sharp_turret 10 0
          (find_setup pair_field sharp_turret {} 10 0) x →
        final_rating pair_field sharp_turret x < final_rating pair_field sharp_turret
          south_brute) ∧
      (∀ x ∈ p2,
        passes_checks pair_field sharp_turret 10 0
          (find_setup pair_field sharp_turret {} 10 0) x →
        final_rating pair_field sharp_turret x ≤ final_rating pair_field sharp_turret
          south_brute) :=
  ⟨by decide, by decide, by decide,
   (auto_find_best_target pair_field sharp_turret {} 10 0 (by decide) (by decide)).1
     south_brute (by decide)⟩

/-- C22: a target returned by `auto_find_hostile_target` is one of the candidates,
is seen by the shooter, has an offset distance `rl_dist + 1` between `area` and
`range + 1`, has a power rating that the hostile bonus makes positive, and is not
on the vehicle at the position of a shooter that is a fake creature (the vehicle
it is part of). -/
theorem auto_find_target_checked (g : Game) (v : Virtuals) (c : Creature) (range area : Int)
    (m : critter) (h : (auto_find_hostile_target g v c range area).1 = some m) :
    m ∈ find_targets g ∧
    v.sees m = true ∧
    area ≤ g.rl_dist v.pos m.pos + 1 ∧
    g.rl_dist v.pos m.pos + 1 ≤ range + 1 ∧
    0 < m.power_rating + hostile_adj ∧
    (∀ veh, c.fake = true → (g.veh_at v.pos).map Prod.fst = some veh →
      (g.veh_at m.pos).map Prod.fst ≠ some veh) := by
  have htar : (auto_find_hostile_target g v c range area).1 =
      ((find_targets g).foldl (find_consider g v range area (find_setup g v c range area))
        {}).target := rfl
  rw [htar] at h
  rcases find_fold_target g v range area (find_setup g v c range area) (find_targets g) {}
    with h1 | ⟨x, hx, h1, h2, _⟩
  · rw [h1] at h
    exact absurd h (by simp)
  · rw [h1] at h
    have hxm : x = m := Option.some.inj h
    rw [hxm] at hx h2
    obtain ⟨⟨hs, hr, hp, hv⟩, _, _⟩ := h2
    unfold target_dist at hr
    refine ⟨hx, hs, by omega, by omega, (double_not_le _ _).mp hp, ?_⟩
    intro veh hfake hat hm
    apply hv
    have hin : (find_setup g v c range area).in_veh = some veh := by
      simp [find_setup, hfake, hat]
    rw [hin]
    exact ⟨by simp, hm⟩

/-- The turret at the origin, with the candidates in the other order, returns the
hostile monster 2 tiles to the south: it is seen, its offset distance 3 lies in
`[0, 11]` and its power rating 10 is positive with the bonus. -/
theorem auto_find_target_checked_witness :
    (auto_find_hostile_target pair_field_swapped sharp_turret {} 10 0).1 = some south_brute ∧
    sharp_turret.sees south_brute = true ∧
    (0 : Int) ≤ pair_field_swapped.rl_dist sharp_turret.pos south_brute.pos + 1 ∧
    pair_field_swapped.rl_dist sharp_turret.pos south_brute.pos + 1 ≤ 10 + 1 ∧
    0 < south_brute.power_rating + hostile_adj :=
  ⟨by decide,
   (auto_find_target_checked pair_field_swapped sharp_turret {} 10 0 south_brute
      (by decide)).2.1,
   (auto_find_target_checked pair_field_swapped sharp_turret {} 10 0 south_brute
      (by decide)).2.2.1,
   (auto_find_target_checked pair_field_swapped sharp_turret {} 10 0 south_brute
      (by decide)).2.2.2.1,
   (auto_find_target_checked pair_field_swapped sharp_turret {} 10 0 south_brute
      (by decide)).2.2.2.2.1⟩


theorem find_targets_perm (g : Game) (zs : List monster) (ns : List npc)
    (hz : zs.Perm g.zombies) (hn : ns.Perm g.active_npc) :
    (find_targets { g with zombies := zs, active_npc := ns }).Perm (find_targets g) := by
  unfold find_targets
  exact List.Perm.append ((hz.filter _).map _) ((hn.filter _).map _)

/-- C25, as amended: the value left in `boo_hoo` is the number of candidates that
pass the visibility, range, pre-filter and own-vehicle checks and have the player
within the area of effect or are hostile with the player in the cone; a hostile
candidate in the cone that passes those checks is counted whatever the best
rating so far, and the target is kept; the count is the same for every order of
the monsters and of the npcs. -/
theorem auto_find_boo_hoo_count (g : Game) (v : Virtuals) (c : Creature) (range area : Int) :
    (auto_find_hostile_target g v c range area).2 =
      (((find_targets g).countP
        (boo_counted g v range area (find_setup g v c range area)) : Nat) : Int) ∧
    (∀ (st : find_state) (m : critter),
      passes_filters g v range area (find_setup g v c range area) m →
      m.attitude_to_u = Attitude.A_HOSTILE →
      maybe_boo g v (find_setup g v c range area) m = true →
      find_consider g v range area (find_setup g v c range area) st m =
        { st with boo_hoo := st.boo_hoo + 1 }) ∧
    (∀ (zs : List monster) (ns : List npc), zs.Perm g.zombies → ns.Perm g.active_npc →
      (auto_find_hostile_target { g with zombies := zs, active_npc := ns } v c range area).2 =
        (auto_find_hostile_target g v c range area).2) := by
  have hcount : ∀ g1 : Game, (auto_find_hostile_target g1 v c range area).2 =
      (((find_targets g1).countP
        (boo_counted g1 v range area (find_setup g1 v c range area)) : Nat) : Int) := by
    intro g1
    have h := find_fold_boo_hoo g1 v range area (find_setup g1 v c range area)
      (find_targets g1) {}
    have h0 : ({} : find_state).boo_hoo = 0 := rfl
    rw [h0, zero_add] at h
    exact h
  refine ⟨hcount g, ?_, ?_⟩
  · intro st m hp hh hb
    rw [find_consider_cases]
    have hff : friendly_fire g v area (find_setup g v c range area) m := Or.inr ⟨hh, hb⟩
    simp only [hp, hff, not_true_eq_false, if_false, if_true]
  · intro zs ns hz hn
    rw [hcount, hcount g]
    have hperm := find_targets_perm g zs ns hz hn
    have hrfl : boo_counted { g with zombies := zs, active_npc := ns } v range area
        (find_setup { g with zombies := zs, active_npc := ns } v c range area) =
        boo_counted g v range area (find_setup g v c range area) := rfl
    rw [hrfl, hperm.countP_eq]

/-- C25 as stated fails: the hostile monster to the east, with the player in the
cone behind it, is examined after a monster of rating 12 / 3 has become the
target; its own rating can be at most 3 / 4, and still it is counted, as it is
when it is examined first; and no candidate that is hostile, in the cone and past
the first four checks leaves `boo_hoo` as it was. -/
theorem auto_find_boo_hoo_count_counterexample :
    find_targets pair_field = [south_brute, east_zombie, north_stray] ∧
    east_zombie.attitude_to_u = Attitude.A_HOSTILE ∧
    maybe_boo pair_field sharp_turret (find_setup pair_field sharp_turret {} 10 0)
      east_zombie = true ∧
    (east_zombie.power_rating + hostile_adj).div_int
        (target_dist pair_field sharp_turret east_zombie) ≤
      final_rating pair_field sharp_turret south_brute ∧
    auto_find_hostile_target pair_field sharp_turret {} 10 0 = (some south_brute, 1) ∧
    auto_find_hostile_target pair_field_swapped sharp_turret {} 10 0 =
      (some south_brute, 1) ∧
    ¬ ∃ (g : Game) (v : Virtuals) (range area : Int) (s : iff_setup) (st : find_state)
        (m : critter),
      passes_filters g v range area s m ∧ m.attitude_to_u = Attitude.A_HOSTILE ∧
      maybe_boo g v s m = true ∧
      (find_consider g v range area s st m).boo_hoo = st.boo_hoo := by
  refine ⟨by decide, by decide, by decide, by decide, by decide, by decide, ?_⟩
  rintro ⟨g, v, range, area, s, st, m, hp, hh, hb, hcount⟩
  rw [find_consider_boo_hoo] at hcount
  have hbc : boo_counted g v range area s m = true := by
    unfold boo_counted
    exact decide_eq_true ⟨hp, Or.inr ⟨hh, hb⟩⟩
  rw [if_pos hbc] at hcount
  omega



/-- The hostile monster to the east, with the player in the cone behind it, is
examined when the best rating so far is 12 / 3: it is counted and the target is
kept. -/
theorem auto_find_boo_hoo_count_witness :
    passes_filters pair_field sharp_turret 10 0 (find_setup pair_field sharp_turret {} 10 0)
      east_zombie ∧
    find_consider pair_field sharp_turret 10 0 (find_setup pair_field sharp_turret {} 10 0)
      { target := some south_brute,
        best_target_rating := final_rating pair_field sharp_turret south_brute,
        boo_hoo := 0 } east_zombie =
      { target := some south_brute,
        best_target_rating := final_rating pair_field sharp_turret south_brute,
        boo_hoo := 0 + 1 } :=
  ⟨by decide,
   (auto_find_boo_hoo_count pair_field sharp_turret {} 10 0).2.1
     { target := some south_brute,
       best_target_rating := final_rating pair_field sharp_turret south_brute,
       boo_hoo := 0 } east_zombie (by decide) (by decide) (by decide)⟩

/-! ## Body-part selection without scaling -/


theorem total_weight_fold (l : List (body_part × double)) :
    ∀ a : double, 0 < a.den → (∀ p ∈ l, 0 < p.2.den) →
      0 < (l.foldl (fun acc hit_weight => acc + hit_weight.2) a).den ∧
      (l.foldl (fun acc hit_weight => acc + hit_weight.2) a).toRat =
        a.toRat + (l.map (fun p => p.2.toRat)).sum := by
  induction l with
  | nil => intro a ha _; simpa using ha
  | cons p rest ih =>
    intro a ha hl
    have hp : 0 < p.2.den := hl p (List.mem_cons_self _ _)
    have hap : 0 < (a + p.2).den := by
      rw [double_add_den]
      exact Nat.mul_pos ha hp
    have := ih (a + p.2) hap (fun q hq => hl q (List.mem_cons_of_mem _ hq))
    rw [List.foldl_cons]
    refine ⟨this.1, ?_⟩
    rw [this.2, toRat_add _ _ ha hp, List.map_cons, List.sum_cons]
    ring

theorem total_weight_toRat (l : List (body_part × double)) (hl : ∀ p ∈ l, 0 < p.2.den) :
    0 < (total_weight l).den ∧
    (total_weight l).toRat = (l.map (fun p => p.2.toRat)).sum := by
  have := total_weight_fold l 0 (by decide) hl
  rw [toRat_zero, zero_add] at this
  exact this

/-- The last loop of `select_body_part` selects the entry for which the roll is
above the sum of the weights before it and not above that sum plus its weight. -/
theorem select_from_interval (pre : List (body_part × double)) :
    ∀ (roll : double) (bp : body_part) (w : double) (post : List (body_part × double)),
      0 < roll.den → 0 < w.den →
      (∀ p ∈ pre, 0 < p.2.den ∧ 0 ≤ p.2.toRat) →
      (pre = [] ∨ (pre.map (fun p => p.2.toRat)).sum < roll.toRat) →
      roll.toRat ≤ (pre.map (fun p => p.2.toRat)).sum + w.toRat →
      select_from (pre ++ (bp, w) :: post) roll = bp := by
  induction pre with
  | nil =>
    intro roll bp w post hr hw _ _ hle
    simp only [List.map_nil, List.sum_nil, zero_add] at hle
    have h1 : roll - w ≤ 0 := by
      rw [toRat_le_iff _ _ (by rw [double_sub_den]; exact Nat.mul_pos hr hw) (by decide),
        toRat_sub _ _ hr hw, toRat_zero]
      linarith
    simp only [List.nil_append, select_from, h1, if_true]
  | cons p rest ih =>
    intro roll bp w post hr hw hpre hlt hle
    obtain ⟨b0, w0⟩ := p
    have hw0 := hpre (b0, w0) (List.mem_cons_self _ _)
    simp only at hw0
    have hrest : ∀ q ∈ rest, 0 < q.2.den ∧ 0 ≤ q.2.toRat := fun q hq =>
      hpre q (List.mem_cons_of_mem _ hq)
    have hsum_nonneg : 0 ≤ (rest.map (fun p => p.2.toRat)).sum := by
      apply List.sum_nonneg
      intro x hx
      obtain ⟨q, hq, rfl⟩ := List.mem_map.mp hx
      exact (hrest q hq).2
    have hlt1 : w0.toRat + (rest.map (fun p => p.2.toRat)).sum < roll.toRat := by
      rcases hlt with h | h
      · exact absurd h (by simp)
      · simpa using h
    have hsub : 0 < (roll - w0).den := by
      rw [double_sub_den]
      exact Nat.mul_pos hr hw0.1
    have h1 : ¬ (roll - w0 ≤ 0) := by
      rw [toRat_le_iff _ _ hsub (by decide), toRat_sub _ _ hr hw0.1, toRat_zero]
      linarith
    have hsubq := toRat_sub _ _ hr hw0.1
    simp only [List.map_cons, List.sum_cons] at hle
    simp only [List.cons_append, select_from, h1, if_false]
    clear h1
    apply ih (roll - w0) bp w post hsub hw hrest
    · right
      rw [hsubq]
      linarith
    · rw [hsubq]
      linarith

theorem default_hit_weights_cases (z : Int) :
    default_hit_weights z = default_hit_weights (-1) ∨
    default_hit_weights z = default_hit_weights 0 ∨
    default_hit_weights z = default_hit_weights 1 := by
  by_cases h1 : z = -1
  · left; rw [h1]
  · by_cases h2 : z = 0
    · right; left; rw [h2]
    · right; right
      unfold default_hit_weights
      simp [h1, h2]

/-- The weights `select_body_part` draws from for a hit roll of 0: the table of
the size difference, with 1 more for the eyes and 5 more for the head of a
target on the ground. -/
theorem hit_weights_zero (g : Game) (v : Virtuals) (source : creature_ref) :
    hit_weights g v source 0 =
      if v.is_on_ground then
        weight_update
          (weight_update (default_hit_weights (size_difference v source)) body_part.bp_eyes
            (fun w => w + 1)) body_part.bp_head (fun w => w + 5)
      else default_hit_weights (size_difference v source) := by
  unfold hit_weights
  simp

theorem hit_weights_zero_cases (g : Game) (v : Virtuals) (source : creature_ref) :
    ∃ (b : Bool) (z : Int), (z = -1 ∨ z = 0 ∨ z = 1) ∧
      b = v.is_on_ground ∧
      default_hit_weights (size_difference v source) = default_hit_weights z ∧
      hit_weights g v source 0 =
        if b then
          weight_update (weight_update (default_hit_weights z) body_part.bp_eyes
            (fun w => w + 1)) body_part.bp_head (fun w => w + 5)
        else default_hit_weights z := by
  rw [hit_weights_zero]
  rcases default_hit_weights_cases (size_difference v source) with h | h | h
  · exact ⟨v.is_on_ground, -1, Or.inl rfl, rfl, h, by rw [h]⟩
  · exact ⟨v.is_on_ground, 0, Or.inr (Or.inl rfl), rfl, h, by rw [h]⟩
  · exact ⟨v.is_on_ground, 1, Or.inr (Or.inr rfl), rfl, h, by rw [h]⟩


theorem toRat_mul (a b : double) (ha : 0 < a.den) (hb : 0 < b.den) :
    (a * b).toRat = a.toRat * b.toRat := by
  have ha1 : (a.den : ℚ) ≠ 0 := by exact_mod_cast (Nat.pos_iff_ne_zero.mp ha)
  have hb1 : (b.den : ℚ) ≠ 0 := by exact_mod_cast (Nat.pos_iff_ne_zero.mp hb)
  show (((a.num * b.num : Int) : ℚ)) / (((a.den * b.den : Nat) : ℚ)) =
    (a.num : ℚ) / (a.den : ℚ) * ((b.num : ℚ) / (b.den : ℚ))
  push_cast
  field_simp

theorem double_mul_den (a b : double) : (a * b).den = a.den * b.den := rfl

/-- A draw of `rng_float( 0, hi )` for a finite `hi` that is not negative lies
between 0 and `hi`. -/
theorem rng_float_zero_bounds (hi : double) (t : rng_tape) (hd : 0 < hi.den)
    (hpos : 0 ≤ hi.toRat) :
    0 < (rng_float 0 hi t).1.den ∧ 0 ≤ (rng_float 0 hi t).1.toRat ∧
    (rng_float 0 hi t).1.toRat ≤ hi.toRat := by
  have hz : (0 : double).den = 1 := rfl
  have hneg : 0 < ({ num := -(0 : double).num, den := (0 : double).den } : double).den := by
    decide
  have hnegq : ({ num := -(0 : double).num, den := (0 : double).den } : double).toRat = 0 := by
    show (((-0 : Int)) : ℚ) / ((1 : Nat) : ℚ) = 0
    simp
  have hk : 0 < ({ num := Int.ofNat (t.headD 0 % 1001), den := 1000 } : double).den := by
    show 0 < 1000
    decide
  have hkq : ({ num := Int.ofNat (t.headD 0 % 1001), den := 1000 } : double).toRat =
      ((t.headD 0 % 1001 : Nat) : ℚ) / 1000 := by
    show ((Int.ofNat (t.headD 0 % 1001) : Int) : ℚ) / ((1000 : Nat) : ℚ) = _
    have h1 : ((Int.ofNat (t.headD 0 % 1001) : Int) : ℚ) = ((t.headD 0 % 1001 : Nat) : ℚ) := by
      rw [Int.ofNat_eq_coe, Int.cast_natCast]
    rw [h1]
    norm_num
  have hsum : 0 < (hi + ({ num := -(0 : double).num, den := (0 : double).den } : double)).den := by
    rw [double_add_den]
    exact Nat.mul_pos hd hneg
  have hprod : 0 < ((hi + ({ num := -(0 : double).num, den := (0 : double).den } : double)) *
      ({ num := Int.ofNat (t.headD 0 % 1001), den := 1000 } : double)).den := by
    rw [double_mul_den]
    exact Nat.mul_pos hsum hk
  have hval : (rng_float 0 hi t).1.toRat = hi.toRat * (((t.headD 0 % 1001 : Nat) : ℚ) / 1000) := by
    show ((0 : double) + (hi + ({ num := -(0 : double).num, den := (0 : double).den } : double)) *
      ({ num := Int.ofNat (t.headD 0 % 1001), den := 1000 } : double)).toRat = _
    rw [toRat_add _ _ (by decide) hprod, toRat_mul _ _ hsum hk, toRat_add _ _ hd hneg, hnegq,
      hkq, toRat_zero]
    ring
  have hk0 : (0 : ℚ) ≤ ((t.headD 0 % 1001 : Nat) : ℚ) / 1000 := by positivity
  have hk1 : ((t.headD 0 % 1001 : Nat) : ℚ) / 1000 ≤ 1 := by
    have : t.headD 0 % 1001 ≤ 1000 := by omega
    have h2 : ((t.headD 0 % 1001 : Nat) : ℚ) ≤ 1000 := by exact_mod_cast this
    rw [div_le_one (by norm_num)]
    exact h2
  refine ⟨?_, ?_, ?_⟩
  · show 0 < ((0 : double) + (hi + ({ num := -(0 : double).num, den := (0 : double).den } :
      double)) * ({ num := Int.ofNat (t.headD 0 % 1001), den := 1000 } : double)).den
    rw [double_add_den]
    exact Nat.mul_pos (by decide) hprod
  · rw [hval]
    exact mul_nonneg hpos hk0
  · rw [hval]
    calc hi.toRat * (((t.headD 0 % 1001 : Nat) : ℚ) / 1000) ≤ hi.toRat * 1 :=
          mul_le_mul_of_nonneg_left hk1 hpos
      _ = hi.toRat := mul_one _

/-- Every weight of `select_body_part` for a hit roll of 0 is a finite number that
is not negative. -/
theorem hit_weights_zero_finite (g : Game) (v : Virtuals) (source : creature_ref) :
    ∀ p ∈ hit_weights g v source 0, 0 < p.2.den ∧ 0 ≤ p.2 := by
  obtain ⟨b, z, hz, _, _, hw⟩ := hit_weights_zero_cases g v source
  rw [hw]
  rcases hz with h | h | h <;> rw [h] <;> cases b <;> decide

/-- C24: for a hit roll of 0 the weights `select_body_part` draws from are those of
the table for the size difference brought into -1, 0, 1, with 1 more for the eyes
and 5 more for the head of a target on the ground; `std::pow` is not consulted;
every weight is finite and not negative; the roll lies between 0 and the sum of
the weights; and a roll above the sum of the weights before a body part and not
above that sum plus the weight of the part selects this part, so that the rolls
that select a part fill an interval as long as its weight. -/
theorem select_body_part_unscaled (g : Game) (v : Virtuals) (source : creature_ref) :
    (hit_weights g v source 0 =
      if v.is_on_ground then
        weight_update
          (weight_update (default_hit_weights (size_difference v source)) body_part.bp_eyes
            (fun w => w + 1)) body_part.bp_head (fun w => w + 5)
      else default_hit_weights (size_difference v source)) ∧
    (-1 ≤ size_difference v source ∧ size_difference v source ≤ 1) ∧
    (∀ g2 : Game, hit_weights g2 v source 0 = hit_weights g v source 0) ∧
    (∀ p ∈ hit_weights g v source 0, 0 < p.2.den ∧ 0 ≤ p.2) ∧
    (∀ t : rng_tape,
      (select_body_part g v source 0 t).1 =
        select_from (hit_weights g v source 0)
          (rng_float 0 (total_weight (hit_weights g v source 0)) t).1 ∧
      0 ≤ (rng_float 0 (total_weight (hit_weights g v source 0)) t).1 ∧
      (rng_float 0 (total_weight (hit_weights g v source 0)) t).1 ≤
        total_weight (hit_weights g v source 0)) ∧
    (∀ (roll : double) (pre : List (body_part × double)) (bp : body_part) (w : double)
        (post : List (body_part × double)),
      0 < roll.den → hit_weights g v source 0 = pre ++ (bp, w) :: post →
      (pre = [] ∨ total_weight pre < roll) → roll ≤ total_weight pre + w →
      select_from (hit_weights g v source 0) roll = bp) := by
  have hfin := hit_weights_zero_finite g v source
  have hfinq : ∀ p ∈ hit_weights g v source 0, 0 < p.2.den ∧ 0 ≤ p.2.toRat := by
    intro p hp
    have := hfin p hp
    refine ⟨this.1, ?_⟩
    have h2 := (toRat_le_iff _ _ (by decide) this.1).mp this.2
    rw [toRat_zero] at h2
    exact h2
  have htot := total_weight_toRat (hit_weights g v source 0) (fun p hp => (hfin p hp).1)
  have htot0 : 0 ≤ (total_weight (hit_weights g v source 0)).toRat := by
    rw [htot.2]
    apply List.sum_nonneg
    intro x hx
    obtain ⟨q, hq, rfl⟩ := List.mem_map.mp hx
    exact (hfinq q hq).2
  refine ⟨hit_weights_zero g v source, ?_, ?_, hfin, ?_, ?_⟩
  · unfold size_difference
    simp only
    split_ifs <;> omega
  · intro g2
    rw [hit_weights_zero, hit_weights_zero]
  · intro t
    have hb := rng_float_zero_bounds (total_weight (hit_weights g v source 0)) t htot.1 htot0
    refine ⟨rfl, ?_, ?_⟩
    · rw [toRat_le_iff _ _ (by decide) hb.1, toRat_zero]
      exact hb.2.1
    · rw [toRat_le_iff _ _ hb.1 htot.1]
      exact hb.2.2
  · intro roll pre bp w post hr hws hlt hle
    have hpre : ∀ p ∈ pre, 0 < p.2.den ∧ 0 ≤ p.2.toRat := fun p hp =>
      hfinq p (by rw [hws]; exact List.mem_append_left _ hp)
    have hw : 0 < w.den := (hfinq (bp, w) (by rw [hws]; simp)).1
    have hpt := total_weight_toRat pre (fun p hp => (hpre p hp).1)
    rw [hws]
    apply select_from_interval pre roll bp w post hr hw hpre
    · rcases hlt with h | h
      · exact Or.inl h
      · right
        rw [← hpt.2]
        exact (toRat_lt_iff _ _ hpt.1 hr).mp h
    · have hsum : 0 < (total_weight pre + w).den := by
        rw [double_add_den]
        exact Nat.mul_pos hpt.1 hw
      have := (toRat_le_iff _ _ hr hsum).mp hle
      rw [toRat_add _ _ hpt.1 hw, hpt.2] at this
      exact this

/-- A target of the size of the attacker, standing, and a hit roll of 0: the torso
has the weight 33.33 of the table and the eyes 0.33; on the ground the eyes have
1.33 and the head 7.33; a roll of 34 is above the weight of the torso and within
the weight of the head after it, and selects the head. -/
theorem select_body_part_unscaled_example :
    map_find (hit_weights demo_game plain_virtuals brawler 0) body_part.bp_torso =
      some { num := 3333, den := 100 } ∧
    map_find (hit_weights demo_game plain_virtuals brawler 0) body_part.bp_eyes =
      some { num := 33, den := 100 } ∧
    map_find (hit_weights demo_game prone_virtuals brawler 0) body_part.bp_eyes =
      some ({ num := 33, den := 100 } + 1) ∧
    map_find (hit_weights demo_game prone_virtuals brawler 0) body_part.bp_head =
      some ({ num := 233, den := 100 } + 5) ∧
    select_from (hit_weights demo_game plain_virtuals brawler 0) 34 = body_part.bp_head ∧
    (select_body_part demo_game plain_virtuals brawler 0 []).1 = body_part.bp_torso := by
  decide



/-- A target of the size of the attacker, standing, and a hit roll of 0: a roll of
34 is above the weight 33.33 of the torso and not above 33.33 + 2.33, and selects
the head, the part after the torso. -/
theorem select_body_part_unscaled_witness :
    hit_weights demo_game plain_virtuals brawler 0 =
      [(body_part.bp_torso, { num := 3333, den := 100 })] ++
        (body_part.bp_head, { num := 233, den := 100 }) ::
          [(body_part.bp_eyes, { num := 33, den := 100 }),
           (body_part.bp_arm_l, 20), (body_part.bp_arm_r, 20),
           (body_part.bp_leg_l, 12), (body_part.bp_leg_r, 12)] ∧
    select_from (hit_weights demo_game plain_virtuals brawler 0) 34 = body_part.bp_head :=
  ⟨by decide,
   (select_body_part_unscaled demo_game plain_virtuals brawler).2.2.2.2.2 34
     [(body_part.bp_torso, { num := 3333, den := 100 })] body_part.bp_head
     { num := 233, den := 100 }
     [(body_part.bp_eyes, { num := 33, den := 100 }),
      (body_part.bp_arm_l, 20), (body_part.bp_arm_r, 20),
      (body_part.bp_leg_l, 12), (body_part.bp_leg_r, 12)]
     (by decide) (by decide) (Or.inr (by decide)) (by decide)⟩

end Cataclysm
